import Mathlib

/-!
# AML detection engine: embedding of the Go services and their properties

The Go sources embedded here are `internal/config/rule.go`, from `internal/models` the files
`transaction.go`, `alert.go`, `account.go` and `sar_report.go`, from `internal/services`
the files `rule_engine.go`, `anomaly_detector.go`, `structuring_detector.go`,
`alert_generator.go`, `alert_status.go`, `sar_exporter.go` and `sar_generator.go`, and from
`internal/handlers/transaction_handler.go` the functions `validateTransaction` and
`isValidCurrency`.

Conventions of the embedding.

* `float64` is `F64`, a model of IEEE 754 binary64 with round-to-nearest-even: a finite
  value is the integer number of units of `2 ^ (-1074)` it holds, and every operation rounds
  the exact result.  The two zeros are identified: they compare equal in Go and the code
  embedded here never divides by a value that can be zero.  `math.Pow(x, 2)` is the value
  the loop of `pow.go` computes, which rounds twice where the square is subnormal.  Go lets
  a build fuse a product with a following addition into one operation that rounds once; the
  one expression this bears on, the score of `CalculateRiskScore`, takes the way the build
  evaluates it as a parameter (`Fusion`), and what is proved of it holds for every build.
* `time.Time` is an instant, an integer number of nanoseconds; `time.Duration` is a signed
  64-bit nanosecond count and its negation wraps as in Go.
* `time.Now()` is a parameter: a single reading `now`, or, where a function reads the clock
  several times, the sequence `clock` of its readings.  The identifier `uuid.New()` gives a
  new alert is a parameter too.
* `time.ParseDuration` and `sort.Slice`, whose code is not part of the repository, are
  parameters (`parseDuration`, `SliceSorter`).  So are, for `GenerateSARData`, the database
  (`Store`: the rows each of its three queries returns), the JSON round trip of a payload
  item (`decodeTx`) and the order in which a Go map used as a set is iterated (`MapRange`),
  and, for `LoadRules`, the reading of the file and `json.Unmarshal` into the rule slice.
  For `ExportSARToJSON` the parameters are `Time.Format(time.RFC3339)`, the order in which
  the map of patterns is iterated (`PatternRange`), `json.MarshalIndent` and `os.WriteFile`;
  for `isValidCurrency`, `unicode.ToUpper` (`UnicodeUpper`, with its values on the characters
  up to U+007F), while the regular expression `^[A-Z]{3}$` is written out.
* A slice is a `List`; the nil slice and the empty slice are both `[]`.  A Go map with string
  keys is the list of its entries, read with `mapLookup` and written with `mapSet`.
* A Go string is a sequence of bytes: `len` and slicing count the bytes of the UTF-8
  encoding (`goBytes`), not characters.
* A Go result `(v, err)` is an `Except Error`: `.error e` for `err != nil`, `.ok v` otherwise.
  Where the identity of an error matters (`errors.Is`), errors are `GoError` values.
-/

namespace AML

/-! ## Library types -/

/-- Go's `error`, identified with its message. -/
abbrev Error := String

deriving instance DecidableEq for Except

/-- Go's `time.Time`: an instant, in nanoseconds. -/
abbrev Time := Int

/-- Go's `time.Duration`: an `int64` count of nanoseconds. -/
abbrev Duration := Int

/-- Two's complement wrap-around of an integer into the `int64` range:
`(x + 2 ^ 63) % 2 ^ 64 - 2 ^ 63`. -/
def wrapInt64 (x : Int) : Int :=
  (x + 9223372036854775808) % 18446744073709551616 - 9223372036854775808

/-- Go's unary minus on a `time.Duration` (`-window`). -/
def Duration.neg (d : Duration) : Duration := wrapInt64 (-d)

/-- Go's `Time.Add`. -/
def Time.Add (t : Time) (d : Duration) : Time := t + d

/-- Go's `Time.After`: `t` is strictly later than `u`. -/
def Time.After (t u : Time) : Bool := decide (u < t)

/-- Go's `Time.Before`: `t` is strictly earlier than `u`. -/
def Time.Before (t u : Time) : Bool := decide (t < u)

/-! ## `float64`: IEEE 754 binary64 -/

/-- The first loop of `log2Floor`: the exponent `e` is doubled until `n < 2 ^ e`. -/
def log2Floor.bound : Nat → Nat → Nat → Nat
  | 0, _, e => e
  | fuel + 1, n, e => if n < 1 <<< e then e else log2Floor.bound fuel n (2 * e)

/-- The second loop of `log2Floor`: bisection of the exponents `acc, ..., acc + w - 1`, which
keeps `2 ^ acc ≤ n < 2 ^ (acc + w)`. -/
def log2Floor.search : Nat → Nat → Nat → Nat → Nat
  | 0, _, acc, _ => acc
  | fuel + 1, n, acc, w =>
    if w ≤ 1 then acc
    else if 1 <<< (acc + w / 2) ≤ n then log2Floor.search fuel n (acc + w / 2) (w - w / 2)
    else log2Floor.search fuel n acc (w / 2)

/-- The position of the leading bit of `n`: the greatest `e` with `2 ^ e ≤ n` (and 0 for
`n = 0`). -/
def log2Floor (n : Nat) : Nat :=
  let w := log2Floor.bound n n 1
  log2Floor.search w n 0 w

/-- The integer nearest to `n / u`, the even one of the two when `n / u` is half-way. -/
def roundHalfEven (n u : Nat) : Nat :=
  let q := n / u
  let r := n % u
  if 2 * r < u then q else if u < 2 * r then q + 1 else if q % 2 = 0 then q else q + 1

/-- Rounding to nearest, ties to even, with a 53-bit significand and no upper bound on the
exponent: the multiple `q * 2 ^ k` nearest to `n / d`, where `k` is 0 while `n / d < 2 ^ 53`
(the subnormal spacing, one unit) and otherwise leaves `q` 53 bits. -/
def roundNat (n d : Nat) : Nat :=
  let k := log2Floor (n / d) + 1 - 53
  roundHalfEven n (d <<< k) <<< k

/-- A `float64`.  `fin z` is the finite value `z * 2 ^ (-1074)`; the values a computation
produces have `|z| < 2 ^ 2098` and at most 53 significant bits. -/
inductive F64 where
  | nan
  | negInf
  | posInf
  | fin (z : Int)
  deriving DecidableEq

namespace F64

/-- The `float64` nearest to `± n / d` units: a magnitude that rounds to `2 ^ 1024` or more
(`2 ^ 2098` units) overflows to an infinity. -/
def round (neg : Bool) (n d : Nat) : F64 :=
  let m := roundNat n d
  if 1 <<< 2098 ≤ m then (if neg then negInf else posInf)
  else fin (if neg then -(m : Int) else (m : Int))

/-- The conversion `float64(i)` of an integer. -/
def ofInt (i : Int) : F64 := round (decide (i < 0)) (i.natAbs <<< 1074) 1

/-- The `float64` constant written as the decimal fraction `n / d`. -/
def ofRat (n d : Nat) : F64 := round false (n <<< 1074) d

/-- Unary minus. -/
def neg : F64 → F64
  | nan => nan
  | negInf => posInf
  | posInf => negInf
  | fin z => fin (-z)

/-- Go's `+` on `float64`. -/
def add : F64 → F64 → F64
  | nan, _ => nan
  | _, nan => nan
  | posInf, negInf => nan
  | negInf, posInf => nan
  | posInf, _ => posInf
  | _, posInf => posInf
  | negInf, _ => negInf
  | _, negInf => negInf
  | fin a, fin b => round (decide (a + b < 0)) (a + b).natAbs 1

/-- Go's `-` on `float64`. -/
def sub (x y : F64) : F64 := add x (neg y)

/-- Go's `*` on `float64`. -/
def mul : F64 → F64 → F64
  | nan, _ => nan
  | _, nan => nan
  | posInf, posInf => posInf
  | posInf, negInf => negInf
  | negInf, posInf => negInf
  | negInf, negInf => posInf
  | posInf, fin b => if b = 0 then nan else if b < 0 then negInf else posInf
  | negInf, fin b => if b = 0 then nan else if b < 0 then posInf else negInf
  | fin a, posInf => if a = 0 then nan else if a < 0 then negInf else posInf
  | fin a, negInf => if a = 0 then nan else if a < 0 then posInf else negInf
  | fin a, fin b => round (decide (a * b < 0)) (a.natAbs * b.natAbs) (1 <<< 1074)

/-- The fused multiply-add `x * y + z`, which rounds once (Go's `math.FMA`, and the machine
instruction a Go compiler may use for a product followed by a sum). -/
def fma : F64 → F64 → F64 → F64
  | fin a, fin b, fin c =>
    round (decide (a * b + c * ((1 <<< 1074 : Nat) : Int) < 0))
      (a * b + c * ((1 <<< 1074 : Nat) : Int)).natAbs (1 <<< 1074)
  | fin _, fin _, z => z
  | x, y, z => add (mul x y) z

/-- Go's `/` on `float64`; a zero divisor counts as `+0`. -/
def div : F64 → F64 → F64
  | nan, _ => nan
  | _, nan => nan
  | posInf, posInf => nan
  | posInf, negInf => nan
  | negInf, posInf => nan
  | negInf, negInf => nan
  | posInf, fin b => if b < 0 then negInf else posInf
  | negInf, fin b => if b < 0 then posInf else negInf
  | fin _, posInf => fin 0
  | fin _, negInf => fin 0
  | fin a, fin b =>
    if b = 0 then (if a = 0 then nan else if a < 0 then negInf else posInf)
    else round (decide (a * b < 0)) (a.natAbs <<< 1074) b.natAbs

/-- Newton's iteration for the integer square root, from a starting value above the root. -/
def isqrt.go : Nat → Nat → Nat → Nat
  | 0, _, x => x
  | fuel + 1, n, x =>
    let y := (x + n / x) / 2
    if y < x then isqrt.go fuel n y else x

/-- The integer square root: the greatest `s` with `s * s ≤ n`. -/
def isqrt (n : Nat) : Nat :=
  if n = 0 then 0
  else isqrt.go (1 <<< (log2Floor n / 2 + 1)) n (1 <<< (log2Floor n / 2 + 1))

/-- Go's `math.Sqrt`, correctly rounded.  In units the root of `z` is the root of
`z * 2 ^ 1074`; when that is not an integer `s` it lies strictly between `s` and `s + 1`,
and rounds as `s + 1/2` does. -/
def sqrt : F64 → F64
  | nan => nan
  | negInf => nan
  | posInf => posInf
  | fin z =>
    if z < 0 then nan
    else
      let n := z.toNat <<< 1074
      let s := isqrt n
      if s * s = n then round false s 1 else round false (2 * s + 1) 2

/-- Go's `math.Pow(x, 2)`.  For a finite `x = m * 2 ^ e` with `1/2 <= |m| < 1` the loop of
`pow.go` computes the product `m * m` in `float64`, which rounds the square to a 53-bit
significand, and `Ldexp` scales it by `2 ^ (2 * e)`, which rounds a second time when the
result is subnormal, overflows to `+Inf` and underflows to 0.  Where the square is not
subnormal this is the rounded product `x * x`. -/
def pow2 : F64 → F64
  | nan => nan
  | negInf => posInf
  | posInf => posInf
  | fin z => round false (roundNat (z.natAbs * z.natAbs) 1) (1 <<< 1074)

/-- Go's `math.Abs`. -/
def abs : F64 → F64
  | nan => nan
  | negInf => posInf
  | posInf => posInf
  | fin z => fin (Int.natAbs z)

/-- Go's `<` on `float64`: false whenever an operand is NaN. -/
def lt : F64 → F64 → Bool
  | nan, _ => false
  | _, nan => false
  | fin a, fin b => decide (a < b)
  | negInf, negInf => false
  | negInf, _ => true
  | _, negInf => false
  | posInf, _ => false
  | _, posInf => true

/-- Go's `==` on `float64`: false whenever an operand is NaN. -/
def eq : F64 → F64 → Bool
  | nan, _ => false
  | _, nan => false
  | x, y => decide (x = y)

/-- Go's `!=` on `float64`. -/
def ne (x y : F64) : Bool := !eq x y

/-- Go's `<=` on `float64`. -/
def le (x y : F64) : Bool := lt x y || eq x y

/-- Go's `>` on `float64`. -/
def gt (x y : F64) : Bool := lt y x

/-- Go's `>=` on `float64`. -/
def ge (x y : F64) : Bool := le y x

end F64

/-! ## `internal/models/transaction.go` -/

/-- The Go struct `models.Transaction`. -/
structure Transaction where
  TransactionID : String
  AccountID : String
  Amount : F64
  Currency : String
  Timestamp : Time
  SourceCountry : String
  DestinationCountry : String
  TransactionType : String
  Status : String
  deriving DecidableEq

/-! ## `internal/config/rule.go` -/

/-- The Go struct `config.Rule`. -/
structure Rule where
  RuleID : String
  Name : String
  ThresholdValue : F64
  TimeWindow : String
  Enabled : Bool
  deriving DecidableEq

/-- The method `Rule.GetTimeWindow`: `time.ParseDuration(r.TimeWindow)`. -/
def Rule.GetTimeWindow (parseDuration : String → Except Error Duration) (r : Rule) :
    Except Error Duration :=
  parseDuration r.TimeWindow

/-! ## `internal/services/rule_engine.go` -/

/-- The Go struct `services.RuleViolation`. -/
structure RuleViolation where
  RuleID : String
  ActualValue : F64
  ThresholdValue : F64
  deriving DecidableEq

/-- The instant `now.Add(-window)` at which a trailing window starts. -/
def windowStart (now : Time) (window : Duration) : Time :=
  Time.Add now (Duration.neg window)

/-- The function `GetTransactionsInWindow`; `now` is the reading of `time.Now()` the call
takes.  The entries kept are those strictly after the window start and strictly before
`now`, in the order of `history`.  (On a nil history the Go function returns before it
reads the clock; the result is empty either way.) -/
def GetTransactionsInWindow (now : Time) (history : List Transaction) (window : Duration) :
    List Transaction :=
  history.filter fun tx =>
    Time.After tx.Timestamp (windowStart now window) && Time.Before tx.Timestamp now

/-- The loop `for _, t := range transactionsInWindow { totalAmount += t.Amount }`, from
`totalAmount = 0`. -/
def sumAmounts (transactionsInWindow : List Transaction) : F64 :=
  transactionsInWindow.foldl (fun totalAmount t => F64.add totalAmount t.Amount) (.fin 0)

/-- The loop of `EvaluateRules` over the rules that remain.  `violations` is the slice
built so far and `k` the number of readings of `time.Now()` taken so far: each call of
`GetTransactionsInWindow` takes the next reading `clock k`. -/
def EvaluateRules.loop (parseDuration : String → Except Error Duration) (clock : Nat → Time)
    (tx : Transaction) (history : List Transaction) :
    List Rule → Nat → List RuleViolation → Except Error (List RuleViolation)
  | [], _, violations => .ok violations
  | rule :: rest, k, violations =>
    if !rule.Enabled then
      EvaluateRules.loop parseDuration clock tx history rest k violations
    else
      match rule.GetTimeWindow parseDuration with
      | .error err => .error err
      | .ok timeWindow =>
        if rule.RuleID = "single_transaction_exceeds_10000" then
          if F64.gt tx.Amount rule.ThresholdValue then
            EvaluateRules.loop parseDuration clock tx history rest k
              (violations ++ [⟨rule.RuleID, tx.Amount, rule.ThresholdValue⟩])
          else
            EvaluateRules.loop parseDuration clock tx history rest k violations
        else if rule.RuleID = "daily_cumulative_exceeds_50000" then
          let transactionsInWindow := GetTransactionsInWindow (clock k) history timeWindow
          let totalAmount := F64.add (sumAmounts transactionsInWindow) tx.Amount
          if F64.gt totalAmount rule.ThresholdValue then
            EvaluateRules.loop parseDuration clock tx history rest (k + 1)
              (violations ++ [⟨rule.RuleID, totalAmount, rule.ThresholdValue⟩])
          else
            EvaluateRules.loop parseDuration clock tx history rest (k + 1) violations
        else if rule.RuleID = "more_than_5_transactions_in_1_hour" then
          let transactionsInWindow := GetTransactionsInWindow (clock k) history timeWindow
          let transactionCount : Int := (transactionsInWindow.length : Int) + 1
          if F64.gt (F64.ofInt transactionCount) rule.ThresholdValue then
            EvaluateRules.loop parseDuration clock tx history rest (k + 1)
              (violations ++ [⟨rule.RuleID, F64.ofInt transactionCount, rule.ThresholdValue⟩])
          else
            EvaluateRules.loop parseDuration clock tx history rest (k + 1) violations
        else
          EvaluateRules.loop parseDuration clock tx history rest k violations

/-- The function `EvaluateRules`.  A nil rule list returns `(nil, nil)`, which is also what
the loop returns on an empty list. -/
def EvaluateRules (parseDuration : String → Except Error Duration) (clock : Nat → Time)
    (tx : Transaction) (rules : List Rule) (history : List Transaction) :
    Except Error (List RuleViolation) :=
  EvaluateRules.loop parseDuration clock tx history rules 0 []

/-! ## `internal/services/anomaly_detector.go` -/

/-- The function `calculateMean`. -/
def calculateMean (transactions : List Transaction) : F64 :=
  F64.div (transactions.foldl (fun sum tx => F64.add sum tx.Amount) (.fin 0))
    (F64.ofInt transactions.length)

/-- The function `calculateStdDev`. -/
def calculateStdDev (transactions : List Transaction) (mean : F64) : F64 :=
  if transactions.length = 0 then .fin 0
  else
    let sumOfSquares :=
      transactions.foldl
        (fun sumOfSquares tx => F64.add sumOfSquares (F64.pow2 (F64.sub tx.Amount mean)))
        (.fin 0)
    let variance := F64.div sumOfSquares (F64.ofInt transactions.length)
    F64.sqrt variance

/-- The function `DetectAmountAnomaly`, returning `(isAnomaly, zScore)` or the error. -/
def DetectAmountAnomaly (currentTx : Transaction) (history : List Transaction) :
    Except Error (Bool × F64) :=
  if history.length < 10 then
    .error
      "insufficient transaction history for anomaly detection (requires at least 10 transactions)"
  else
    let mean := calculateMean history
    let stdDev := calculateStdDev history mean
    if F64.eq stdDev (.fin 0) then
      if F64.ne currentTx.Amount mean then .ok (true, .posInf)
      else .ok (false, .fin 0)
    else
      let zScore := F64.div (F64.sub currentTx.Amount mean) stdDev
      let isAnomaly := F64.gt (F64.abs zScore) (F64.ofInt 3)
      .ok (isAnomaly, zScore)

/-! ## `internal/services/structuring_detector.go` -/

/-- The requirement of `sort.Slice` on its `less` function: a strict weak ordering. -/
def StrictWeakOrder (less : Transaction → Transaction → Bool) : Prop :=
  (∀ a b, less a b = true → less b a = false) ∧
  (∀ a b c, less a b = false → less b c = false → less a c = false)

/-- An implementation of `sort.Slice` on transaction slices, with its contract: the result is
a rearrangement of the input in which no element is `less` than one before it.  The sort is
not stable, so nothing is said about the order of elements that compare equal. -/
structure SliceSorter where
  sort : (Transaction → Transaction → Bool) → List Transaction → List Transaction
  perm : ∀ less l, (sort less l).Perm l
  sorted : ∀ less l, StrictWeakOrder less →
    (sort less l).Pairwise (fun a b => less b a = false)

/-- The `less` function that `DetectStructuring` passes to `sort.Slice`:
`candidates[i].Timestamp.After(candidates[j].Timestamp)`. -/
def timestampAfter (a b : Transaction) : Bool := Time.After a.Timestamp b.Timestamp

/-- The condition of the filter loop of `DetectStructuring`. -/
def isCandidate (now : Time) (accountID : String) (timeWindow : Duration)
    (thresholdLow thresholdHigh : F64) (tx : Transaction) : Bool :=
  decide (tx.AccountID = accountID) &&
  Time.After tx.Timestamp (windowStart now timeWindow) &&
  Time.Before tx.Timestamp now &&
  F64.ge tx.Amount thresholdLow &&
  F64.le tx.Amount thresholdHigh

/-- The function `DetectStructuring`; `now` is its reading of `time.Now()`. -/
def DetectStructuring (sorter : SliceSorter) (now : Time) (accountID : String)
    (transactions : List Transaction) (timeWindow : Duration)
    (thresholdLow thresholdHigh : F64) (minCount : Int) : Bool × List Transaction :=
  let candidates :=
    transactions.filter (isCandidate now accountID timeWindow thresholdLow thresholdHigh)
  if (candidates.length : Int) ≥ minCount then
    (true, sorter.sort timestampAfter candidates)
  else
    (false, [])

/-- A `sort.Slice` for executable examples: merge sort. -/
def mergeSorter : SliceSorter where
  sort less l := l.mergeSort fun a b => !less b a
  perm less l := List.mergeSort_perm l _
  sorted less l h := by
    have hs := @List.sorted_mergeSort Transaction (fun a b => !less b a)
      (fun a b c hab hbc => by
        simp only [Bool.not_eq_true'] at hab hbc ⊢
        exact h.2 c b a hbc hab)
      (fun a b => by
        simp only [Bool.or_eq_true, Bool.not_eq_true']
        rcases Bool.eq_false_or_eq_true (less b a) with hba | hba
        · exact Or.inr (h.1 b a hba)
        · exact Or.inl hba)
      l
    exact hs.imp fun hab => by simpa using hab

/-! ## `internal/models/alert.go` and `internal/models/account.go` -/

/-- A decoded JSON value, the `interface{}` that `encoding/json` produces: `array` is a
`[]interface{}` and `object` a `map[string]interface{}`. -/
inductive Json where
  | null
  | bool (b : Bool)
  | number (x : F64)
  | string (s : String)
  | array (items : List Json)
  | object (fields : List (String × Json))

/-- The Go type `models.JSONMap`, a `map[string]interface{}`, as the list of its entries;
the nil map is `[]`. -/
abbrev JSONMap := List (String × Json)

/-- The Go type `models.PriorityLevel`, an `int`. -/
abbrev PriorityLevel := Int

/-- The constants `models.Medium`, `models.High` and `models.Critical` (`iota`). -/
def Medium : PriorityLevel := 0
def High : PriorityLevel := 1
def Critical : PriorityLevel := 2

/-- The status constants of `models`. -/
def StatusOpen : String := "OPEN"
def StatusInvestigating : String := "INVESTIGATING"
def StatusEscalated : String := "ESCALATED"
def StatusClosed : String := "CLOSED"
def StatusFalsePositive : String := "FALSE_POSITIVE"

/-- The zero value of `time.Time`: January 1 of year 1, UTC. -/
def Time.zero : Time := -62135596800000000000

/-- The Go struct `models.Alert`. -/
structure Alert where
  ID : String
  TransactionID : String
  AlertType : String
  Priority : PriorityLevel
  Score : F64
  CreatedAt : Time
  Status : String
  AssignedTo : String
  RuleDetails : JSONMap
  TransitionAt : Time

/-- The Go struct `models.Account`. -/
structure Account where
  AccountID : String
  HolderName : String
  Address : String
  DateOfBirth : String
  deriving DecidableEq

/-! ## `internal/services/alert_generator.go` -/

/-- The alert type constants of `services`. -/
def AlertTypeThresholdViolation : String := "THRESHOLD_VIOLATION"
def AlertTypeAnomalyDetected : String := "ANOMALY_DETECTED"
def AlertTypeStructuringPattern : String := "STRUCTURING_PATTERN"
def AlertTypeGeographicRisk : String := "GEOGRAPHIC_RISK"

/-- Go's `math.Min`: `-Inf` if an operand is `-Inf`, else NaN if an operand is NaN, else the
lesser operand. -/
def F64.min : F64 → F64 → F64
  | .negInf, _ => .negInf
  | _, .negInf => .negInf
  | .nan, _ => .nan
  | _, .nan => .nan
  | x, y => if F64.lt x y then x else y

/-- The function `getPriorityForAlertType`. -/
def getPriorityForAlertType (alertType : String) : Except Error PriorityLevel :=
  if alertType = AlertTypeThresholdViolation ∨ alertType = AlertTypeGeographicRisk then
    .ok Medium
  else if alertType = AlertTypeAnomalyDetected then .ok High
  else if alertType = AlertTypeStructuringPattern then .ok Critical
  else .error ("invalid alert type: " ++ alertType)

/-- The ways a build evaluates a sum of two products `x*y + u*v`.  Go lets an
implementation fuse a product and the addition into one operation that rounds once: the
compiler does so for arm64 and with `GOAMD64=v3`, and rounds every operation for the
default amd64 target. -/
inductive Fusion where
  | separate
  | firstProduct
  | secondProduct
  deriving DecidableEq

/-- The value of the expression `x*y + u*v` in a build: both products and the sum rounded,
or one product fused with the addition. -/
def F64.addProducts (fusion : Fusion) (x y u v : F64) : F64 :=
  match fusion with
  | .separate => F64.add (F64.mul x y) (F64.mul u v)
  | .firstProduct => F64.fma x y (F64.mul u v)
  | .secondProduct => F64.fma u v (F64.mul x y)

/-- The function `CalculateRiskScore`; `fusion` is how the build evaluates
`typeWeight*0.8 + amountScore*0.2`.  The constants 0.8 and 0.2 are the `float64` nearest to
4/5 and 1/5. -/
def CalculateRiskScore (fusion : Fusion) (amount : F64) (priority : PriorityLevel) :
    Except Error F64 :=
  let typeWeight : Except Error F64 :=
    if priority = Medium then .ok (F64.ofInt 50)
    else if priority = High then .ok (F64.ofInt 75)
    else if priority = Critical then .ok (F64.ofInt 100)
    else .error "invalid priority level"
  match typeWeight with
  | .error err => .error err
  | .ok typeWeight =>
    let amountScore :=
      F64.mul (F64.div (F64.min amount (F64.ofInt 1000000)) (F64.ofInt 1000000)) (F64.ofInt 20)
    let score := F64.addProducts fusion typeWeight (F64.ofRat 4 5) amountScore (F64.ofRat 1 5)
    .ok (F64.min score (F64.ofInt 100))

/-- The function `GenerateAlert`; `newID` is the value of `uuid.New().String()`, `now` the
reading of `time.Now()` and `fusion` the build's evaluation of the score.  The result is
the alert, or the error with no alert. -/
def GenerateAlert (fusion : Fusion) (newID : String) (now : Time) (tx : Transaction)
    (alertType : String) (ruleDetails : JSONMap) : Except Error Alert :=
  match getPriorityForAlertType alertType with
  | .error err => .error err
  | .ok priority =>
    match CalculateRiskScore fusion tx.Amount priority with
    | .error err => .error err
    | .ok score =>
      .ok
        { ID := newID
          TransactionID := tx.TransactionID
          AlertType := alertType
          Priority := priority
          Score := score
          CreatedAt := now
          Status := "OPEN"
          AssignedTo := ""
          RuleDetails := ruleDetails
          TransitionAt := Time.zero }

/-! ## `internal/services/alert_status.go` -/

/-- A Go `error` value, with what `errors.Is` sees of it: a value held by a package-level
variable, the value of a call of `fmt.Errorf`, or the value of a call of `fmt.Errorf` whose
format wraps `cause` with `%w`. -/
inductive GoError where
  | global (name : String) (msg : String)
  | errorf (msg : String)
  | wrapf (msg : String) (cause : GoError)
  deriving DecidableEq

/-- The method `Error()`: the message. -/
def GoError.Error : GoError → String
  | .global _ msg => msg
  | .errorf msg => msg
  | .wrapf msg _ => msg

/-- Go's `errors.Is`: `target` is the error or one of the errors it wraps. -/
def GoError.Is : GoError → GoError → Bool
  | .global name msg, target => decide (GoError.global name msg = target)
  | .errorf msg, target => decide (GoError.errorf msg = target)
  | .wrapf msg cause, target =>
    decide (GoError.wrapf msg cause = target) || GoError.Is cause target

/-- The variable `ErrInvalidTransition`. -/
def ErrInvalidTransition : GoError :=
  .global "ErrInvalidTransition" "invalid status transition"

/-- The map `allowedTransitions`: the entry of a status, if it has one. -/
def allowedTransitions (status : String) : Option (List String) :=
  if status = StatusOpen then some [StatusInvestigating]
  else if status = StatusInvestigating then some [StatusEscalated, StatusFalsePositive]
  else if status = StatusEscalated then some [StatusClosed]
  else if status = StatusClosed then some []
  else if status = StatusFalsePositive then some []
  else none

/-- The function `TransitionAlertStatus`; `now` is the reading of `time.Now()`.  The result
is the alert after the call and the error returned (`none` for `nil`). -/
def TransitionAlertStatus (now : Time) (alert : Alert) (newStatus : String)
    (investigatorID : String) : Alert × Option GoError :=
  let currentStatus := alert.Status
  match allowedTransitions currentStatus with
  | none => (alert, some (.errorf ("unknown status: " ++ currentStatus)))
  | some validTransitions =>
    let isValid := validTransitions.any fun status => decide (status = newStatus)
    if !isValid then
      (alert, some (.wrapf
        (ErrInvalidTransition.Error ++ ": cannot transition from " ++ currentStatus ++
          " to " ++ newStatus)
        ErrInvalidTransition))
    else
      let alert := { alert with Status := newStatus, TransitionAt := now }
      let alert :=
        if investigatorID ≠ "" then { alert with AssignedTo := investigatorID } else alert
      (alert, none)

/-! ## `internal/services/sar_exporter.go` -/

/-- The bytes of a Go string holding the text `s`: its UTF-8 encoding.  Go's `len` and
slicing count these bytes. -/
def goBytes (s : String) : List UInt8 := s.toUTF8.data.toList

/-- The function `MaskAccountNumber`.  The result is given by its bytes: the slice
`accountNum[len(accountNum)-4:]` can start inside a character. -/
def MaskAccountNumber (accountNum : String) : List UInt8 :=
  if (goBytes accountNum).length ≤ 4 then goBytes accountNum
  else
    goBytes "XXXX-XXXX-XXXX-" ++
      (goBytes accountNum).drop ((goBytes accountNum).length - 4)

/-! ## `internal/models/sar_report.go` -/

/-- The Go struct `models.SuspiciousActivityPattern`.  `TransactionCount` is a Go `int`
that counts the elements of a slice, so it never overflows. -/
structure SuspiciousActivityPattern where
  PatternDescription : String
  Transactions : List Transaction
  TotalAmount : F64
  TransactionCount : Int
  deriving DecidableEq

/-- The Go struct `models.SARReport`.  The map `Patterns` is the list of its entries, each
key once, in the order in which the keys were first set; Go fixes no order on them. -/
structure SARReport where
  SubjectName : String
  SubjectAddress : String
  SubjectDateOfBirth : String
  StartDate : Time
  EndDate : Time
  TotalSuspiciousAmount : F64
  TotalTransactionCount : Int
  Patterns : List (String × SuspiciousActivityPattern)
  deriving DecidableEq

/-! ## `internal/services/sar_generator.go` -/

/-- The read `m[key]` of a Go map with string keys, `none` when the key is not set. -/
def mapLookup {α : Type} : List (String × α) → String → Option α
  | [], _ => none
  | (k, v) :: rest, key => if k = key then some v else mapLookup rest key

/-- The write `m[key] = value` of a Go map with string keys. -/
def mapSet {α : Type} : List (String × α) → String → α → List (String × α)
  | [], key, value => [(key, value)]
  | (k, v) :: rest, key, value =>
    if k = key then (key, value) :: rest else (k, v) :: mapSet rest key value

/-- The type assertion `raw.([]interface{})`. -/
def Json.asList : Json → Option (List Json)
  | .array items => some items
  | _ => none

/-- The part of `*sql.DB` that `GenerateSARData` uses: its three `SELECT ... WHERE id IN
(...)` queries, each taking the identifiers bound to the placeholders and giving the rows
scanned, or the error the function returns when `Query`, `Scan` or `Err` fails. -/
structure Store where
  queryAlerts : List String → Except Error (List Alert)
  queryTransactions : List String → Except Error (List Transaction)
  queryAccounts : List String → Except Error (List Account)

/-- An iteration `for id := range m` over a Go map used as a set, as a function of the keys
written to the map, with its contract: every key comes once.  Go fixes no order. -/
structure MapRange where
  keys : List String → List String
  nodup : ∀ l, (keys l).Nodup
  mem : ∀ l id, id ∈ keys l ↔ id ∈ l

/-- The loop `for _, item := range list` that decodes each item of a list payload;
`decodeTx` is `json.Marshal` followed by `json.Unmarshal` into a `models.Transaction`, and
its error is that of `json.Unmarshal` (`json.Marshal` does not fail on a value that
`json.Unmarshal` produced).  The first failure ends the function. -/
def decodeItems (decodeTx : Json → Except Error Transaction) :
    List Json → Except Error (List Transaction)
  | [] => .ok []
  | item :: list =>
    match decodeTx item with
    | .error e => .error e
    | .ok tx =>
      match decodeItems decodeTx list with
      | .error e => .error e
      | .ok txs => .ok (tx :: txs)

/-- The block `if rawMatchingTxs, ok := ruleDetails["matching_transactions"]; ok`, which the
function runs twice for each alert (once to collect identifiers, once to fill the
pattern): the transactions decoded from the payload, from each item of a list or else
from the single value.  The result is `none` when the payload has no such entry. -/
def payloadTransactions (decodeTx : Json → Except Error Transaction) (ruleDetails : JSONMap) :
    Option (Except Error (List Transaction)) :=
  match mapLookup ruleDetails "matching_transactions" with
  | none => none
  | some rawMatchingTxs =>
    match rawMatchingTxs.asList with
    | some list => some (decodeItems decodeTx list)
    | none =>
      match decodeTx rawMatchingTxs with
      | .error e => some (.error e)
      | .ok tx => some (.ok [tx])

/-- What the messages of the decoding errors call the value that failed to decode: an item
of a list payload is a "transaction item", a payload that is no list a "single
transaction". -/
def payloadKind (ruleDetails : JSONMap) : String :=
  match mapLookup ruleDetails "matching_transactions" with
  | some rawMatchingTxs =>
    if rawMatchingTxs.asList.isSome then "transaction item" else "single transaction"
  | none => ""

/-- The identifiers one alert row adds to `allRelatedTxIDs`: those of the transactions
decoded from its payload, or without a `matching_transactions` entry the alert's own
`TransactionID`.  A decoding error is wrapped as "failed to unmarshal transaction item to
models.Transaction for alert <id>: ..." (or "... single transaction ..."). -/
def relatedTxIDs (decodeTx : Json → Except Error Transaction) (alert : Alert) :
    Except Error (List String) :=
  match payloadTransactions decodeTx alert.RuleDetails with
  | some (.error e) =>
    .error ("failed to unmarshal " ++ payloadKind alert.RuleDetails ++
      " to models.Transaction for alert " ++ alert.ID ++ ": " ++ e)
  | some (.ok txs) => .ok (txs.map fun tx => tx.TransactionID)
  | none => .ok [alert.TransactionID]

/-- The loop over the alert rows: the slice `allRelatedTxIDs`.  (The slice `alerts` built
alongside holds the rows in order, and the map `alertIDToDetails` is never read.) -/
def scanAlerts (decodeTx : Json → Except Error Transaction) :
    List Alert → Except Error (List String)
  | [] => .ok []
  | alert :: rows =>
    match relatedTxIDs decodeTx alert with
    | .error e => .error e
    | .ok ids =>
      match scanAlerts decodeTx rows with
      | .error e => .error e
      | .ok allRelatedTxIDs => .ok (ids ++ allRelatedTxIDs)

/-- The variables the loop over the transaction rows writes. -/
structure TransactionScan where
  transactionsMap : List (String × Transaction)
  accountIDs : List String
  uniqueAccountIDs : List (String × Bool)

/-- The body of the loop over the transaction rows. -/
def scanTransaction (scan : TransactionScan) (tx : Transaction) : TransactionScan :=
  let transactionsMap := mapSet scan.transactionsMap tx.TransactionID tx
  match mapLookup scan.uniqueAccountIDs tx.AccountID with
  | some _ => { scan with transactionsMap := transactionsMap }
  | none =>
    { transactionsMap := transactionsMap
      accountIDs := scan.accountIDs ++ [tx.AccountID]
      uniqueAccountIDs := mapSet scan.uniqueAccountIDs tx.AccountID true }

/-- The loop over the transaction rows. -/
def scanTransactions (txRows : List Transaction) : TransactionScan :=
  txRows.foldl scanTransaction { transactionsMap := [], accountIDs := [], uniqueAccountIDs := [] }

/-- The loop over the account rows: the map `accountsMap`. -/
def scanAccounts (accRows : List Account) : List (String × Account) :=
  accRows.foldl (fun accountsMap account => mapSet accountsMap account.AccountID account) []

/-- The zero value of `models.Account`. -/
def Account.zero : Account := { AccountID := "", HolderName := "", Address := "", DateOfBirth := "" }

/-- The zero value of `models.SuspiciousActivityPattern`. -/
def SuspiciousActivityPattern.zero : SuspiciousActivityPattern :=
  { PatternDescription := "", Transactions := [], TotalAmount := .fin 0, TransactionCount := 0 }

/-- The variables the aggregation loop writes. -/
structure Aggregation where
  report : SARReport
  isFirstRow : Bool
  minStartDate : Time
  maxEndDate : Time
  deriving DecidableEq

/-- The variable `associatedAccount` of the aggregation loop: the account of the alert's own
transaction if the store returned it, else the account of the first related transaction
the store returned; a read of `accountsMap` that misses gives the zero value. -/
def associatedAccount (transactionsMap : List (String × Transaction))
    (accountsMap : List (String × Account)) (allRelatedTxIDs : List String) (alert : Alert) :
    Account :=
  if allRelatedTxIDs.length > 0 then
    match mapLookup transactionsMap alert.TransactionID with
    | some tx => (mapLookup accountsMap tx.AccountID).getD Account.zero
    | none =>
      match allRelatedTxIDs.findSome? fun txID => mapLookup transactionsMap txID with
      | some tx => (mapLookup accountsMap tx.AccountID).getD Account.zero
      | none => Account.zero
  else Account.zero

/-- The slice `currentAlertMatchingTxs` of the aggregation loop: the transactions decoded
from the alert's payload, or without a `matching_transactions` entry the alert's own
transaction if the store returned it.  A decoding error is wrapped as "failed to unmarshal
transaction item to models.Transaction from alert rule_details for report: ..." (or
"... single transaction ..."). -/
def currentAlertMatchingTxs (decodeTx : Json → Except Error Transaction)
    (transactionsMap : List (String × Transaction)) (alert : Alert) :
    Except Error (List Transaction) :=
  let alertRuleDetails : JSONMap := if alert.RuleDetails.length > 0 then alert.RuleDetails else []
  match payloadTransactions decodeTx alertRuleDetails with
  | some (.error e) =>
    .error ("failed to unmarshal " ++ payloadKind alertRuleDetails ++
      " to models.Transaction from alert rule_details for report: " ++ e)
  | some (.ok txs) => .ok txs
  | none =>
    match mapLookup transactionsMap alert.TransactionID with
    | some tx => .ok [tx]
    | none => .ok []

/-- The body of the loop `for _, tx := range currentAlertMatchingTxs`. -/
def addTransaction (state : SuspiciousActivityPattern × Aggregation) (tx : Transaction) :
    SuspiciousActivityPattern × Aggregation :=
  let pattern := state.1
  let agg := state.2
  ({ pattern with
      Transactions := pattern.Transactions ++ [tx]
      TotalAmount := F64.add pattern.TotalAmount tx.Amount
      TransactionCount := pattern.TransactionCount + 1 },
    { agg with
      minStartDate := if Time.Before tx.Timestamp agg.minStartDate then tx.Timestamp
        else agg.minStartDate
      maxEndDate := if Time.After tx.Timestamp agg.maxEndDate then tx.Timestamp
        else agg.maxEndDate
      report := { agg.report with
        TotalSuspiciousAmount := F64.add agg.report.TotalSuspiciousAmount tx.Amount
        TotalTransactionCount := agg.report.TotalTransactionCount + 1 } })

/-- The body of the aggregation loop `for _, alert := range alerts`. -/
def aggregateAlert (decodeTx : Json → Except Error Transaction)
    (transactionsMap : List (String × Transaction)) (accountsMap : List (String × Account))
    (allRelatedTxIDs : List String) (agg : Aggregation) (alert : Alert) :
    Except Error Aggregation :=
  let account := associatedAccount transactionsMap accountsMap allRelatedTxIDs alert
  let agg : Aggregation :=
    if agg.isFirstRow && decide (account.AccountID ≠ "") then
      { agg with
        report := { agg.report with
          SubjectName := account.HolderName
          SubjectAddress := account.Address
          SubjectDateOfBirth := account.DateOfBirth }
        isFirstRow := false }
    else agg
  let pattern :=
    (mapLookup agg.report.Patterns alert.AlertType).getD SuspiciousActivityPattern.zero
  let pattern := { pattern with PatternDescription := alert.AlertType }
  match currentAlertMatchingTxs decodeTx transactionsMap alert with
  | .error e => .error e
  | .ok txs =>
    let state := txs.foldl addTransaction (pattern, agg)
    .ok { state.2 with
      report := { state.2.report with
        Patterns := mapSet state.2.report.Patterns alert.AlertType state.1 } }

/-- The aggregation loop `for _, alert := range alerts`; an error ends the function. -/
def aggregateAlerts (decodeTx : Json → Except Error Transaction)
    (transactionsMap : List (String × Transaction)) (accountsMap : List (String × Account))
    (allRelatedTxIDs : List String) : Aggregation → List Alert → Except Error Aggregation
  | agg, [] => .ok agg
  | agg, alert :: alerts =>
    match aggregateAlert decodeTx transactionsMap accountsMap allRelatedTxIDs agg alert with
    | .error e => .error e
    | .ok agg => aggregateAlerts decodeTx transactionsMap accountsMap allRelatedTxIDs agg alerts

/-- The variables of the aggregation loop before its first turn: an empty report,
`minStartDate` a hundred years of 365 days after `now`, `maxEndDate` the zero time. -/
def Aggregation.init (now : Time) : Aggregation :=
  { report :=
      { SubjectName := "", SubjectAddress := "", SubjectDateOfBirth := ""
        StartDate := Time.zero, EndDate := Time.zero
        TotalSuspiciousAmount := .fin 0, TotalTransactionCount := 0, Patterns := [] }
    isFirstRow := true
    minStartDate := Time.Add now 3153600000000000000
    maxEndDate := Time.zero }

/-- The function `GenerateSARData`; `now` is its reading of `time.Now()`, `decodeTx` the
JSON round trip of a payload item and `range` the iteration over the set of related
identifiers.  The result `none` is the nil report returned with a nil error. -/
def GenerateSARData (decodeTx : Json → Except Error Transaction) (range : MapRange)
    (now : Time) (alertIDs : List String) (db : Store) : Except Error (Option SARReport) :=
  if alertIDs.length = 0 then .ok none
  else
    match db.queryAlerts alertIDs with
    | .error e => .error e
    | .ok alerts =>
      match scanAlerts decodeTx alerts with
      | .error e => .error e
      | .ok allRelatedTxIDs =>
        if allRelatedTxIDs.length = 0 then .ok none
        else
          let finalTxIDs := range.keys allRelatedTxIDs
          match db.queryTransactions finalTxIDs with
          | .error e => .error e
          | .ok txRows =>
            let scan := scanTransactions txRows
            if scan.accountIDs.length = 0 then
              .error "no account IDs found for related transactions"
            else
              match db.queryAccounts scan.accountIDs with
              | .error e => .error e
              | .ok accRows =>
                match aggregateAlerts decodeTx scan.transactionsMap (scanAccounts accRows)
                    allRelatedTxIDs (Aggregation.init now) alerts with
                | .error e => .error e
                | .ok agg =>
                  if alerts.length > 0 then
                    .ok (some { agg.report with
                      StartDate := agg.minStartDate, EndDate := agg.maxEndDate })
                  else .ok (some agg.report)

/-! ## `internal/config/rule.go`: validation and loading -/

/-- The loop of `validateRules` over the rules that remain; `ruleIDs` is the map of the
identifiers seen so far.  The result is the error returned, `.ok ()` for nil. -/
def validateRules.loop (parseDuration : String → Except Error Duration) :
    List Rule → List (String × Bool) → Except Error Unit
  | [], _ => .ok ()
  | rule :: rest, ruleIDs =>
    if F64.le rule.ThresholdValue (.fin 0) then
      .error ("threshold_value must be > 0 for rule '" ++ rule.RuleID ++ "'")
    else
      match parseDuration rule.TimeWindow with
      | .error _ => .error ("invalid time_window for rule '" ++ rule.RuleID ++ "'")
      | .ok _ =>
        match mapLookup ruleIDs rule.RuleID with
        | some _ => .error ("duplicate rule_id: '" ++ rule.RuleID ++ "'")
        | none => validateRules.loop parseDuration rest (mapSet ruleIDs rule.RuleID true)

/-- The function `validateRules`. -/
def validateRules (parseDuration : String → Except Error Duration) (rules : List Rule) :
    Except Error Unit :=
  validateRules.loop parseDuration rules []

/-- The function `LoadRules`; `readFile` is `ioutil.ReadFile` and `unmarshalRules` is
`json.Unmarshal` into a `[]Rule`.  An error comes with the nil rule list. -/
def LoadRules (readFile : String → Except Error (List UInt8))
    (unmarshalRules : List UInt8 → Except Error (List Rule))
    (parseDuration : String → Except Error Duration) (filepath : String) :
    Except Error (List Rule) :=
  match readFile filepath with
  | .error err => .error ("failed to read rule file: " ++ err)
  | .ok data =>
    match unmarshalRules data with
    | .error err => .error ("failed to parse rule file: " ++ err)
    | .ok rules =>
      match validateRules parseDuration rules with
      | .error err => .error ("rule validation failed: " ++ err)
      | .ok _ => .ok rules

/-! ## `internal/handlers/transaction_handler.go` -/

/-- Go's `unicode.ToUpper`, with what is used of it: on a character up to U+007F it gives the
upper-case letter for a letter from `a` to `z` and the character itself otherwise.  Nothing
is assumed about the other characters. -/
structure UnicodeUpper where
  toUpper : Char → Char
  ascii : ∀ c : Char, c.val ≤ 0x7f → toUpper c = c.toUpper

/-- Go's `strings.ToUpper`: every character is mapped by `unicode.ToUpper`. -/
def strings.ToUpper (unicode : UnicodeUpper) (s : String) : String :=
  ⟨s.data.map unicode.toUpper⟩

/-- The method `MatchString` of the regular expression `^[A-Z]{3}$`: the text is three
characters, each from `A` to `Z`. -/
def matchThreeUpper (s : String) : Bool :=
  decide (s.data.length = 3) && s.data.all fun c => decide ('A' ≤ c ∧ c ≤ 'Z')

/-- The function `isValidCurrency`; `len(currency)` counts bytes. -/
def isValidCurrency (unicode : UnicodeUpper) (currency : String) : Bool :=
  if (goBytes currency).length ≠ 3 then false
  else matchThreeUpper (strings.ToUpper unicode currency)

/-- The function `validateTransaction`; the result is the error returned, `.ok ()` for
nil. -/
def validateTransaction (unicode : UnicodeUpper) (t : Transaction) : Except Error Unit :=
  if t.AccountID = "" ∨ t.Currency = "" ∨ t.SourceCountry = "" ∨ t.DestinationCountry = "" ∨
      t.TransactionType = "" ∨ t.Status = "" then
    .error "all required fields must be present"
  else if F64.le t.Amount (.fin 0) then
    .error "amount must be greater than 0"
  else if !isValidCurrency unicode t.Currency then
    .error "currency must be a 3-letter ISO code"
  else .ok ()

/-! ## `internal/services/sar_exporter.go`: the exported document -/

/-- The Go struct `TransactionJSON` of `ExportSARToJSON`.  The masked account identifier is
given by its bytes, as `MaskAccountNumber` returns it. -/
structure TransactionJSON where
  TransactionID : String
  AccountID : List UInt8
  Amount : F64
  Currency : String
  Timestamp : String
  SourceCountry : String
  DestinationCountry : String
  TransactionType : String
  Status : String
  deriving DecidableEq

/-- The Go struct `PatternJSON` of `ExportSARToJSON`. -/
structure PatternJSON where
  PatternDescription : String
  Transactions : List TransactionJSON
  TotalAmount : F64
  TransactionCount : Int
  deriving DecidableEq

/-- The Go struct `SARReportJSON` of `ExportSARToJSON`; the map `Patterns` is the list of
its entries. -/
structure SARReportJSON where
  SubjectName : String
  SubjectAddress : String
  SubjectDateOfBirth : String
  StartDate : String
  EndDate : String
  TotalSuspiciousAmount : F64
  TotalTransactionCount : Int
  Patterns : List (String × PatternJSON)
  deriving DecidableEq

/-- The order in which `for key, pattern := range report.Patterns` visits the entries of
the map: Go fixes none, so it is some rearrangement of the entries. -/
structure PatternRange where
  entries : List (String × SuspiciousActivityPattern) →
    List (String × SuspiciousActivityPattern)
  perm : ∀ m, (entries m).Perm m

/-- The element `patternJSON.Transactions[i]` that the inner loop of `ExportSARToJSON`
builds from `transaction`; `format` is `Time.Format(time.RFC3339)`. -/
def ExportSARToJSON.transaction (format : Time → String) (transaction : Transaction) :
    TransactionJSON :=
  { TransactionID := transaction.TransactionID
    AccountID := MaskAccountNumber transaction.AccountID
    Amount := transaction.Amount
    Currency := transaction.Currency
    Timestamp := format transaction.Timestamp
    SourceCountry := transaction.SourceCountry
    DestinationCountry := transaction.DestinationCountry
    TransactionType := transaction.TransactionType
    Status := transaction.Status }

/-- The value `patternJSON` that one turn of the loop over `report.Patterns` builds: the
slice of the length of `pattern.Transactions`, filled index by index. -/
def ExportSARToJSON.pattern (format : Time → String) (pattern : SuspiciousActivityPattern) :
    PatternJSON :=
  { PatternDescription := pattern.PatternDescription
    TotalAmount := pattern.TotalAmount
    TransactionCount := pattern.TransactionCount
    Transactions := pattern.Transactions.map (ExportSARToJSON.transaction format) }

/-- The value `sarReportJSON` that `ExportSARToJSON` hands to `json.MarshalIndent`. -/
def ExportSARToJSON.document (format : Time → String) (range : PatternRange)
    (report : SARReport) : SARReportJSON :=
  { SubjectName := report.SubjectName
    SubjectAddress := report.SubjectAddress
    SubjectDateOfBirth := report.SubjectDateOfBirth
    StartDate := format report.StartDate
    EndDate := format report.EndDate
    TotalSuspiciousAmount := report.TotalSuspiciousAmount
    TotalTransactionCount := report.TotalTransactionCount
    Patterns :=
      (range.entries report.Patterns).foldl
        (fun patterns entry =>
          mapSet patterns entry.1 (ExportSARToJSON.pattern format entry.2))
        [] }

/-- The function `ExportSARToJSON`.  `marshalIndent` is `json.MarshalIndent` with the prefix
"" and the indent of two spaces, and `writeFile` is `os.WriteFile`, called with the
permissions 0600; the result is the error returned, `.ok ()` for nil. -/
def ExportSARToJSON (format : Time → String) (range : PatternRange)
    (marshalIndent : SARReportJSON → Except Error (List UInt8))
    (writeFile : String → List UInt8 → Nat → Except Error Unit)
    (report : SARReport) (filepath : String) : Except Error Unit :=
  match marshalIndent (ExportSARToJSON.document format range report) with
  | .error err => .error ("failed to marshal SAR report to JSON: " ++ err)
  | .ok jsonData =>
    match writeFile filepath jsonData 0o600 with
    | .error err => .error ("failed to write SAR report to file: " ++ err)
    | .ok _ => .ok ()

/-! ## Data of the repository's tests, for executable examples -/

/-- The values of `time.ParseDuration` on the time windows of the rules in
`rule_engine_test.go`; any other string is rejected here. -/
def parseTestWindow (s : String) : Except Error Duration :=
  if s = "0h" then .ok 0
  else if s = "1h" then .ok 3600000000000
  else if s = "24h" then .ok 86400000000000
  else .error ("time: invalid duration " ++ s)

/-- The reading of `time.Now()` used in the examples. -/
def testNow : Time := 1700000000000000000

/-- One hour and one minute, as durations. -/
def hour : Duration := 3600000000000
def minute : Duration := 60000000000

/-- The literal `models.Transaction{Amount: amount, Timestamp: timestamp}` of the tests; the
other fields have their zero value. -/
def testTx (amount : Int) (timestamp : Time) : Transaction :=
  { TransactionID := "", AccountID := "", Amount := F64.ofInt amount, Currency := "",
    Timestamp := timestamp, SourceCountry := "", DestinationCountry := "",
    TransactionType := "", Status := "" }

/-- The three rules of `TestEvaluateRules`. -/
def singleRule : Rule :=
  { RuleID := "single_transaction_exceeds_10000", Name := "Single Transaction Exceeds $10,000",
    ThresholdValue := F64.ofInt 10000, TimeWindow := "0h", Enabled := true }
def dailyRule : Rule :=
  { RuleID := "daily_cumulative_exceeds_50000",
    Name := "Daily Cumulative Transactions Exceeds $50,000",
    ThresholdValue := F64.ofInt 50000, TimeWindow := "24h", Enabled := true }
def hourlyRule : Rule :=
  { RuleID := "more_than_5_transactions_in_1_hour", Name := "More Than 5 Transactions in 1 Hour",
    ThresholdValue := F64.ofInt 5, TimeWindow := "1h", Enabled := true }

/-- The history of `TestDetectAmountAnomaly`: ten transactions of amount 100. -/
def uniformHistory : List Transaction := List.replicate 10 (testTx 100 testNow)

/-- A transaction whose amount is the constant `n / d`. -/
def fracTx (n d : Nat) : Transaction :=
  { testTx 0 testNow with Amount := F64.ofRat n d }

/-- Ten transactions of amount 0.1. -/
def tenthHistory : List Transaction := List.replicate 10 (fracTx 1 10)

/-- Five amounts of 90 and five of 110: mean 100 and standard deviation 10. -/
def spreadHistory : List Transaction :=
  List.replicate 5 (testTx 90 testNow) ++ List.replicate 5 (testTx 110 testNow)

/-- The number of units of `2 ^ (-1074)` in the integer `i`. -/
def unitsOf (i : Nat) : Int := ((i <<< 1074 : Nat) : Int)

/-- The literal `models.Transaction{AccountID: .., Amount: .., Timestamp: ..}` of the tests. -/
def accountTx (accountID : String) (amount : Int) (timestamp : Time) : Transaction :=
  { testTx amount timestamp with AccountID := accountID }

/-- The pool of the test `structuring_pattern_detected`. -/
def structuringPool : List Transaction :=
  [accountTx "acc-123" 8500 (testNow - 1 * hour), accountTx "acc-123" 9200 (testNow - 2 * hour),
    accountTx "acc-123" 9800 (testNow - 3 * hour), accountTx "acc-123" 7000 (testNow - 4 * hour),
    accountTx "acc-123" 15000 (testNow - 5 * hour), accountTx "acc-456" 9000 (testNow - 6 * hour)]

/-- The pool of the test `not_enough_transactions_in_range`. -/
def sparsePool : List Transaction :=
  [accountTx "acc-123" 8500 (testNow - 1 * hour), accountTx "acc-123" 9200 (testNow - 2 * hour),
    accountTx "acc-123" 7000 (testNow - 3 * hour)]

/-- A transaction of amount 0.10000000000000002, the `float64` next above 0.1. -/
def tenthPlusUlpTx : Transaction :=
  { testTx 0 testNow with Amount := F64.add (F64.ofRat 1 10) (.fin (1 <<< 1018 : Nat)) }

/-- The transaction of `TestGenerateAlert`: `TransactionID` "tx-123", amount 50000. -/
def alertTestTx : Transaction := { testTx 50000 Time.zero with TransactionID := "tx-123" }

/-- The literal `&models.Alert{Status: status}` of `TestTransitionAlertStatus`. -/
def statusAlert (status : String) : Alert :=
  { ID := "", TransactionID := "", AlertType := "", Priority := 0, Score := .fin 0,
    CreatedAt := Time.zero, Status := status, AssignedTo := "", RuleDetails := [],
    TransitionAt := Time.zero }

/-- The values of `time.Parse(time.RFC3339, s)` on the timestamps of the example payloads;
any other string is rejected here. -/
def parseTestTime (s : String) : Except Error Time :=
  if s = "2023-01-15T10:00:00Z" then .ok 1673776800000000000
  else if s = "2023-01-16T10:00:00Z" then .ok 1673863200000000000
  else if s = "2023-01-17T10:00:00Z" then .ok 1673949600000000000
  else if s = "2023-01-15T11:00:00Z" then .ok 1673780400000000000
  else if s = "2023-01-15T09:00:00Z" then .ok 1673773200000000000
  else .error ("parsing time " ++ s)

/-- The decoding of a field of a JSON object into a Go `string` field: an absent key and
`null` leave the zero value. -/
def decodeStringField (fields : List (String × Json)) (key : String) : Except Error String :=
  match mapLookup fields key with
  | none => .ok ""
  | some .null => .ok ""
  | some (.string s) => .ok s
  | some _ => .error ("json: cannot unmarshal into Go struct field " ++ key ++ " of type string")

/-- The values of `json.Marshal` followed by `json.Unmarshal` into a `models.Transaction` on
the payload items of the examples: `null`, and objects with the lower-case keys of the
struct tags, string fields, a number `amount` and a `timestamp` among those of
`parseTestTime`.  Any other value is rejected here. -/
def testDecodeTx : Json → Except Error Transaction
  | .null =>
    .ok { TransactionID := "", AccountID := "", Amount := .fin 0, Currency := "",
          Timestamp := Time.zero, SourceCountry := "", DestinationCountry := "",
          TransactionType := "", Status := "" }
  | .object fields => do
    let transactionID ← decodeStringField fields "transaction_id"
    let accountID ← decodeStringField fields "account_id"
    let amount ←
      match mapLookup fields "amount" with
      | none => .ok (.fin 0)
      | some .null => .ok (.fin 0)
      | some (.number x) => .ok x
      | some _ => .error "json: cannot unmarshal into Go struct field amount of type float64"
    let currency ← decodeStringField fields "currency"
    let timestamp ←
      match mapLookup fields "timestamp" with
      | none => .ok Time.zero
      | some .null => .ok Time.zero
      | some (.string s) => parseTestTime s
      | some _ => .error "Time.UnmarshalJSON: input is not a JSON string"
    let sourceCountry ← decodeStringField fields "source_country"
    let destinationCountry ← decodeStringField fields "destination_country"
    let transactionType ← decodeStringField fields "transaction_type"
    let status ← decodeStringField fields "status"
    .ok { TransactionID := transactionID, AccountID := accountID, Amount := amount,
          Currency := currency, Timestamp := timestamp, SourceCountry := sourceCountry,
          DestinationCountry := destinationCountry, TransactionType := transactionType,
          Status := status }
  | _ => .error "json: cannot unmarshal into Go value of type models.Transaction"

/-- An iteration over a set of identifiers for executable examples: each identifier at
its first occurrence. -/
def insertionOrder : MapRange where
  keys l := l.reverse.dedup.reverse
  nodup l := List.nodup_reverse.mpr (List.nodup_dedup _)
  mem l id := by simp

/-- A store for executable examples: three tables; a query returns the rows whose key is
among the identifiers bound, transactions by ascending timestamp. -/
def tableStore (alerts : List Alert) (transactions : List Transaction)
    (accounts : List Account) : Store where
  queryAlerts ids := .ok (alerts.filter fun alert => decide (alert.ID ∈ ids))
  queryTransactions ids :=
    .ok ((transactions.filter fun tx => decide (tx.TransactionID ∈ ids)).insertionSort
      fun a b => a.Timestamp ≤ b.Timestamp)
  queryAccounts ids := .ok (accounts.filter fun account => decide (account.AccountID ∈ ids))

/-- The account and a transaction row of `ExampleGenerateSARData`; the amount is `n / d`. -/
def johnDoe : Account :=
  { AccountID := "acc001", HolderName := "John Doe", Address := "123 Main St, Anytown, USA",
    DateOfBirth := "1985-01-15" }

def sarTx (transactionID : String) (n d : Nat) (timestamp : Time) : Transaction :=
  { TransactionID := transactionID, AccountID := "acc001", Amount := F64.ofRat n d,
    Currency := "USD", Timestamp := timestamp, SourceCountry := "US",
    DestinationCountry := "GE", TransactionType := "WIRE", Status := "COMPLETED" }

/-- An alert row as `GenerateSARData` scans it: identifier, type, transaction and payload. -/
def sarAlert (id transactionID alertType : String) (ruleDetails : JSONMap) : Alert :=
  { ID := id, TransactionID := transactionID, AlertType := alertType, Priority := 0,
    Score := .fin 0, CreatedAt := Time.zero, Status := "", AssignedTo := "",
    RuleDetails := ruleDetails, TransitionAt := Time.zero }

/-- The three transactions of `ExampleGenerateSARData`, with amounts 5000.10, 6000.20 and
8500.40, and its three alerts, which carry no payload. -/
def exampleTransactions : List Transaction :=
  [sarTx "tx001" 50001 10 1673776800000000000, sarTx "tx002" 30001 5 1673863200000000000,
    sarTx "tx003" 42502 5 1673949600000000000]

def exampleAlerts : List Alert :=
  [sarAlert "alert001" "tx001" "structuring" [],
    sarAlert "alert002" "tx002" "high_value_transfer" [],
    sarAlert "alert003" "tx003" "structuring" []]

def exampleStore : Store := tableStore exampleAlerts exampleTransactions [johnDoe]

/-- The report of `ExampleGenerateSARData` on these rows: the totals of the two patterns
are 13500.5 and 6000.2, and the report total is (5000.10 + 6000.20) + 8500.40. -/
def exampleReport : SARReport :=
  { SubjectName := "John Doe", SubjectAddress := "123 Main St, Anytown, USA",
    SubjectDateOfBirth := "1985-01-15",
    StartDate := 1673776800000000000, EndDate := 1673949600000000000,
    TotalSuspiciousAmount :=
      F64.add (F64.add (F64.ofRat 50001 10) (F64.ofRat 30001 5)) (F64.ofRat 42502 5),
    TotalTransactionCount := 3,
    Patterns :=
      [("structuring",
          { PatternDescription := "structuring",
            Transactions := [sarTx "tx001" 50001 10 1673776800000000000,
              sarTx "tx003" 42502 5 1673949600000000000],
            TotalAmount := F64.ofRat 135005 10, TransactionCount := 2 }),
        ("high_value_transfer",
          { PatternDescription := "high_value_transfer",
            Transactions := [sarTx "tx002" 30001 5 1673863200000000000],
            TotalAmount := F64.ofRat 30001 5, TransactionCount := 1 })] }

/-- A payload item: the JSON object of a transaction of account "acc001", as `json.Marshal`
writes a `models.Transaction`. -/
def payloadItem (transactionID : String) (n d : Nat) (timestamp : String) : Json :=
  .object [("transaction_id", .string transactionID), ("account_id", .string "acc001"),
    ("amount", .number (F64.ofRat n d)), ("currency", .string "USD"),
    ("timestamp", .string timestamp), ("source_country", .string "US"),
    ("destination_country", .string "GE"), ("transaction_type", .string "WIRE"),
    ("status", .string "COMPLETED")]

/-- An alert whose payload lists its own transaction "tx001" with the amount 7000.10 and a
transaction "ghost" of 999 that the store does not have; the store holds "tx001" with the
amount 5000.10. -/
def ghostAlert : Alert :=
  sarAlert "alert001" "tx001" "structuring"
    [("matching_transactions", .array [payloadItem "tx001" 70001 10 "2023-01-15T10:00:00Z",
      payloadItem "ghost" 999 1 "2023-01-16T10:00:00Z"])]

def ghostStore : Store := tableStore [ghostAlert] exampleTransactions [johnDoe]

/-- The report on the alert with the ghost transaction. -/
def ghostReport : SARReport :=
  { SubjectName := "John Doe", SubjectAddress := "123 Main St, Anytown, USA",
    SubjectDateOfBirth := "1985-01-15",
    StartDate := 1673776800000000000, EndDate := 1673863200000000000,
    TotalSuspiciousAmount := F64.ofRat 79991 10,
    TotalTransactionCount := 2,
    Patterns :=
      [("structuring",
          { PatternDescription := "structuring",
            Transactions := [sarTx "tx001" 70001 10 1673776800000000000,
              sarTx "ghost" 999 1 1673863200000000000],
            TotalAmount := F64.ofRat 79991 10,
            TransactionCount := 2 })] }

/-- Two alerts without payload, the second on a transaction "tx404" that the store does not
have, and the report on them: only "tx001" is included. -/
def fallbackStore : Store :=
  tableStore
    [sarAlert "alert001" "tx001" "structuring" [], sarAlert "alert002" "tx404" "structuring" []]
    exampleTransactions [johnDoe]

def fallbackReport : SARReport :=
  { SubjectName := "John Doe", SubjectAddress := "123 Main St, Anytown, USA",
    SubjectDateOfBirth := "1985-01-15",
    StartDate := 1673776800000000000, EndDate := 1673776800000000000,
    TotalSuspiciousAmount := F64.ofRat 50001 10,
    TotalTransactionCount := 1,
    Patterns :=
      [("structuring",
          { PatternDescription := "structuring",
            Transactions := [sarTx "tx001" 50001 10 1673776800000000000],
            TotalAmount := F64.ofRat 50001 10, TransactionCount := 1 })] }

/-- The three rules of `TestEvaluateRules`, in order. -/
def testRules : List Rule := [singleRule, dailyRule, hourlyRule]

/-- An enabled rule whose identifier is none of the three built-in ones. -/
def unknownRule (timeWindow : String) : Rule :=
  { RuleID := "velocity_check_v2", Name := "Velocity Check", ThresholdValue := F64.ofInt 1,
    TimeWindow := timeWindow, Enabled := true }

/-- The history of the test `no_violations`: one transaction of 1000, two hours old. -/
def quietHistory : List Transaction := [testTx 1000 (testNow - 2 * hour)]

/-- The history of the test `daily_cumulative_exceeds`: two transactions of 20000, two
hours and one hour old. -/
def busyHistory : List Transaction :=
  [testTx 20000 (testNow - 2 * hour), testTx 20000 (testNow - 1 * hour)]

/-- A second account, one transaction of it, and a store with an alert on a transaction of
each account, the alert on John Doe's transaction first. -/
def janeRoe : Account :=
  { AccountID := "acc002", HolderName := "Jane Roe", Address := "9 Side St, Othertown, USA",
    DateOfBirth := "1990-07-30" }

def janeTx : Transaction :=
  { sarTx "tx901" 1200 1 1673949600000000000 with AccountID := "acc002" }

def twoAccountStore : Store :=
  tableStore
    [sarAlert "alert001" "tx001" "structuring" [], sarAlert "alert002" "tx901" "structuring" []]
    (exampleTransactions ++ [janeTx]) [johnDoe, janeRoe]

/-- The report on the alerts of the two accounts: the subject is John Doe. -/
def twoAccountReport : SARReport :=
  { SubjectName := "John Doe", SubjectAddress := "123 Main St, Anytown, USA",
    SubjectDateOfBirth := "1985-01-15",
    StartDate := 1673776800000000000, EndDate := 1673949600000000000,
    TotalSuspiciousAmount := F64.ofRat 62001 10,
    TotalTransactionCount := 2,
    Patterns :=
      [("structuring",
          { PatternDescription := "structuring",
            Transactions := [sarTx "tx001" 50001 10 1673776800000000000, janeTx],
            TotalAmount := F64.ofRat 62001 10, TransactionCount := 2 })] }

/-- A store whose one transaction is dated 2200-01-01T00:00:00Z, with an alert on it, and
the report on that alert when the clock reads `testNow` (2023-11-14T22:13:20Z): the start
date is `testNow` plus a hundred years of 365 days, 2123-10-21T22:13:20Z. -/
def futureTx : Transaction := sarTx "tx2200" 5000 1 7258118400000000000

def futureStore : Store :=
  tableStore [sarAlert "alert001" "tx2200" "structuring" []] [futureTx] [johnDoe]

def futureReport : SARReport :=
  { SubjectName := "John Doe", SubjectAddress := "123 Main St, Anytown, USA",
    SubjectDateOfBirth := "1985-01-15",
    StartDate := 4853600000000000000, EndDate := 7258118400000000000,
    TotalSuspiciousAmount := F64.ofInt 5000,
    TotalTransactionCount := 1,
    Patterns :=
      [("structuring",
          { PatternDescription := "structuring",
            Transactions := [futureTx],
            TotalAmount := F64.ofInt 5000, TransactionCount := 1 })] }

/-- The scenario of `TestAMLEndToEndFlow`, with the clock at 2023-01-15T12:00:00Z: the
account "ACC123" of John Doe, its deposits of 9000, 9500 and 9800 one, two and three hours
ago and of 100 thirteen hours ago, and a withdrawal of another account. -/
def e2eNow : Time := 1673784000000000000

def e2eAccount : Account :=
  { AccountID := "ACC123", HolderName := "John Doe", Address := "123 Main St",
    DateOfBirth := "1980-01-01" }

def deposit (transactionID : String) (amount : Int) (timestamp : Time) : Transaction :=
  { TransactionID := transactionID, AccountID := "ACC123", Amount := F64.ofInt amount,
    Currency := "USD", Timestamp := timestamp, SourceCountry := "USA",
    DestinationCountry := "USA", TransactionType := "deposit", Status := "completed" }

/-- The transactions of "ACC123", as the test hands them to `DetectStructuring`. -/
def e2ePool : List Transaction :=
  [deposit "tx-9000" 9000 (e2eNow - 1 * hour), deposit "tx-9500" 9500 (e2eNow - 2 * hour),
    deposit "tx-9800" 9800 (e2eNow - 3 * hour), deposit "tx-100" 100 (e2eNow - 13 * hour)]

/-- The three deposits inside the 12-hour window, latest first. -/
def e2eMatching : List Transaction :=
  [deposit "tx-9000" 9000 (e2eNow - 1 * hour), deposit "tx-9500" 9500 (e2eNow - 2 * hour),
    deposit "tx-9800" 9800 (e2eNow - 3 * hour)]

/-- A deposit of "ACC123" as `json.Marshal` writes it into the payload of an alert. -/
def depositItem (transactionID : String) (amount : Int) (timestamp : String) : Json :=
  .object [("transaction_id", .string transactionID), ("account_id", .string "ACC123"),
    ("amount", .number (F64.ofInt amount)), ("currency", .string "USD"),
    ("timestamp", .string timestamp), ("source_country", .string "USA"),
    ("destination_country", .string "USA"), ("transaction_type", .string "deposit"),
    ("status", .string "completed")]

/-- The rule details of the alert of the test, as stored: the three matching deposits, their
total, the time window and the threshold. -/
def e2eRuleDetails : JSONMap :=
  [("matching_transactions", .array [depositItem "tx-9000" 9000 "2023-01-15T11:00:00Z",
      depositItem "tx-9500" 9500 "2023-01-15T10:00:00Z",
      depositItem "tx-9800" 9800 "2023-01-15T09:00:00Z"]),
    ("total_amount", .number (F64.ofInt 28300)), ("time_window", .string "12h"),
    ("threshold_value", .number (F64.ofInt 27000))]

/-- The store of the test: the alert row, the transactions and the account. -/
def e2eStore : Store :=
  tableStore [sarAlert "alert-1" "tx-9000" "STRUCTURING_PATTERN" e2eRuleDetails]
    (e2ePool ++ [{ deposit "tx-15000" 15000 (e2eNow - 1 * hour) with
      AccountID := "ACC124", SourceCountry := "CAN", TransactionType := "withdrawal" }])
    [e2eAccount]

/-- The report of the test. -/
def e2eReport : SARReport :=
  { SubjectName := "John Doe", SubjectAddress := "123 Main St",
    SubjectDateOfBirth := "1980-01-01",
    StartDate := e2eNow - 3 * hour, EndDate := e2eNow - 1 * hour,
    TotalSuspiciousAmount := F64.ofInt 28300,
    TotalTransactionCount := 3,
    Patterns :=
      [("STRUCTURING_PATTERN",
          { PatternDescription := "STRUCTURING_PATTERN", Transactions := e2eMatching,
            TotalAmount := F64.ofInt 28300, TransactionCount := 3 })] }

/-- A `unicode.ToUpper` for executable examples: the letters `a` to `z`, and the two
characters outside U+0000 to U+007F whose upper-case letter is inside, U+0131 (dotless i,
to `I`) and U+017F (long s, to `S`); every other character is left as it is here. -/
def exampleUpper : UnicodeUpper where
  toUpper c :=
    if c = Char.ofNat 0x131 then 'I' else if c = Char.ofNat 0x17f then 'S' else c.toUpper
  ascii c hc := by
    have h1 : c ≠ Char.ofNat 0x131 := by
      rintro rfl
      exact absurd hc (by decide)
    have h2 : c ≠ Char.ofNat 0x17f := by
      rintro rfl
      exact absurd hc (by decide)
    simp only [h1, h2, if_false]

/-- A transaction that passes `validateTransaction`, with the currency "usd". -/
def validTx : Transaction :=
  { TransactionID := "", AccountID := "ACC123", Amount := F64.ofRat 3001 20,
    Currency := "usd", Timestamp := Time.zero, SourceCountry := "USA",
    DestinationCountry := "CAN", TransactionType := "deposit", Status := "completed" }

/-- The values of `Time.Format(time.RFC3339)` on the instants of `TestExportSARToJSON`; the
table gives the empty string elsewhere. -/
def formatTestTime (t : Time) : String :=
  if t = 1673778600000000000 then "2023-01-15T10:30:00Z"
  else if t = 1672531200000000000 then "2023-01-01T00:00:00Z"
  else if t = 1675209599999999999 then "2023-01-31T23:59:59Z"
  else ""

/-- The range over a map that visits the entries in the order of the list. -/
def listOrder : PatternRange where
  entries m := m
  perm m := List.Perm.refl m

/-- The transaction, the pattern and the report of `TestExportSARToJSON`; the amount is
1500.75. -/
def mockTransaction : Transaction :=
  { TransactionID := "TXN123", AccountID := "ACCT9876543210", Amount := F64.ofRat 6003 4,
    Currency := "USD", Timestamp := 1673778600000000000, SourceCountry := "USA",
    DestinationCountry := "CAN", TransactionType := "Wire Transfer", Status := "Completed" }

def mockPattern : SuspiciousActivityPattern :=
  { PatternDescription := "Large single transaction", Transactions := [mockTransaction],
    TotalAmount := F64.ofRat 6003 4, TransactionCount := 1 }

def mockSARReport : SARReport :=
  { SubjectName := "John Doe", SubjectAddress := "123 Main St",
    SubjectDateOfBirth := "1980-05-20", StartDate := 1672531200000000000,
    EndDate := 1675209599999999999, TotalSuspiciousAmount := F64.ofRat 6003 4,
    TotalTransactionCount := 1, Patterns := [("LargeTransaction", mockPattern)] }

/-- A transaction whose amount is the finite `float64` of `z` units of `2 ^ (-1074)`. -/
def unitsTx (z : Int) : Transaction := { testTx 0 testNow with Amount := .fin z }

/-- A history whose squared deviations are subnormal: five amounts `x` and five amounts
`-x`, for the `x` with the bits 0x1ff19b329cb07f00 (about 1.6e-154); the mean is 0. -/
def tinyHistory : List Transaction :=
  List.replicate 5 (unitsTx ((0x119b329cb07f00 <<< 510 : Nat) : Int)) ++
    List.replicate 5 (unitsTx (-((0x119b329cb07f00 <<< 510 : Nat) : Int)))

/-! ## Vocabulary of the properties -/

/-- The weight `CalculateRiskScore` gives a priority: 50, 75 and 100. -/
def priorityWeight (p : PriorityLevel) : F64 :=
  if p = Medium then F64.ofInt 50 else if p = High then F64.ofInt 75 else F64.ofInt 100

/-- The tagged transactions one alert adds to the report: each transaction of its slice
`currentAlertMatchingTxs`, with the alert type under which it is filed. -/
def contribution (decodeTx : Json → Except Error Transaction)
    (transactionsMap : List (String × Transaction)) (alert : Alert) :
    List (String × Transaction) :=
  match currentAlertMatchingTxs decodeTx transactionsMap alert with
  | .ok txs => txs.map fun tx => (alert.AlertType, tx)
  | .error _ => []

/-- The value of a finite `float64`, counted in units of 2^-1074, for sums without
rounding. -/
def F64.units : F64 → Option Int
  | .fin z => some z
  | _ => none

/-- The items of a `matching_transactions` entry: those of the list, or the single value. -/
def payloadItems (rawMatchingTxs : Json) : List Json :=
  rawMatchingTxs.asList.getD [rawMatchingTxs]

/-- The transactions one alert adds to the report: its slice `currentAlertMatchingTxs`. -/
def contributed (decodeTx : Json → Except Error Transaction)
    (transactionsMap : List (String × Transaction)) (alert : Alert) : List Transaction :=
  match currentAlertMatchingTxs decodeTx transactionsMap alert with
  | .ok txs => txs
  | .error _ => []

/-- The `float64` running total of a list of transactions: the amounts added one by one,
in list order, starting from 0. -/
def runningTotal (txs : List Transaction) : F64 :=
  txs.foldl (fun total tx => F64.add total tx.Amount) (.fin 0)

/-- The relation between a report and the tagged transactions `included` it was built from,
in the order in which they were processed: the report totals are the running total and
the number of all of them; the pattern keys are distinct and every tag is one of them; the
pattern of a key holds the transactions with that tag, in order, their running total and
their number. -/
structure Aggregated (included : List (String × Transaction)) (report : SARReport) : Prop where
  total : report.TotalSuspiciousAmount = runningTotal (included.map fun e => e.2)
  count : report.TotalTransactionCount = included.length
  keys_nodup : (report.Patterns.map fun e => e.1).Nodup
  tags : ∀ e ∈ included, e.1 ∈ report.Patterns.map fun e => e.1
  patterns : ∀ key pattern, (key, pattern) ∈ report.Patterns →
    pattern.PatternDescription = key ∧
    pattern.Transactions = (included.filter fun e => decide (e.1 = key)).map (fun e => e.2) ∧
    pattern.TotalAmount = runningTotal pattern.Transactions ∧
    pattern.TransactionCount = pattern.Transactions.length

/-- The three rule identifiers that `EvaluateRules` knows. -/
def builtinRuleIDs : List String :=
  ["single_transaction_exceeds_10000", "daily_cumulative_exceeds_50000",
    "more_than_5_transactions_in_1_hour"]

/-- The condition under which `EvaluateRules` appends a violation for an enabled rule whose
time window parsed to `timeWindow`, `now` being the reading of the clock the rule takes. -/
def ruleFires (now : Time) (tx : Transaction) (history : List Transaction) (rule : Rule)
    (timeWindow : Duration) : Bool :=
  if rule.RuleID = "single_transaction_exceeds_10000" then
    F64.gt tx.Amount rule.ThresholdValue
  else if rule.RuleID = "daily_cumulative_exceeds_50000" then
    F64.gt (F64.add (sumAmounts (GetTransactionsInWindow now history timeWindow)) tx.Amount)
      rule.ThresholdValue
  else if rule.RuleID = "more_than_5_transactions_in_1_hour" then
    F64.gt (F64.ofInt (((GetTransactionsInWindow now history timeWindow).length : Int) + 1))
      rule.ThresholdValue
  else false

/-- The four valid alert types. -/
def validAlertTypes : List String :=
  [AlertTypeThresholdViolation, AlertTypeAnomalyDetected, AlertTypeStructuringPattern,
    AlertTypeGeographicRisk]

/-- The five statuses that have an entry in `allowedTransitions`. -/
def knownStatuses : List String :=
  [StatusOpen, StatusInvestigating, StatusEscalated, StatusClosed, StatusFalsePositive]

/-- A call of `TransitionAlertStatus` on an alert: the reading of the clock, the target
status and the investigator. -/
structure TransitionCall where
  now : Time
  newStatus : String
  investigatorID : String

/-- A sequence of calls of `TransitionAlertStatus` on one alert, each on the alert the call
before it left: the alert after the last call when every call returns no error, and `none`
when some call returns an error. -/
def successfulTransitions : Alert → List TransitionCall → Option Alert
  | alert, [] => some alert
  | alert, call :: calls =>
    match TransitionAlertStatus call.now alert call.newStatus call.investigatorID with
    | (alert, none) => successfulTransitions alert calls
    | (_, some _) => none

/-- The length of the longest path in `allowedTransitions` that starts at a status. -/
def stepsLeft (status : String) : Nat :=
  if status = StatusOpen then 3
  else if status = StatusInvestigating then 2
  else if status = StatusEscalated then 1
  else 0

/-- The value of the variable `score` of `CalculateRiskScore` before the cap
`math.Min(score, 100)`, for the weight of a priority. -/
def uncappedScore (fusion : Fusion) (amount : F64) (p : PriorityLevel) : F64 :=
  F64.addProducts fusion (priorityWeight p) (F64.ofRat 4 5)
    (F64.mul (F64.div (F64.min amount (F64.ofInt 1000000)) (F64.ofInt 1000000))
      (F64.ofInt 20))
    (F64.ofRat 1 5)

/-- The least and the greatest score of a priority over the non-negative amounts. -/
def scoreBand (p : PriorityLevel) : Int × Int :=
  if p = Medium then (40, 44) else if p = High then (60, 64) else (80, 84)

/-- For every duration other than the least `int64`, the window starts at `now - window`. -/
theorem windowStart_eq_sub (now window : Int)
    (hlo : -9223372036854775808 < window) (hhi : window < 9223372036854775808) :
    windowStart now window = now - window := by
  unfold windowStart Time.Add Duration.neg wrapInt64
  rw [Int.emod_eq_of_lt (by omega) (by omega)]
  show @Eq Int _ _
  omega

/-- The window test of `GetTransactionsInWindow`, as a proposition. -/
theorem GetTransactionsInWindow_eq_filter (now : Time) (history : List Transaction)
    (window : Duration) :
    GetTransactionsInWindow now history window =
      history.filter fun h =>
        decide (windowStart now window < h.Timestamp ∧ h.Timestamp < now) := by
  unfold GetTransactionsInWindow
  congr 1
  funext h
  simp [Time.After, Time.Before]

/-- Addition of `float64` is commutative. -/
theorem F64.add_comm (x y : F64) : F64.add x y = F64.add y x := by
  cases x <;> cases y <;> simp [F64.add, Int.add_comm]

/-- A value that is `<=` another is not `>` it. -/
theorem F64.gt_eq_false_of_le (x y : F64) (h : F64.le x y = true) : F64.gt x y = false := by
  cases x <;> cases y <;> simp_all [F64.le, F64.gt, F64.lt, F64.eq]
  omega

/-- The running total of the amount loop adds the amounts in the order of the slice. -/
theorem sumAmounts_eq_foldl (l : List Transaction) :
    sumAmounts l = (l.map (·.Amount)).foldl F64.add (.fin 0) := by
  unfold sumAmounts
  rw [List.foldl_map]

/-! ## RuleEngine -/

/-- C1: for a rule list made of one enabled rule with ID `single_transaction_exceeds_10000`,
threshold `T` and a parseable time window, and for every history, `EvaluateRules` returns
exactly one violation (that rule's ID, `ActualValue = tx.Amount`, `ThresholdValue = T`) when
`tx.Amount > T`, and no violation and no error when `tx.Amount <= T`. -/
theorem single_transaction_rule (parseDuration : String → Except Error Duration)
    (clock : Nat → Time) (tx : Transaction) (history : List Transaction) (rule : Rule)
    (w : Duration) (hid : rule.RuleID = "single_transaction_exceeds_10000")
    (hen : rule.Enabled = true) (hparse : parseDuration rule.TimeWindow = .ok w) :
    (F64.gt tx.Amount rule.ThresholdValue = true →
      EvaluateRules parseDuration clock tx [rule] history =
        .ok [⟨rule.RuleID, tx.Amount, rule.ThresholdValue⟩]) ∧
    (F64.le tx.Amount rule.ThresholdValue = true →
      EvaluateRules parseDuration clock tx [rule] history = .ok []) := by
  constructor
  · intro h
    simp [EvaluateRules, EvaluateRules.loop, Rule.GetTimeWindow, hen, hparse, hid, h]
  · intro h
    simp [EvaluateRules, EvaluateRules.loop, Rule.GetTimeWindow, hen, hparse, hid,
      F64.gt_eq_false_of_le _ _ h]

/-- The test `single_transaction_exceeds`, amount 15000 against the threshold 10000, and an
amount equal to the threshold, which is no violation. -/
theorem single_transaction_rule_witness :
    EvaluateRules parseTestWindow (fun _ => testNow) (testTx 15000 testNow) [singleRule] [] =
        .ok [⟨"single_transaction_exceeds_10000", F64.ofInt 15000, F64.ofInt 10000⟩] ∧
      EvaluateRules parseTestWindow (fun _ => testNow) (testTx 10000 testNow) [singleRule] [] =
        .ok [] :=
  ⟨(single_transaction_rule parseTestWindow (fun _ => testNow) (testTx 15000 testNow) []
      singleRule 0 rfl rfl rfl).1 (by decide),
    (single_transaction_rule parseTestWindow (fun _ => testNow) (testTx 10000 testNow) []
      singleRule 0 rfl rfl rfl).2 (by decide)⟩

/-- C2: for a rule list made of one enabled rule with ID `daily_cumulative_exceeds_50000`,
threshold `T` and window `w`, evaluated at time `now`, let `S` be `tx.Amount` plus the sum
of the amounts of the history entries whose timestamp `t` satisfies `now-w < t < now`
(`now-w` being `now.Add(-w)`, and the sum the running `float64` total in history order).
`EvaluateRules` returns exactly one violation with `ActualValue = S` and
`ThresholdValue = T` when `S > T`, and no violation when `S <= T`. -/
theorem daily_cumulative_rule (parseDuration : String → Except Error Duration)
    (clock : Nat → Time) (tx : Transaction) (history : List Transaction) (rule : Rule)
    (w : Duration) (hid : rule.RuleID = "daily_cumulative_exceeds_50000")
    (hen : rule.Enabled = true) (hparse : parseDuration rule.TimeWindow = .ok w) :
    let now := clock 0
    let inWindow := history.filter fun h =>
      decide (windowStart now w < h.Timestamp ∧ h.Timestamp < now)
    let S := F64.add tx.Amount ((inWindow.map (·.Amount)).foldl F64.add (.fin 0))
    (F64.gt S rule.ThresholdValue = true →
      EvaluateRules parseDuration clock tx [rule] history =
        .ok [⟨rule.RuleID, S, rule.ThresholdValue⟩]) ∧
    (F64.le S rule.ThresholdValue = true →
      EvaluateRules parseDuration clock tx [rule] history = .ok []) := by
  intro now inWindow S
  have hS : F64.add (sumAmounts (GetTransactionsInWindow (clock 0) history w)) tx.Amount =
      S := by
    rw [sumAmounts_eq_foldl, GetTransactionsInWindow_eq_filter, F64.add_comm]
  constructor
  · intro h
    simp [EvaluateRules, EvaluateRules.loop, Rule.GetTimeWindow, hen, hparse, hid, hS, h]
  · intro h
    simp [EvaluateRules, EvaluateRules.loop, Rule.GetTimeWindow, hen, hparse, hid, hS,
      F64.gt_eq_false_of_le _ _ h]

/-- The test `daily_cumulative_exceeds`: 20000 two hours ago and 20000 one hour ago, inside
the 24 hour window, plus the current 15000 give the actual value 55000 against 50000. -/
theorem daily_cumulative_rule_witness :
    EvaluateRules parseTestWindow (fun _ => testNow) (testTx 15000 testNow) [dailyRule]
        [testTx 20000 (testNow - 2 * hour), testTx 20000 (testNow - hour)] =
      .ok [⟨"daily_cumulative_exceeds_50000", F64.ofInt 55000, F64.ofInt 50000⟩] :=
  (daily_cumulative_rule parseTestWindow (fun _ => testNow) (testTx 15000 testNow)
    [testTx 20000 (testNow - 2 * hour), testTx 20000 (testNow - hour)]
    dailyRule 86400000000000 rfl rfl rfl).1 (by decide)

/-- C3: for a rule list made of one enabled rule with ID
`more_than_5_transactions_in_1_hour`, threshold `T` and window `w`, evaluated at time `now`,
let `N` be 1 plus the number of history entries whose timestamp `t` satisfies
`now-w < t < now` (`now-w` being `now.Add(-w)`; entries exactly at `now` or at `now-w` are
not counted).  `EvaluateRules` returns exactly one violation with `ActualValue = N` when
`N > T` and no violation when `N <= T`. -/
theorem hourly_count_rule (parseDuration : String → Except Error Duration)
    (clock : Nat → Time) (tx : Transaction) (history : List Transaction) (rule : Rule)
    (w : Duration) (hid : rule.RuleID = "more_than_5_transactions_in_1_hour")
    (hen : rule.Enabled = true) (hparse : parseDuration rule.TimeWindow = .ok w) :
    let now := clock 0
    let N : Nat := 1 + (history.filter fun h =>
      decide (windowStart now w < h.Timestamp ∧ h.Timestamp < now)).length
    (F64.gt (F64.ofInt N) rule.ThresholdValue = true →
      EvaluateRules parseDuration clock tx [rule] history =
        .ok [⟨rule.RuleID, F64.ofInt N, rule.ThresholdValue⟩]) ∧
    (F64.le (F64.ofInt N) rule.ThresholdValue = true →
      EvaluateRules parseDuration clock tx [rule] history = .ok []) := by
  intro now N
  have hN : (((GetTransactionsInWindow (clock 0) history w).length : Int) + 1 : Int) =
      (N : Int) := by
    rw [GetTransactionsInWindow_eq_filter]
    simp only [N, now]
    push_cast
    ring
  have hne1 : ¬ rule.RuleID = "single_transaction_exceeds_10000" := by rw [hid]; decide
  have hne2 : ¬ rule.RuleID = "daily_cumulative_exceeds_50000" := by rw [hid]; decide
  constructor
  · intro h
    simp only [EvaluateRules, EvaluateRules.loop, Rule.GetTimeWindow, hen, hparse, hN]
    simp [hne1, hne2, hid, h]
  · intro h
    simp only [EvaluateRules, EvaluateRules.loop, Rule.GetTimeWindow, hen, hparse, hN]
    simp [hne1, hne2, hid, F64.gt_eq_false_of_le _ _ h]

/-- The test `too_many_transactions_in_hour`: five entries inside the last hour and the
threshold 5 give the actual value 6. -/
theorem hourly_count_rule_witness :
    EvaluateRules parseTestWindow (fun _ => testNow) (testTx 600 testNow) [hourlyRule]
        [testTx 100 (testNow - 10 * minute), testTx 200 (testNow - 20 * minute),
          testTx 300 (testNow - 30 * minute), testTx 400 (testNow - 40 * minute),
          testTx 500 (testNow - 50 * minute)] =
      .ok [⟨"more_than_5_transactions_in_1_hour", F64.ofInt 6, F64.ofInt 5⟩] :=
  (hourly_count_rule parseTestWindow (fun _ => testNow) (testTx 600 testNow)
    [testTx 100 (testNow - 10 * minute), testTx 200 (testNow - 20 * minute),
      testTx 300 (testNow - 30 * minute), testTx 400 (testNow - 40 * minute),
      testTx 500 (testNow - 50 * minute)]
    hourlyRule 3600000000000 rfl rfl rfl).1 (by decide)

/-! ## `float64` arithmetic -/

/-- The first loop ends with an exponent that `n` is below. -/
theorem log2Floor.lt_bound (fuel n e : Nat) (h : n < 2 ^ (e + fuel)) (he : 1 ≤ e) :
    n < 2 ^ log2Floor.bound fuel n e := by
  induction fuel generalizing e with
  | zero => simpa [log2Floor.bound] using h
  | succ fuel ih =>
    unfold log2Floor.bound
    split_ifs with hlt
    · simpa [Nat.one_shiftLeft] using hlt
    · exact ih (2 * e)
        (lt_of_lt_of_le h (Nat.pow_le_pow_right (by norm_num) (by omega))) (by omega)

/-- The bisection ends on the leading bit. -/
theorem log2Floor.search_spec (fuel n acc w : Nat) (hw : w ≤ fuel) (hlo : 2 ^ acc ≤ n)
    (hhi : n < 2 ^ (acc + w)) :
    2 ^ log2Floor.search fuel n acc w ≤ n ∧ n < 2 ^ (log2Floor.search fuel n acc w + 1) := by
  induction fuel generalizing acc w with
  | zero =>
    have hw0 : w = 0 := by omega
    subst hw0
    exact absurd hlo (not_le.mpr (by simpa using hhi))
  | succ fuel ih =>
    unfold log2Floor.search
    split_ifs with h1 hs
    · refine ⟨hlo, lt_of_lt_of_le hhi (Nat.pow_le_pow_right (by norm_num) (by omega))⟩
    · refine ih (acc + w / 2) (w - w / 2) (by omega) (by simpa [Nat.one_shiftLeft] using hs) ?_
      have : acc + w / 2 + (w - w / 2) = acc + w := by omega
      rw [this]
      exact hhi
    · exact ih acc (w / 2) (by omega) hlo (by simpa [Nat.one_shiftLeft] using hs)

/-- The value of `log2Floor` is the position of the leading bit. -/
theorem log2Floor_spec (n : Nat) (h : 1 ≤ n) :
    2 ^ log2Floor n ≤ n ∧ n < 2 ^ (log2Floor n + 1) := by
  have hb : n < 2 ^ log2Floor.bound n n 1 :=
    log2Floor.lt_bound n n 1 (lt_of_lt_of_le (Nat.lt_two_pow n) (Nat.pow_le_pow_right
      (by norm_num) (Nat.le_add_left n 1))) (le_refl 1)
  exact log2Floor.search_spec _ n 0 _ (le_refl _) (by simpa using h) (by simpa using hb)

/-- The function `log2Floor` is the base 2 logarithm, rounded down. -/
theorem log2Floor_eq_log (n : Nat) : log2Floor n = Nat.log 2 n := by
  rcases Nat.eq_zero_or_pos n with h | h
  · subst h
    have h0 : log2Floor 0 = 0 := by decide
    rw [h0, Nat.log_zero_right]
  · have hs := log2Floor_spec n h
    exact (Nat.log_eq_of_pow_le_of_lt_pow hs.1 hs.2).symm

theorem two_pow_log2Floor_le (n : Nat) (h : 1 ≤ n) : 2 ^ log2Floor n ≤ n :=
  (log2Floor_spec n h).1

/-- With fuel for every step, the loop of `isqrt` is Newton's iteration of `Nat.sqrt`. -/
theorem F64.isqrt.go_eq_iter (fuel n x : Nat) (h : x ≤ fuel) :
    F64.isqrt.go fuel n x = Nat.sqrt.iter n x := by
  induction fuel generalizing x with
  | zero =>
    have hx : x = 0 := by omega
    subst hx
    unfold F64.isqrt.go Nat.sqrt.iter
    simp
  | succ fuel ih =>
    unfold F64.isqrt.go Nat.sqrt.iter
    simp only
    split_ifs with hlt
    · exact ih _ (by omega)
    · rfl

/-- The function `isqrt` is the integer square root. -/
theorem F64.isqrt_eq_sqrt (n : Nat) : F64.isqrt n = Nat.sqrt n := by
  unfold F64.isqrt
  split_ifs with h0
  · subst h0
    rfl
  · have hn : 1 ≤ n := Nat.one_le_iff_ne_zero.mpr h0
    rw [F64.isqrt.go_eq_iter _ _ _ (le_refl _), Nat.one_shiftLeft, log2Floor_eq_log]
    refine Nat.eq_sqrt.mpr ⟨Nat.sqrt.iter_sq_le _ _, Nat.sqrt.lt_iter_succ_sq _ _ ?_⟩
    have hlt : n < 2 ^ (Nat.log 2 n + 1) := Nat.lt_pow_succ_log_self (by norm_num) n
    have hle : 2 ^ (Nat.log 2 n + 1) ≤ 2 ^ (Nat.log 2 n / 2 + 1) * 2 ^ (Nat.log 2 n / 2 + 1) := by
      rw [← Nat.pow_add]
      exact Nat.pow_le_pow_right (by norm_num) (by omega)
    calc n < 2 ^ (Nat.log 2 n / 2 + 1) * 2 ^ (Nat.log 2 n / 2 + 1) := lt_of_lt_of_le hlt hle
      _ ≤ (2 ^ (Nat.log 2 n / 2 + 1) + 1) * (2 ^ (Nat.log 2 n / 2 + 1) + 1) :=
        Nat.mul_le_mul (Nat.le_succ _) (Nat.le_succ _)

/-- Zero rounds to zero. -/
theorem roundNat_zero (d : Nat) : roundNat 0 d = 0 := by
  have h0 : log2Floor 0 = 0 := by decide
  simp [roundNat, roundHalfEven, h0]

/-- A quotient of at least one does not round to zero. -/
theorem roundNat_pos (n d : Nat) (hd : 0 < d) (hn : d ≤ n) : 0 < roundNat n d := by
  have hf : 1 ≤ n / d := (Nat.one_le_div_iff hd).mpr hn
  have hlog := two_pow_log2Floor_le (n / d) hf
  have hk : 2 ^ (log2Floor (n / d) + 1 - 53) ≤ n / d :=
    le_trans (Nat.pow_le_pow_right (by norm_num) (by omega)) hlog
  have hu : d * 2 ^ (log2Floor (n / d) + 1 - 53) ≤ n :=
    le_trans (Nat.mul_le_mul_left d hk) (Nat.mul_div_le n d)
  have hupos : 0 < d * 2 ^ (log2Floor (n / d) + 1 - 53) := by positivity
  have hq : 1 ≤ n / (d * 2 ^ (log2Floor (n / d) + 1 - 53)) :=
    (Nat.one_le_div_iff hupos).mpr hu
  simp only [roundNat, roundHalfEven, Nat.shiftLeft_eq]
  apply Nat.mul_pos _ (by positivity)
  split_ifs <;> omega

/-- The floor of a quotient is monotone in the quotient. -/
theorem div_le_div_of_cross (n1 u1 n2 u2 : Nat) (h1 : 0 < u1) (h2 : 0 < u2)
    (h : n1 * u2 ≤ n2 * u1) : n1 / u1 ≤ n2 / u2 := by
  rw [Nat.le_div_iff_mul_le h2]
  have hq : n1 / u1 * u1 ≤ n1 := Nat.div_mul_le_self n1 u1
  have h3 : n1 / u1 * u2 * u1 ≤ n2 * u1 := by
    calc n1 / u1 * u2 * u1 = n1 / u1 * u1 * u2 := by ring
      _ ≤ n1 * u2 := Nat.mul_le_mul_right u2 hq
      _ ≤ n2 * u1 := h
  exact Nat.le_of_mul_le_mul_right h3 h1

theorem roundHalfEven_ge (n u : Nat) : n / u ≤ roundHalfEven n u := by
  unfold roundHalfEven
  simp only
  split_ifs <;> omega

theorem roundHalfEven_le (n u : Nat) : roundHalfEven n u ≤ n / u + 1 := by
  unfold roundHalfEven
  simp only
  split_ifs <;> omega

/-- Rounding to the nearest integer is monotone. -/
theorem roundHalfEven_mono (n1 u1 n2 u2 : Nat) (h1 : 0 < u1) (h2 : 0 < u2)
    (h : n1 * u2 ≤ n2 * u1) : roundHalfEven n1 u1 ≤ roundHalfEven n2 u2 := by
  have hq := div_le_div_of_cross n1 u1 n2 u2 h1 h2 h
  rcases Nat.lt_or_ge (n1 / u1) (n2 / u2) with hlt | hge
  · exact le_trans (roundHalfEven_le n1 u1) (le_trans hlt (roundHalfEven_ge n2 u2))
  · have heq : n1 / u1 = n2 / u2 := le_antisymm hq hge
    have e1 : u1 * (n1 / u1) + n1 % u1 = n1 := Nat.div_add_mod n1 u1
    have e2 : u2 * (n2 / u2) + n2 % u2 = n2 := Nat.div_add_mod n2 u2
    have hr : n1 % u1 * u2 ≤ n2 % u2 * u1 := by
      have : (u1 * (n1 / u1) + n1 % u1) * u2 ≤ (u2 * (n2 / u2) + n2 % u2) * u1 := by
        rw [e1, e2]; exact h
      rw [heq] at this
      nlinarith
    unfold roundHalfEven
    simp only
    rw [heq]
    split_ifs with a1 a2 a3 a4 a5 a6 a7 a8 <;> first | omega | (exfalso; nlinarith)


/-- The exponent of the rounding grid is monotone in the quotient. -/
theorem gridExp_mono (f1 f2 : Nat) (h : f1 ≤ f2) :
    log2Floor f1 + 1 - 53 ≤ log2Floor f2 + 1 - 53 := by
  have := Nat.log_mono_right (b := 2) h
  rw [log2Floor_eq_log, log2Floor_eq_log]
  omega

/-- On its grid the rounded quotient has at most 53 bits, or is `2 ^ 53`. -/
theorem roundHalfEven_le_two_pow (n d : Nat) :
    roundHalfEven n (d * 2 ^ (log2Floor (n / d) + 1 - 53)) ≤ 2 ^ 53 := by
  refine le_trans (roundHalfEven_le _ _) ?_
  have hpos : 0 < 2 ^ (log2Floor (n / d) + 1 - 53) := by positivity
  have hlt : n / d < 2 ^ (log2Floor (n / d) + 1) := by
    rw [log2Floor_eq_log]
    exact Nat.lt_pow_succ_log_self (by norm_num) _
  have hle : 2 ^ (log2Floor (n / d) + 1) ≤ 2 ^ 53 * 2 ^ (log2Floor (n / d) + 1 - 53) := by
    rw [← Nat.pow_add]
    exact Nat.pow_le_pow_right (by norm_num) (by omega)
  have hq : n / d / 2 ^ (log2Floor (n / d) + 1 - 53) < 2 ^ 53 :=
    (Nat.div_lt_iff_lt_mul hpos).mpr (lt_of_lt_of_le hlt hle)
  rw [← Nat.div_div_eq_div_mul]
  exact hq

/-- On a grid of positive exponent the rounded quotient has 53 bits. -/
theorem two_pow_le_roundHalfEven (n d : Nat) (hk : 0 < log2Floor (n / d) + 1 - 53) :
    2 ^ 52 ≤ roundHalfEven n (d * 2 ^ (log2Floor (n / d) + 1 - 53)) := by
  refine le_trans ?_ (roundHalfEven_ge _ _)
  have hpos : 0 < 2 ^ (log2Floor (n / d) + 1 - 53) := by positivity
  have hf : 1 ≤ n / d := by
    by_contra hf
    have h0 : n / d = 0 := Nat.lt_one_iff.mp (not_le.mp hf)
    rw [h0] at hk
    have : log2Floor 0 = 0 := by decide
    omega
  have hlog := two_pow_log2Floor_le (n / d) hf
  have he : 52 + (log2Floor (n / d) + 1 - 53) = log2Floor (n / d) := by omega
  have hq : 2 ^ 52 ≤ n / d / 2 ^ (log2Floor (n / d) + 1 - 53) := by
    rw [Nat.le_div_iff_mul_le hpos, ← Nat.pow_add, he]
    exact hlog
  rw [← Nat.div_div_eq_div_mul]
  exact hq

/-- Rounding to `float64` precision is monotone. -/
theorem roundNat_mono (n1 d1 n2 d2 : Nat) (h1 : 0 < d1) (h2 : 0 < d2)
    (h : n1 * d2 ≤ n2 * d1) : roundNat n1 d1 ≤ roundNat n2 d2 := by
  have hf := div_le_div_of_cross n1 d1 n2 d2 h1 h2 h
  have hk := gridExp_mono _ _ hf
  simp only [roundNat, Nat.shiftLeft_eq]
  rcases Nat.lt_or_ge (log2Floor (n1 / d1) + 1 - 53) (log2Floor (n2 / d2) + 1 - 53) with
    hlt | hge
  · have ha := roundHalfEven_le_two_pow n1 d1
    have hb := two_pow_le_roundHalfEven n2 d2 (by omega)
    calc roundHalfEven n1 (d1 * 2 ^ (log2Floor (n1 / d1) + 1 - 53)) *
          2 ^ (log2Floor (n1 / d1) + 1 - 53)
        ≤ 2 ^ 53 * 2 ^ (log2Floor (n1 / d1) + 1 - 53) := Nat.mul_le_mul_right _ ha
      _ = 2 ^ (53 + (log2Floor (n1 / d1) + 1 - 53)) := (Nat.pow_add _ _ _).symm
      _ ≤ 2 ^ (52 + (log2Floor (n2 / d2) + 1 - 53)) :=
        Nat.pow_le_pow_right (by norm_num) (by omega)
      _ = 2 ^ 52 * 2 ^ (log2Floor (n2 / d2) + 1 - 53) := Nat.pow_add _ _ _
      _ ≤ roundHalfEven n2 (d2 * 2 ^ (log2Floor (n2 / d2) + 1 - 53)) *
          2 ^ (log2Floor (n2 / d2) + 1 - 53) := Nat.mul_le_mul_right _ hb
  · have heq : log2Floor (n1 / d1) + 1 - 53 = log2Floor (n2 / d2) + 1 - 53 :=
      le_antisymm hk hge
    rw [heq]
    apply Nat.mul_le_mul_right
    apply roundHalfEven_mono
    · positivity
    · positivity
    · calc n1 * (d2 * 2 ^ (log2Floor (n2 / d2) + 1 - 53))
          = n1 * d2 * 2 ^ (log2Floor (n2 / d2) + 1 - 53) := by ring
        _ ≤ n2 * d1 * 2 ^ (log2Floor (n2 / d2) + 1 - 53) := Nat.mul_le_mul_right _ h
        _ = n2 * (d1 * 2 ^ (log2Floor (n2 / d2) + 1 - 53)) := by ring

/-- Rounding a non-negative quotient to a `float64` is monotone for `<=`. -/
theorem F64.round_le_round (n1 d1 n2 d2 : Nat) (h1 : 0 < d1) (h2 : 0 < d2)
    (h : n1 * d2 ≤ n2 * d1) :
    F64.le (F64.round false n1 d1) (F64.round false n2 d2) = true := by
  have hm := roundNat_mono n1 d1 n2 d2 h1 h2 h
  unfold F64.round
  simp only [Bool.false_eq_true, if_false]
  by_cases ho1 : 1 <<< 2098 ≤ roundNat n1 d1
  · have ho2 : 1 <<< 2098 ≤ roundNat n2 d2 := le_trans ho1 hm
    rw [if_pos ho1, if_pos ho2]
    rfl
  · rw [if_neg ho1]
    by_cases ho2 : 1 <<< 2098 ≤ roundNat n2 d2
    · rw [if_pos ho2]
      rfl
    · rw [if_neg ho2]
      rcases Nat.lt_or_ge (roundNat n1 d1) (roundNat n2 d2) with hlt | hge
      · simp [F64.le, F64.lt, hlt]
      · have heq : roundNat n1 d1 = roundNat n2 d2 := le_antisymm hm hge
        simp [F64.le, F64.eq, heq]

/-- On non-negative numbers `*` is monotone in its first operand. -/
theorem F64.mul_le_mul_right (a b c : Int) (ha : 0 ≤ a) (hab : a ≤ b) (hc : 0 ≤ c) :
    F64.le (F64.mul (.fin a) (.fin c)) (F64.mul (.fin b) (.fin c)) = true := by
  have h1 : decide (a * c < 0) = false := by
    simp only [decide_eq_false_iff_not, not_lt]; positivity
  have h2 : decide (b * c < 0) = false := by
    have hb : 0 ≤ b := le_trans ha hab
    simp only [decide_eq_false_iff_not, not_lt]; positivity
  simp only [F64.mul, h1, h2]
  have hpos : 0 < 1 <<< 1074 := by rw [Nat.shiftLeft_eq]; positivity
  refine F64.round_le_round _ _ _ _ hpos hpos ?_
  exact Nat.mul_le_mul_right _ (Nat.mul_le_mul_right _ (by omega))

/-- The conversion of a positive integer is a positive number or `+Inf`. -/
theorem F64.ofInt_pos (i : Int) (hi : 0 < i) :
    F64.ofInt i = .posInf ∨ ∃ z : Int, 0 < z ∧ F64.ofInt i = .fin z := by
  have hneg : decide (i < 0) = false := by simp; omega
  have hpos : 0 < roundNat (i.natAbs <<< 1074) 1 := by
    apply roundNat_pos _ _ (by norm_num)
    rw [Nat.shiftLeft_eq]
    have : 1 ≤ i.natAbs := by omega
    calc 1 = 1 * 1 := rfl
      _ ≤ i.natAbs * 2 ^ 1074 := Nat.mul_le_mul this Nat.one_le_two_pow
  unfold F64.ofInt F64.round
  rw [hneg]
  by_cases hov : 1 <<< 2098 ≤ roundNat (i.natAbs <<< 1074) 1
  · exact Or.inl (by simp only [if_pos hov]; rfl)
  · exact Or.inr ⟨(roundNat (i.natAbs <<< 1074) 1 : Nat), by exact_mod_cast hpos,
      by simp only [if_neg hov]; rfl⟩

/-- Zero divided by a positive number or by `+Inf` is zero. -/
theorem F64.zero_div_ofInt (i : Int) (hi : 0 < i) :
    F64.div (.fin 0) (F64.ofInt i) = .fin 0 := by
  rcases F64.ofInt_pos i hi with h | ⟨z, hz, h⟩
  · rw [h]; rfl
  · rw [h]
    have hz0 : z ≠ 0 := by omega
    simp [F64.div, hz0, F64.round, roundNat_zero]

theorem F64.sub_self_fin (a : Int) : F64.sub (.fin a) (.fin a) = .fin 0 := by
  simp [F64.sub, F64.neg, F64.add, F64.round, roundNat_zero]

theorem F64.pow2_zero : F64.pow2 (.fin 0) = .fin 0 := by
  decide

/-- Where the square is subnormal, `math.Pow(x, 2)` can differ from `x * x`: for the `x` with
the bits 0x1ff19b329cb07f00 the product is 0x0004d7eb3c8cc0b3 and `math.Pow(x, 2)`, which
rounds twice, is 0x0004d7eb3c8cc0b2. -/
theorem F64.pow2_subnormal_square :
    F64.pow2 (.fin ((0x119b329cb07f00 <<< 510 : Nat) : Int)) = .fin 0x4d7eb3c8cc0b2 ∧
    F64.mul (.fin ((0x119b329cb07f00 <<< 510 : Nat) : Int))
      (.fin ((0x119b329cb07f00 <<< 510 : Nat) : Int)) = .fin 0x4d7eb3c8cc0b3 := by
  decide

theorem F64.add_zero_zero : F64.add (.fin 0) (.fin 0) = .fin 0 := by
  simp [F64.add, F64.round, roundNat_zero]

theorem F64.sqrt_zero : F64.sqrt (.fin 0) = .fin 0 := by decide

/-! ## AnomalyDetector -/

/-- The value of `calculateMean` depends on the amounts only: their running total over
their number. -/
theorem calculateMean_eq (history : List Transaction) :
    calculateMean history =
      F64.div ((history.map (·.Amount)).foldl F64.add (.fin 0))
        (F64.ofInt history.length) := by
  unfold calculateMean
  rw [List.foldl_map]

/-- The value of `calculateStdDev` on a non-empty slice: `math.Sqrt` of the running total
of the squared deviations over their number. -/
theorem calculateStdDev_eq (history : List Transaction) (mean : F64)
    (hne : history.length ≠ 0) :
    calculateStdDev history mean =
      F64.sqrt (F64.div
        ((history.map fun tx => F64.pow2 (F64.sub tx.Amount mean)).foldl F64.add (.fin 0))
        (F64.ofInt history.length)) := by
  unfold calculateStdDev
  rw [if_neg hne, List.foldl_map]

theorem foldl_add_zeros (l : List F64) (h : ∀ x ∈ l, x = .fin 0) :
    l.foldl F64.add (.fin 0) = .fin 0 := by
  induction l with
  | nil => rfl
  | cons x l ih =>
    rw [List.foldl_cons, h x (List.mem_cons_self x l), F64.add_zero_zero]
    exact ih fun y hy => h y (List.mem_cons_of_mem x hy)

/-- On a non-empty history whose amounts are all the finite `a`, the standard deviation
around `a` is zero. -/
theorem calculateStdDev_uniform (history : List Transaction) (a : Int)
    (hne : history.length ≠ 0) (hall : ∀ t ∈ history, t.Amount = .fin a) :
    calculateStdDev history (.fin a) = .fin 0 := by
  rw [calculateStdDev_eq history _ hne, foldl_add_zeros, F64.zero_div_ofInt _ (by omega),
    F64.sqrt_zero]
  intro x hx
  obtain ⟨t, ht, rfl⟩ := List.mem_map.mp hx
  rw [hall t ht, F64.sub_self_fin, F64.pow2_zero]

/-- The result of `DetectAmountAnomaly` on a history of at least 10 transactions that all
have the finite amount `a`, when the computed mean is `a` as well. -/
theorem DetectAmountAnomaly_uniform (currentTx : Transaction) (history : List Transaction)
    (a : Int) (hlen : 10 ≤ history.length) (hall : ∀ t ∈ history, t.Amount = .fin a)
    (hmean : calculateMean history = .fin a) :
    DetectAmountAnomaly currentTx history =
      if F64.ne currentTx.Amount (.fin a) then .ok (true, .posInf)
      else .ok (false, .fin 0) := by
  have hne : history.length ≠ 0 := by omega
  have heq : F64.eq (.fin 0) (.fin 0) = true := by decide
  unfold DetectAmountAnomaly
  rw [if_neg (by omega)]
  simp only [hmean, calculateStdDev_uniform history a hne hall, heq, if_true]

/-- C4: for every history of at least 10 transactions whose amounts have population mean
`m` and non-zero population standard deviation `s` (both dividing by the number `n` of
history entries), `DetectAmountAnomaly` returns no error, `zScore = (currentTx.Amount - m) / s`
and `isAnomaly = true` exactly when `|zScore| > 3`. -/
theorem anomaly_zscore (currentTx : Transaction) (history : List Transaction)
    (hlen : 10 ≤ history.length) :
    let n := F64.ofInt history.length
    let m := F64.div ((history.map (·.Amount)).foldl F64.add (.fin 0)) n
    let s := F64.sqrt (F64.div
      ((history.map fun tx => F64.pow2 (F64.sub tx.Amount m)).foldl F64.add (.fin 0)) n)
    let zScore := F64.div (F64.sub currentTx.Amount m) s
    F64.eq s (.fin 0) = false →
      DetectAmountAnomaly currentTx history =
        .ok (F64.gt (F64.abs zScore) (F64.ofInt 3), zScore) := by
  intro n m s zScore hs
  have hne : history.length ≠ 0 := by omega
  have hm : calculateMean history = m := calculateMean_eq history
  have hsd : calculateStdDev history m = s := calculateStdDev_eq history m hne
  unfold DetectAmountAnomaly
  rw [if_neg (by omega)]
  simp only [hm, hsd, hs]
  rfl

/-- With mean 100 and standard deviation 10, the amounts 130 and 70 have z-scores exactly
3 and -3 and are not anomalous; the amount 131 is.  On a history of five amounts `x` and
five amounts `-x` whose squares are subnormal (`x` has the bits 0x1ff19b329cb07f00), the
mean is 0, `math.Pow` rounds each square twice, and the amount `3 * x` has the z-score
3.0000000000000004 and is reported. -/
theorem anomaly_zscore_witness :
    DetectAmountAnomaly (testTx 130 testNow) spreadHistory = .ok (false, F64.ofInt 3) ∧
      DetectAmountAnomaly (testTx 70 testNow) spreadHistory = .ok (false, F64.ofInt (-3)) ∧
      DetectAmountAnomaly (testTx 131 testNow) spreadHistory = .ok (true, F64.ofRat 31 10) ∧
      DetectAmountAnomaly (unitsTx (3 * ((0x119b329cb07f00 <<< 510 : Nat) : Int))) tinyHistory =
        .ok (true, .fin ((0x18000000000001 <<< 1023 : Nat) : Int)) :=
  ⟨anomaly_zscore (testTx 130 testNow) spreadHistory (by decide) (by decide),
    anomaly_zscore (testTx 70 testNow) spreadHistory (by decide) (by decide),
    anomaly_zscore (testTx 131 testNow) spreadHistory (by decide) (by decide),
    anomaly_zscore (unitsTx (3 * ((0x119b329cb07f00 <<< 510 : Nat) : Int))) tinyHistory
      (by decide) (by decide)⟩

/-- C5 on a history of ten transactions of amount 0.1: the running total of the ten
amounts is 0.9999999999999999 and the computed mean 0.09999999999999999, so the standard
deviation is `2 ^ (-56)`, not zero, and the zero-deviation branch is not reached.  The
current amount 0.2 is reported as an anomaly with the finite z-score 7205759403792795, and
the current amount 0.10000000000000002, which differs from 0.1, is not reported at all. -/
theorem uniform_tenths_miss_zero_branch :
    (∀ t ∈ tenthHistory, t.Amount = F64.ofRat 1 10) ∧
      calculateMean tenthHistory ≠ F64.ofRat 1 10 ∧
      calculateStdDev tenthHistory (calculateMean tenthHistory) = .fin (1 <<< 1018 : Nat) ∧
      F64.ne (fracTx 1 5).Amount (F64.ofRat 1 10) = true ∧
      DetectAmountAnomaly (fracTx 1 5) tenthHistory =
        .ok (true, F64.ofInt 7205759403792795) ∧
      F64.ofInt 7205759403792795 ≠ F64.posInf ∧
      F64.ne tenthPlusUlpTx.Amount (F64.ofRat 1 10) = true ∧
      DetectAmountAnomaly tenthPlusUlpTx tenthHistory = .ok (false, F64.ofInt 2) := by
  refine ⟨?_, by decide, by decide, by decide, by decide, by decide, by decide, by decide⟩
  intro t ht
  rw [List.eq_of_mem_replicate ht]
  rfl

/-- The zero-deviation branch of `DetectAmountAnomaly`: for every history of at least 10
transactions that all have the same finite amount `A` and whose computed mean is exactly
`A`, there is no error and: if the current amount equals `A`, `isAnomaly` is false; if the
current amount differs from `A`, `isAnomaly` is true and the returned z-score is `+Inf`. -/
theorem zero_variance_anomaly (currentTx : Transaction) (history : List Transaction)
    (a : Int) (hlen : 10 ≤ history.length) (hall : ∀ t ∈ history, t.Amount = .fin a)
    (hmean : calculateMean history = .fin a) :
    (F64.eq currentTx.Amount (.fin a) = true →
      DetectAmountAnomaly currentTx history = .ok (false, .fin 0)) ∧
    (F64.ne currentTx.Amount (.fin a) = true →
      DetectAmountAnomaly currentTx history = .ok (true, .posInf)) := by
  rw [DetectAmountAnomaly_uniform currentTx history a hlen hall hmean]
  constructor
  · intro h
    simp [F64.ne, h]
  · intro h
    simp [h]

/-- The test `zero_variance`: against ten amounts of 100, the amount 100 is normal and the
amount 200 is an anomaly with an infinite z-score. -/
theorem zero_variance_anomaly_witness :
    DetectAmountAnomaly (testTx 100 testNow) uniformHistory = .ok (false, .fin 0) ∧
      DetectAmountAnomaly (testTx 200 testNow) uniformHistory = .ok (true, .posInf) :=
  ⟨(zero_variance_anomaly (testTx 100 testNow) uniformHistory (unitsOf 100) (by decide)
      (by intro t ht; rw [List.eq_of_mem_replicate ht]; decide) (by decide)).1 (by decide),
    (zero_variance_anomaly (testTx 200 testNow) uniformHistory (unitsOf 100) (by decide)
      (by intro t ht; rw [List.eq_of_mem_replicate ht]; decide) (by decide)).2 (by decide)⟩

/-- C6: for every current transaction and every history with fewer than 10 entries (the
empty history included), `DetectAmountAnomaly` returns an error, whatever the amounts are;
for every history with 10 or more entries it returns no error. -/
theorem insufficient_history (currentTx : Transaction) (history : List Transaction) :
    (history.length < 10 → ∃ err, DetectAmountAnomaly currentTx history = .error err) ∧
    (10 ≤ history.length → ∃ res, DetectAmountAnomaly currentTx history = .ok res) := by
  constructor
  · intro h
    exact ⟨_, by unfold DetectAmountAnomaly; rw [if_pos h]⟩
  · intro h
    unfold DetectAmountAnomaly
    rw [if_neg (by omega)]
    simp only
    split_ifs <;> exact ⟨_, rfl⟩

/-- The test `insufficient_history` (five zero-valued transactions), the empty history,
and a history of ten. -/
theorem insufficient_history_witness :
    (∃ err, DetectAmountAnomaly (testTx 100 testNow)
        (List.replicate 5 (testTx 0 0)) = .error err) ∧
      (∃ err, DetectAmountAnomaly (testTx 100 testNow) [] = .error err) ∧
      (∃ res, DetectAmountAnomaly (testTx 100 testNow) uniformHistory = .ok res) :=
  ⟨(insufficient_history (testTx 100 testNow) (List.replicate 5 (testTx 0 0))).1 (by decide),
    (insufficient_history (testTx 100 testNow) []).1 (by decide),
    (insufficient_history (testTx 100 testNow) uniformHistory).2 (by decide)⟩

/-- C7, as stated, fails: on the history of the test `normal_transaction` (ten amounts of
100) the current amount 110 is reported as an anomaly, with an infinite z-score. -/
theorem normal_transaction_flagged :
    DetectAmountAnomaly (testTx 110 testNow) uniformHistory = .ok (true, .posInf) ∧
      ¬ ∃ zScore, DetectAmountAnomaly (testTx 110 testNow) uniformHistory =
        .ok (false, zScore) := by
  have h : DetectAmountAnomaly (testTx 110 testNow) uniformHistory = .ok (true, .posInf) := by
    decide
  refine ⟨h, ?_⟩
  rintro ⟨z, hz⟩
  rw [h] at hz
  cases hz

/-- C7, amended: for a history of ten transactions that all have amount 100 and a current
transaction of amount 110, `DetectAmountAnomaly` returns no error and `isAnomaly = true`
with an infinite z-score: the standard deviation of the history is zero, and the
zero-deviation branch reports every amount other than the mean as an anomaly. -/
theorem uniform_history_flags_110 (currentTx : Transaction) (history : List Transaction)
    (hlen : history.length = 10) (hall : ∀ t ∈ history, t.Amount = F64.ofInt 100)
    (hcur : currentTx.Amount = F64.ofInt 110) :
    DetectAmountAnomaly currentTx history = .ok (true, .posInf) := by
  have h100 : F64.ofInt 100 = .fin (unitsOf 100) := by decide
  have hmap : history.map (·.Amount) = List.replicate 10 (F64.ofInt 100) := by
    rw [List.eq_replicate_iff]
    refine ⟨by simp [hlen], ?_⟩
    intro b hb
    obtain ⟨t, ht, rfl⟩ := List.mem_map.mp hb
    exact hall t ht
  have hmean : calculateMean history = .fin (unitsOf 100) := by
    rw [calculateMean_eq, hmap, hlen]
    decide
  rw [DetectAmountAnomaly_uniform currentTx history (unitsOf 100) (by omega)
    (fun t ht => by rw [hall t ht, h100]) hmean, hcur]
  decide

/-- The input of the test `normal_transaction`. -/
theorem uniform_history_flags_110_witness :
    DetectAmountAnomaly (testTx 110 testNow) uniformHistory = .ok (true, .posInf) :=
  uniform_history_flags_110 (testTx 110 testNow) uniformHistory (by decide)
    (by intro t ht; rw [List.eq_of_mem_replicate ht]; rfl) rfl

/-! ## StructuringDetector -/

/-- The filter condition of `DetectStructuring`, as a proposition: same account, timestamp
strictly inside the window, amount inside the band with both ends included. -/
theorem isCandidate_eq (now : Time) (accountID : String) (w : Duration) (low high : F64)
    (tx : Transaction) :
    isCandidate now accountID w low high tx =
      decide (tx.AccountID = accountID ∧ windowStart now w < tx.Timestamp ∧
        tx.Timestamp < now ∧ F64.le low tx.Amount = true ∧ F64.le tx.Amount high = true) := by
  simp [isCandidate, Time.After, Time.Before, F64.ge, Bool.and_assoc]

/-- The comparison `DetectStructuring` sorts by is a strict weak ordering. -/
theorem timestampAfter_strictWeakOrder : StrictWeakOrder timestampAfter := by
  constructor
  · intro a b h
    simp only [timestampAfter, Time.After, decide_eq_true_eq, decide_eq_false_iff_not,
      not_lt] at h ⊢
    exact le_of_lt h
  · intro a b c hab hbc
    simp only [timestampAfter, Time.After, decide_eq_false_iff_not, not_lt] at hab hbc ⊢
    exact le_trans hab hbc

/-- C8: let `M` be the pool entries with `AccountID` equal to the account ID, timestamp `t`
with `now-w < t < now` (`now-w` being `now.Add(-w)`) and `low <= Amount <= high`.
`DetectStructuring` returns `detected = true` exactly when `M` has at least `k` entries, and
when it returns `detected = false` the returned transaction list is empty. -/
theorem structuring_detected_iff (sorter : SliceSorter) (now : Time) (accountID : String)
    (pool : List Transaction) (w : Duration) (low high : F64) (k : Int) :
    let M := pool.filter fun tx =>
      decide (tx.AccountID = accountID ∧ windowStart now w < tx.Timestamp ∧
        tx.Timestamp < now ∧ F64.le low tx.Amount = true ∧ F64.le tx.Amount high = true)
    let r := DetectStructuring sorter now accountID pool w low high k
    (r.1 = true ↔ k ≤ (M.length : Int)) ∧ (r.1 = false → r.2 = []) := by
  intro M r
  have hM : pool.filter (isCandidate now accountID w low high) = M := by
    simp only [M]
    congr 1
    funext tx
    exact isCandidate_eq now accountID w low high tx
  simp only [r, DetectStructuring, hM]
  by_cases hk : k ≤ (M.length : Int)
  · simp [hk]
  · simp [hk]

/-- The tests `structuring_pattern_detected` (three matching entries, minimum 3) and
`not_enough_transactions_in_range` (two matching entries: not detected, no list). -/
theorem structuring_detected_iff_witness :
    (DetectStructuring mergeSorter testNow "acc-123" structuringPool (24 * hour)
        (F64.ofInt 8000) (F64.ofInt 9999) 3).1 = true ∧
      DetectStructuring mergeSorter testNow "acc-123" sparsePool (24 * hour)
        (F64.ofInt 8000) (F64.ofInt 9999) 3 = (false, []) := by
  have h1 := (structuring_detected_iff mergeSorter testNow "acc-123" structuringPool
    (24 * hour) (F64.ofInt 8000) (F64.ofInt 9999) 3).1
  have h2 := structuring_detected_iff mergeSorter testNow "acc-123" sparsePool
    (24 * hour) (F64.ofInt 8000) (F64.ofInt 9999) 3
  refine ⟨h1.mpr (by decide), Prod.ext ?_ (h2.2 ?_)⟩
  · exact Bool.eq_false_iff.mpr fun hd => absurd (h2.1.mp hd) (by decide)
  · exact Bool.eq_false_iff.mpr fun hd => absurd (h2.1.mp hd) (by decide)

/-- C9: whenever `DetectStructuring` returns `detected = true`, the returned list is a
permutation of exactly the pool entries that match the account, the open time window and
the inclusive amount band (none missing, none extra, duplicates kept), and it is ordered by
timestamp descending: no entry's timestamp is earlier than that of an entry after it. -/
theorem structuring_result_sorted_perm (sorter : SliceSorter) (now : Time)
    (accountID : String) (pool : List Transaction) (w : Duration) (low high : F64) (k : Int)
    (hdet : (DetectStructuring sorter now accountID pool w low high k).1 = true) :
    let M := pool.filter fun tx =>
      decide (tx.AccountID = accountID ∧ windowStart now w < tx.Timestamp ∧
        tx.Timestamp < now ∧ F64.le low tx.Amount = true ∧ F64.le tx.Amount high = true)
    let matchingTxs := (DetectStructuring sorter now accountID pool w low high k).2
    matchingTxs.Perm M ∧
      matchingTxs.Pairwise (fun a b => a.Timestamp ≥ b.Timestamp) := by
  intro M matchingTxs
  have hM : pool.filter (isCandidate now accountID w low high) = M := by
    simp only [M]
    congr 1
    funext tx
    exact isCandidate_eq now accountID w low high tx
  have hk : (M.length : Int) ≥ k := by
    by_contra hk
    simp [DetectStructuring, hM, hk] at hdet
  have hres : matchingTxs = sorter.sort timestampAfter M := by
    simp only [matchingTxs, DetectStructuring, hM, if_pos hk]
  rw [hres]
  refine ⟨sorter.perm _ _, ?_⟩
  refine (sorter.sorted timestampAfter M timestampAfter_strictWeakOrder).imp ?_
  intro a b hab
  simp only [timestampAfter, Time.After, decide_eq_false_iff_not, not_lt] at hab
  exact hab

/-- The test `structuring_pattern_detected`: the three matching entries come back most
recent first. -/
theorem structuring_result_sorted_perm_witness :
    (DetectStructuring mergeSorter testNow "acc-123" structuringPool (24 * hour)
        (F64.ofInt 8000) (F64.ofInt 9999) 3).2.Perm
      [accountTx "acc-123" 8500 (testNow - 1 * hour),
        accountTx "acc-123" 9200 (testNow - 2 * hour),
        accountTx "acc-123" 9800 (testNow - 3 * hour)] ∧
    (DetectStructuring mergeSorter testNow "acc-123" structuringPool (24 * hour)
        (F64.ofInt 8000) (F64.ofInt 9999) 3).2.Pairwise
      (fun a b => a.Timestamp ≥ b.Timestamp) :=
  structuring_result_sorted_perm mergeSorter testNow "acc-123" structuringPool (24 * hour)
    (F64.ofInt 8000) (F64.ofInt 9999) 3 (by decide)

/-- C10: for every pool and every permutation of that pool, with all other arguments and the
evaluation time equal, `DetectStructuring` returns the same detected flag and the same
multiset of matching transactions. -/
theorem structuring_perm_invariant (sorter : SliceSorter) (now : Time) (accountID : String)
    (pool pool' : List Transaction) (w : Duration) (low high : F64) (k : Int)
    (hperm : pool.Perm pool') :
    (DetectStructuring sorter now accountID pool w low high k).1 =
        (DetectStructuring sorter now accountID pool' w low high k).1 ∧
      (DetectStructuring sorter now accountID pool w low high k).2.Perm
        (DetectStructuring sorter now accountID pool' w low high k).2 := by
  have hf := hperm.filter (isCandidate now accountID w low high)
  have hlen := hf.length_eq
  simp only [DetectStructuring, hlen]
  split_ifs with hk
  · exact ⟨rfl, ((sorter.perm _ _).trans hf).trans (sorter.perm _ _).symm⟩
  · exact ⟨rfl, List.Perm.refl _⟩

/-- The pool of the test `structuring_pattern_detected` and the same pool reversed. -/
theorem structuring_perm_invariant_witness :
    (DetectStructuring mergeSorter testNow "acc-123" structuringPool.reverse (24 * hour)
          (F64.ofInt 8000) (F64.ofInt 9999) 3).1 =
        (DetectStructuring mergeSorter testNow "acc-123" structuringPool (24 * hour)
          (F64.ofInt 8000) (F64.ofInt 9999) 3).1 ∧
      (DetectStructuring mergeSorter testNow "acc-123" structuringPool.reverse (24 * hour)
          (F64.ofInt 8000) (F64.ofInt 9999) 3).2.Perm
        (DetectStructuring mergeSorter testNow "acc-123" structuringPool (24 * hour)
          (F64.ofInt 8000) (F64.ofInt 9999) 3).2 :=
  structuring_perm_invariant mergeSorter testNow "acc-123" structuringPool.reverse
    structuringPool (24 * hour) (F64.ofInt 8000) (F64.ofInt 9999) 3
    (List.reverse_perm structuringPool)

/-! ## AlertGenerator -/

/-- C11: `GenerateAlert` gives priority Medium to the alert types `THRESHOLD_VIOLATION` and
`GEOGRAPHIC_RISK`, High to `ANOMALY_DETECTED` and Critical to `STRUCTURING_PATTERN`, and for
every other alert-type string it returns an error and no alert. -/
theorem alert_priority (fusion : Fusion) (newID : String) (now : Time) (tx : Transaction)
    (alertType : String) (ruleDetails : JSONMap) :
    (alertType = "THRESHOLD_VIOLATION" ∨ alertType = "GEOGRAPHIC_RISK" →
      ∃ alert, GenerateAlert fusion newID now tx alertType ruleDetails = .ok alert ∧
        alert.Priority = Medium) ∧
    (alertType = "ANOMALY_DETECTED" →
      ∃ alert, GenerateAlert fusion newID now tx alertType ruleDetails = .ok alert ∧
        alert.Priority = High) ∧
    (alertType = "STRUCTURING_PATTERN" →
      ∃ alert, GenerateAlert fusion newID now tx alertType ruleDetails = .ok alert ∧
        alert.Priority = Critical) ∧
    (alertType ≠ "THRESHOLD_VIOLATION" → alertType ≠ "GEOGRAPHIC_RISK" →
      alertType ≠ "ANOMALY_DETECTED" → alertType ≠ "STRUCTURING_PATTERN" →
      GenerateAlert fusion newID now tx alertType ruleDetails =
        .error ("invalid alert type: " ++ alertType)) := by
  refine ⟨?_, ?_, ?_, ?_⟩
  · rintro (h | h) <;> subst h <;> exact ⟨_, rfl, rfl⟩
  · rintro h
    subst h
    exact ⟨_, rfl, rfl⟩
  · rintro h
    subst h
    exact ⟨_, rfl, rfl⟩
  · intro h1 h2 h3 h4
    simp [GenerateAlert, getPriorityForAlertType, AlertTypeThresholdViolation,
      AlertTypeGeographicRisk, AlertTypeAnomalyDetected, AlertTypeStructuringPattern,
      h1, h2, h3, h4]

/-- The four cases of `TestGenerateAlert`. -/
theorem alert_priority_witness :
    (∃ alert, GenerateAlert .separate "id" 0 alertTestTx "THRESHOLD_VIOLATION" [] = .ok alert ∧
        alert.Priority = Medium) ∧
      (∃ alert, GenerateAlert .separate "id" 0 alertTestTx "ANOMALY_DETECTED" [] = .ok alert ∧
        alert.Priority = High) ∧
      (∃ alert, GenerateAlert .separate "id" 0 alertTestTx "STRUCTURING_PATTERN" [] = .ok alert ∧
        alert.Priority = Critical) ∧
      GenerateAlert .separate "id" 0 alertTestTx "INVALID_TYPE" [] =
        .error "invalid alert type: INVALID_TYPE" :=
  ⟨(alert_priority .separate "id" 0 alertTestTx "THRESHOLD_VIOLATION" []).1 (Or.inl rfl),
    (alert_priority .separate "id" 0 alertTestTx "ANOMALY_DETECTED" []).2.1 rfl,
    (alert_priority .separate "id" 0 alertTestTx "STRUCTURING_PATTERN" []).2.2.1 rfl,
    (alert_priority .separate "id" 0 alertTestTx "INVALID_TYPE" []).2.2.2 (by decide) (by decide)
      (by decide) (by decide)⟩

/-! ## AlertLifecycle -/

/-- The entries of `allowedTransitions`: the five known statuses have one, no other string
has. -/
theorem allowedTransitions_eq_none_iff (status : String) :
    allowedTransitions status = none ↔
      status ≠ "OPEN" ∧ status ≠ "INVESTIGATING" ∧ status ≠ "ESCALATED" ∧
        status ≠ "CLOSED" ∧ status ≠ "FALSE_POSITIVE" := by
  unfold allowedTransitions StatusOpen StatusInvestigating StatusEscalated StatusClosed
    StatusFalsePositive
  split_ifs <;> simp_all

/-- The error of `TransitionAlertStatus`, by cases on the entry of the current status. -/
theorem TransitionAlertStatus_error (now : Time) (alert : Alert) (newStatus : String)
    (investigatorID : String) :
    (TransitionAlertStatus now alert newStatus investigatorID).2 =
      match allowedTransitions alert.Status with
      | none => some (.errorf ("unknown status: " ++ alert.Status))
      | some validTransitions =>
        if newStatus ∈ validTransitions then none
        else some (.wrapf
          ("invalid status transition: cannot transition from " ++ alert.Status ++ " to " ++
            newStatus)
          ErrInvalidTransition) := by
  unfold TransitionAlertStatus
  cases h : allowedTransitions alert.Status with
  | none => simp only [h]
  | some validTransitions =>
    by_cases hmem : newStatus ∈ validTransitions
    · have hany : (validTransitions.any fun status => decide (status = newStatus)) = true := by
        simp [List.any_eq_true, hmem]
      simp only [h, hany, hmem, Bool.not_true, Bool.false_eq_true, if_false, if_true]
    · have hany : (validTransitions.any fun status => decide (status = newStatus)) = false := by
        simp only [List.any_eq_false, decide_eq_true_eq]
        intro x hx hxe
        exact hmem (hxe ▸ hx)
      have hmsg : ErrInvalidTransition.Error ++ ": cannot transition from " =
          "invalid status transition: cannot transition from " := by decide
      simp only [h, hany, hmem, Bool.not_false, if_true, if_false, hmsg]

/-- C13: `TransitionAlertStatus` returns no error exactly when the pair (current status,
target status) is one of OPEN to INVESTIGATING, INVESTIGATING to ESCALATED, INVESTIGATING to
FALSE_POSITIVE, ESCALATED to CLOSED; for every other pair it returns an error, so an alert
in status CLOSED or FALSE_POSITIVE rejects every target status. -/
theorem transition_allowed_iff (now : Time) (alert : Alert) (newStatus : String)
    (investigatorID : String) :
    ((TransitionAlertStatus now alert newStatus investigatorID).2 = none ↔
      (alert.Status = "OPEN" ∧ newStatus = "INVESTIGATING") ∨
      (alert.Status = "INVESTIGATING" ∧ newStatus = "ESCALATED") ∨
      (alert.Status = "INVESTIGATING" ∧ newStatus = "FALSE_POSITIVE") ∨
      (alert.Status = "ESCALATED" ∧ newStatus = "CLOSED")) ∧
    (alert.Status = "CLOSED" ∨ alert.Status = "FALSE_POSITIVE" →
      (TransitionAlertStatus now alert newStatus investigatorID).2 ≠ none) := by
  rw [TransitionAlertStatus_error]
  unfold allowedTransitions StatusOpen StatusInvestigating StatusEscalated StatusClosed
    StatusFalsePositive
  constructor
  · split_ifs <;> simp_all
    tauto
  · rintro (h | h) <;> simp [h]

/-- The five cases of `TestTransitionAlertStatus`, and a closed alert that rejects the
status it already has. -/
theorem transition_allowed_iff_witness :
    (TransitionAlertStatus testNow (statusAlert "OPEN") "INVESTIGATING" "investigator-1").2 =
        none ∧
      (TransitionAlertStatus testNow (statusAlert "INVESTIGATING") "FALSE_POSITIVE" "").2 =
        none ∧
      (TransitionAlertStatus testNow (statusAlert "ESCALATED") "CLOSED" "").2 = none ∧
      (TransitionAlertStatus testNow (statusAlert "OPEN") "ESCALATED" "").2 ≠ none ∧
      (TransitionAlertStatus testNow (statusAlert "CLOSED") "INVESTIGATING" "").2 ≠ none ∧
      (TransitionAlertStatus testNow (statusAlert "CLOSED") "CLOSED" "").2 ≠ none :=
  ⟨(transition_allowed_iff testNow (statusAlert "OPEN") "INVESTIGATING" "investigator-1").1.2
      (by decide),
    (transition_allowed_iff testNow (statusAlert "INVESTIGATING") "FALSE_POSITIVE" "").1.2
      (by decide),
    (transition_allowed_iff testNow (statusAlert "ESCALATED") "CLOSED" "").1.2 (by decide),
    fun h => absurd
      ((transition_allowed_iff testNow (statusAlert "OPEN") "ESCALATED" "").1.1 h)
      (by decide),
    (transition_allowed_iff testNow (statusAlert "CLOSED") "INVESTIGATING" "").2
      (Or.inl rfl),
    (transition_allowed_iff testNow (statusAlert "CLOSED") "CLOSED" "").2 (Or.inl rfl)⟩

/-- C14: when `TransitionAlertStatus` returns an error `err`: if the current status is one of
the five known statuses, `errors.Is(err, ErrInvalidTransition)` holds and the message of
`err` is "invalid status transition: cannot transition from CURRENT to TARGET"; if the
current status is none of the five, `err` is the error "unknown status: CURRENT", for which
`errors.Is(err, ErrInvalidTransition)` does not hold, whatever the target status is.  In
both cases the alert is left as it was. -/
theorem transition_error_kind (now : Time) (alert : Alert) (newStatus : String)
    (investigatorID : String) (err : GoError)
    (hfail : (TransitionAlertStatus now alert newStatus investigatorID).2 = some err) :
    (alert.Status ∈ ["OPEN", "INVESTIGATING", "ESCALATED", "CLOSED", "FALSE_POSITIVE"] →
      err.Is ErrInvalidTransition = true ∧
      err.Error = "invalid status transition: cannot transition from " ++ alert.Status ++
        " to " ++ newStatus) ∧
    (alert.Status ∉ ["OPEN", "INVESTIGATING", "ESCALATED", "CLOSED", "FALSE_POSITIVE"] →
      err = .errorf ("unknown status: " ++ alert.Status) ∧
      err.Is ErrInvalidTransition = false ∧
      err.Error = "unknown status: " ++ alert.Status) ∧
    (TransitionAlertStatus now alert newStatus investigatorID).1 = alert := by
  have hknown : alert.Status ∈ ["OPEN", "INVESTIGATING", "ESCALATED", "CLOSED",
      "FALSE_POSITIVE"] ↔ allowedTransitions alert.Status ≠ none := by
    rw [Ne, allowedTransitions_eq_none_iff]
    simp only [List.mem_cons, List.mem_singleton, List.not_mem_nil, or_false]
    tauto
  rw [TransitionAlertStatus_error] at hfail
  rw [hknown]
  cases h : allowedTransitions alert.Status with
  | none =>
    rw [h] at hfail
    simp only [Option.some.injEq] at hfail
    subst hfail
    refine ⟨fun hk => absurd rfl hk, fun _ => ⟨rfl, ?_, rfl⟩, ?_⟩
    · simp [GoError.Is, ErrInvalidTransition]
    · simp only [TransitionAlertStatus, h]
  | some validTransitions =>
    rw [h] at hfail
    simp only at hfail
    split_ifs at hfail with hmem
    simp only [Option.some.injEq] at hfail
    subst hfail
    refine ⟨fun _ => ⟨?_, rfl⟩, fun hk => absurd (Option.some_ne_none _) hk, ?_⟩
    · simp [GoError.Is, ErrInvalidTransition]
    · have hany : (validTransitions.any fun status => decide (status = newStatus)) = false := by
        simp only [List.any_eq_false, decide_eq_true_eq]
        intro x hx hxe
        exact hmem (hxe ▸ hx)
      simp only [TransitionAlertStatus, h, hany, Bool.not_false, if_true]

/-- The rejected transition OPEN to ESCALATED of `TestTransitionAlertStatus` is an
`ErrInvalidTransition` naming both statuses; an alert whose status is the unknown
"ARCHIVED" gets the unknown-status error. -/
theorem transition_error_kind_witness :
    ((GoError.wrapf "invalid status transition: cannot transition from OPEN to ESCALATED"
        ErrInvalidTransition).Is ErrInvalidTransition = true ∧
      (GoError.wrapf "invalid status transition: cannot transition from OPEN to ESCALATED"
        ErrInvalidTransition).Error =
        "invalid status transition: cannot transition from " ++ "OPEN" ++ " to " ++
          "ESCALATED") ∧
    (GoError.errorf "unknown status: ARCHIVED" =
        .errorf ("unknown status: " ++ "ARCHIVED") ∧
      (GoError.errorf "unknown status: ARCHIVED").Is ErrInvalidTransition = false ∧
      (GoError.errorf "unknown status: ARCHIVED").Error = "unknown status: " ++ "ARCHIVED") :=
  ⟨(transition_error_kind testNow (statusAlert "OPEN") "ESCALATED" "" _ (by decide)).1
      (by decide),
    (transition_error_kind testNow (statusAlert "ARCHIVED") "CLOSED" "" _ (by decide)).2.1
      (by decide)⟩

/-- C15: when `TransitionAlertStatus` returns no error, the alert's `Status` is the target
status, `AssignedTo` is the investigator ID if that is non-empty and is the previous value
if it is empty, `TransitionAt` is the reading of the clock, and `ID`, `TransactionID`,
`AlertType`, `Priority`, `Score`, `CreatedAt` and `RuleDetails` are unchanged. -/
theorem transition_success_frame (now : Time) (alert : Alert) (newStatus : String)
    (investigatorID : String)
    (hok : (TransitionAlertStatus now alert newStatus investigatorID).2 = none) :
    (TransitionAlertStatus now alert newStatus investigatorID).1 =
      { alert with
        Status := newStatus
        TransitionAt := now
        AssignedTo := if investigatorID ≠ "" then investigatorID else alert.AssignedTo } ∧
    (TransitionAlertStatus now alert newStatus investigatorID).1.Status = newStatus ∧
    (investigatorID ≠ "" →
      (TransitionAlertStatus now alert newStatus investigatorID).1.AssignedTo =
        investigatorID) ∧
    (investigatorID = "" →
      (TransitionAlertStatus now alert newStatus investigatorID).1.AssignedTo =
        alert.AssignedTo) ∧
    (TransitionAlertStatus now alert newStatus investigatorID).1.ID = alert.ID ∧
    (TransitionAlertStatus now alert newStatus investigatorID).1.TransactionID =
      alert.TransactionID ∧
    (TransitionAlertStatus now alert newStatus investigatorID).1.AlertType =
      alert.AlertType ∧
    (TransitionAlertStatus now alert newStatus investigatorID).1.Priority = alert.Priority ∧
    (TransitionAlertStatus now alert newStatus investigatorID).1.Score = alert.Score ∧
    (TransitionAlertStatus now alert newStatus investigatorID).1.CreatedAt =
      alert.CreatedAt ∧
    (TransitionAlertStatus now alert newStatus investigatorID).1.RuleDetails =
      alert.RuleDetails := by
  have hres : (TransitionAlertStatus now alert newStatus investigatorID).1 =
      { alert with
        Status := newStatus
        TransitionAt := now
        AssignedTo := if investigatorID ≠ "" then investigatorID else alert.AssignedTo } := by
    unfold TransitionAlertStatus at hok ⊢
    cases h : allowedTransitions alert.Status with
    | none => simp [h] at hok
    | some validTransitions =>
      simp only [h] at hok ⊢
      split_ifs at hok ⊢ <;> rfl
  refine ⟨hres, ?_⟩
  rw [hres]
  refine ⟨rfl, fun h => if_pos h, fun h => if_neg (not_not.mpr h), rfl, rfl, rfl, rfl, rfl,
    rfl, rfl⟩

/-- The first two cases of `TestTransitionAlertStatus`: OPEN to INVESTIGATING with
"investigator-1" assigns the alert; INVESTIGATING to FALSE_POSITIVE with no investigator
keeps the assignee. -/
theorem transition_success_frame_witness :
    (TransitionAlertStatus testNow (statusAlert "OPEN") "INVESTIGATING" "investigator-1").1 =
        { statusAlert "OPEN" with
          Status := "INVESTIGATING", TransitionAt := testNow,
          AssignedTo := "investigator-1" } ∧
      (TransitionAlertStatus testNow (statusAlert "INVESTIGATING") "FALSE_POSITIVE" "").1 =
        { statusAlert "INVESTIGATING" with
          Status := "FALSE_POSITIVE", TransitionAt := testNow } :=
  ⟨(transition_success_frame testNow (statusAlert "OPEN") "INVESTIGATING" "investigator-1"
      (by decide)).1,
    (transition_success_frame testNow (statusAlert "INVESTIGATING") "FALSE_POSITIVE" ""
      (by decide)).1⟩

/-! ## SARExporter -/

/-- The bytes of a string are the UTF-8 encodings of its characters, in order. -/
theorem goBytes_eq (s : String) : goBytes s = s.data.flatMap String.utf8EncodeChar := rfl

theorem goBytes_append (a b : String) : goBytes (a ++ b) = goBytes a ++ goBytes b := by
  simp [goBytes_eq, String.data_append]

/-- A character up to U+007F is one byte. -/
theorem flatMap_utf8EncodeChar_ascii (l : List Char) (h : ∀ c ∈ l, c.val ≤ 0x7f) :
    l.flatMap String.utf8EncodeChar = l.map fun c => c.val.toUInt8 := by
  induction l with
  | nil => rfl
  | cons c l ih =>
    have hc : c.val ≤ 0x7f := h c (List.mem_cons_self _ _)
    have hl : ∀ c ∈ l, c.val ≤ 0x7f := fun d hd => h d (List.mem_cons_of_mem _ hd)
    rw [List.flatMap_cons, ih hl, List.map_cons]
    simp [String.utf8EncodeChar, hc]

/-- C16, as stated, fails: the account identifier "ééé" has three characters and is
not returned unchanged (its six bytes are cut to the last four, which gives
"XXXX-XXXX-XXXX-éé"); and "1234é" has five characters and its mask does not end in its last
four characters "234é" (it ends in the last four bytes, "34é"). -/
theorem mask_counts_bytes_not_characters :
    ("ééé".length ≤ 4 ∧ MaskAccountNumber "ééé" ≠ goBytes "ééé" ∧
        MaskAccountNumber "ééé" = goBytes "XXXX-XXXX-XXXX-éé") ∧
      ("1234é".length = 5 ∧
        MaskAccountNumber "1234é" ≠
          goBytes ("XXXX-XXXX-XXXX-" ++ String.mk ("1234é".data.drop ("1234é".length - 4))) ∧
        MaskAccountNumber "1234é" = goBytes "XXXX-XXXX-XXXX-34é") := by
  decide

/-- C16, amended: `MaskAccountNumber(s)` is `s` itself when `s` is four or fewer bytes long
and otherwise is the 15 bytes of "XXXX-XXXX-XXXX-" followed by the last four bytes of `s`,
19 bytes in all; when every character of `s` is an ASCII character (one byte each), that is
`s` itself when `s` has four or fewer characters and otherwise "XXXX-XXXX-XXXX-" followed by
the last four characters of `s`. -/
theorem mask_account_number_bytes (s : String) :
    ((goBytes s).length ≤ 4 → MaskAccountNumber s = goBytes s) ∧
    (4 < (goBytes s).length →
      MaskAccountNumber s =
        goBytes "XXXX-XXXX-XXXX-" ++ (goBytes s).drop ((goBytes s).length - 4) ∧
      (MaskAccountNumber s).length = 19) ∧
    ((∀ c ∈ s.data, c.val ≤ 0x7f) →
      MaskAccountNumber s =
        goBytes (if s.length ≤ 4 then s
          else "XXXX-XXXX-XXXX-" ++ String.mk (s.data.drop (s.length - 4)))) := by
  refine ⟨fun h => if_pos h, fun h => ?_, fun hascii => ?_⟩
  · have hm : MaskAccountNumber s =
        goBytes "XXXX-XXXX-XXXX-" ++ (goBytes s).drop ((goBytes s).length - 4) :=
      if_neg (not_le.mpr h)
    refine ⟨hm, ?_⟩
    have hp : (goBytes "XXXX-XXXX-XXXX-").length = 15 := by decide
    rw [hm, List.length_append, List.length_drop, hp]
    omega
  · have hb : goBytes s = s.data.map fun c => c.val.toUInt8 := by
      rw [goBytes_eq, flatMap_utf8EncodeChar_ascii _ hascii]
    have hlen : (goBytes s).length = s.length := by
      rw [hb, List.length_map]
      rfl
    unfold MaskAccountNumber
    rw [hlen]
    by_cases h : s.length ≤ 4
    · rw [if_pos h, if_pos h]
    · rw [if_neg h, if_neg h, goBytes_append]
      congr 1
      have hdrop : ∀ c ∈ s.data.drop (s.length - 4), c.val ≤ 0x7f :=
        fun c hc => hascii c (List.mem_of_mem_drop hc)
      rw [goBytes_eq (String.mk (s.data.drop (s.length - 4))),
        flatMap_utf8EncodeChar_ascii _ hdrop, hb, List.map_drop]

/-- The four cases of `TestMaskAccountNumber`. -/
theorem mask_account_number_bytes_witness :
    MaskAccountNumber "1234567890123456" = goBytes "XXXX-XXXX-XXXX-3456" ∧
      MaskAccountNumber "123" = goBytes "123" ∧
      MaskAccountNumber "1234" = goBytes "1234" ∧
      MaskAccountNumber "" = goBytes "" ∧
      (MaskAccountNumber "ééé" =
          goBytes "XXXX-XXXX-XXXX-" ++ (goBytes "ééé").drop ((goBytes "ééé").length - 4) ∧
        (MaskAccountNumber "ééé").length = 19) :=
  ⟨(mask_account_number_bytes "1234567890123456").2.2 (by decide),
    (mask_account_number_bytes "123").2.2 (by decide),
    (mask_account_number_bytes "1234").1 (by decide),
    (mask_account_number_bytes "").1 (by decide),
    (mask_account_number_bytes "ééé").2.1 (by decide)⟩

/-! ## SARGenerator -/

theorem mapLookup_mapSet_self {α : Type} (m : List (String × α)) (key : String) (value : α) :
    mapLookup (mapSet m key value) key = some value := by
  induction m with
  | nil => simp [mapSet, mapLookup]
  | cons e m ih =>
    obtain ⟨k, v⟩ := e
    by_cases h : k = key
    · simp [mapSet, mapLookup, h]
    · simp [mapSet, mapLookup, h, ih]

theorem mapLookup_mapSet_ne {α : Type} (m : List (String × α)) (key other : String)
    (value : α) (h : key ≠ other) :
    mapLookup (mapSet m key value) other = mapLookup m other := by
  induction m with
  | nil => simp [mapSet, mapLookup, h]
  | cons e m ih =>
    obtain ⟨k, v⟩ := e
    by_cases hk : k = key
    · subst hk
      simp [mapSet, mapLookup, h]
    · by_cases ho : k = other
      · subst ho
        simp [mapSet, mapLookup, hk]
      · simp [mapSet, mapLookup, hk, ho, ih]

theorem mem_of_mapLookup {α : Type} (m : List (String × α)) (key : String) (value : α)
    (h : mapLookup m key = some value) : (key, value) ∈ m := by
  induction m with
  | nil => simp [mapLookup] at h
  | cons e m ih =>
    obtain ⟨k, v⟩ := e
    by_cases hk : k = key
    · simp only [mapLookup, hk, if_true, Option.some.injEq] at h
      simp [hk, h]
    · simp only [mapLookup, hk, if_false] at h
      exact List.mem_cons_of_mem _ (ih h)

theorem mapLookup_eq_none_iff {α : Type} (m : List (String × α)) (key : String) :
    mapLookup m key = none ↔ key ∉ m.map fun e => e.1 := by
  induction m with
  | nil => simp [mapLookup]
  | cons e m ih =>
    obtain ⟨k, v⟩ := e
    by_cases hk : k = key
    · simp [mapLookup, hk]
    · simp only [mapLookup, hk, if_false, ih, List.map_cons, List.mem_cons]
      constructor
      · intro h1 h2
        rcases h2 with h2 | h2
        · exact hk h2.symm
        · exact h1 h2
      · intro h1 h2
        exact h1 (Or.inr h2)

theorem mapSet_keys {α : Type} (m : List (String × α)) (key : String) (value : α) :
    ((mapSet m key value).map fun e => e.1) =
      if key ∈ m.map (fun e => e.1) then m.map fun e => e.1
      else (m.map fun e => e.1) ++ [key] := by
  induction m with
  | nil => simp [mapSet]
  | cons e m ih =>
    obtain ⟨k, v⟩ := e
    by_cases hk : k = key
    · simp [mapSet, hk]
    · have hk2 : ¬ key = k := fun h => hk h.symm
      simp only [mapSet, hk, if_false, List.map_cons, ih, List.mem_cons, hk2, false_or]
      split_ifs <;> simp

theorem mem_mapSet {α : Type} (m : List (String × α)) (key : String) (value : α)
    (hm : (m.map fun e => e.1).Nodup) (k : String) (v : α)
    (h : (k, v) ∈ mapSet m key value) :
    (k = key ∧ v = value) ∨ (k ≠ key ∧ (k, v) ∈ m) := by
  induction m with
  | nil =>
    simp only [mapSet, List.mem_singleton, Prod.mk.injEq] at h
    exact Or.inl h
  | cons e m ih =>
    obtain ⟨k0, v0⟩ := e
    simp only [List.map_cons, List.nodup_cons] at hm
    by_cases hk : k0 = key
    · simp only [mapSet, hk, if_true, List.mem_cons, Prod.mk.injEq] at h
      rcases h with h | h
      · exact Or.inl h
      · refine Or.inr ⟨?_, List.mem_cons_of_mem _ h⟩
        intro hkk
        apply hm.1
        rw [hk, ← hkk]
        exact List.mem_map_of_mem (fun e => e.1) h
    · simp only [mapSet, hk, if_false, List.mem_cons, Prod.mk.injEq] at h
      rcases h with h | h
      · exact Or.inr ⟨by rw [h.1]; exact hk, by simp [h.1, h.2]⟩
      · rcases ih hm.2 h with h2 | h2
        · exact Or.inl h2
        · exact Or.inr ⟨h2.1, List.mem_cons_of_mem _ h2.2⟩

theorem mem_mapSet_self {α : Type} (m : List (String × α)) (key : String) (value : α) :
    (key, value) ∈ mapSet m key value :=
  mem_of_mapLookup _ _ _ (mapLookup_mapSet_self m key value)

/-- The effect of the loop over `currentAlertMatchingTxs` on the pattern and the report. -/
theorem foldl_addTransaction (txs : List Transaction) (pattern : SuspiciousActivityPattern)
    (agg : Aggregation) :
    (txs.foldl addTransaction (pattern, agg)).1 =
      { PatternDescription := pattern.PatternDescription
        Transactions := pattern.Transactions ++ txs
        TotalAmount := txs.foldl (fun total tx => F64.add total tx.Amount) pattern.TotalAmount
        TransactionCount := pattern.TransactionCount + txs.length } ∧
    (txs.foldl addTransaction (pattern, agg)).2.report =
      { agg.report with
        TotalSuspiciousAmount :=
          txs.foldl (fun total tx => F64.add total tx.Amount) agg.report.TotalSuspiciousAmount
        TotalTransactionCount := agg.report.TotalTransactionCount + txs.length } ∧
    (txs.foldl addTransaction (pattern, agg)).2.isFirstRow = agg.isFirstRow := by
  induction txs generalizing pattern agg with
  | nil => simp
  | cons tx txs ih =>
    rw [List.foldl_cons]
    obtain ⟨h1, h2, h3⟩ := ih (addTransaction (pattern, agg) tx).1 (addTransaction (pattern, agg) tx).2
    refine ⟨?_, ?_, ?_⟩
    · rw [h1]
      simp only [addTransaction, List.append_assoc, List.singleton_append, List.foldl_cons,
        List.length_cons, Nat.cast_add, Nat.cast_one, SuspiciousActivityPattern.mk.injEq,
        true_and]
      omega
    · rw [h2]
      simp only [addTransaction, List.foldl_cons, List.length_cons, Nat.cast_add, Nat.cast_one,
        SARReport.mk.injEq, true_and, and_true]
      omega
    · rw [h3]
      rfl

theorem runningTotal_append (l₁ l₂ : List Transaction) :
    runningTotal (l₁ ++ l₂) =
      l₂.foldl (fun total tx => F64.add total tx.Amount) (runningTotal l₁) := by
  simp [runningTotal, List.foldl_append]

/-- The report before the first turn of the aggregation loop. -/
theorem Aggregated.init (now : Time) : Aggregated [] (Aggregation.init now).report where
  total := rfl
  count := rfl
  keys_nodup := List.nodup_nil
  tags := by simp
  patterns := by simp [Aggregation.init]

/-- One turn of the aggregation loop files the alert's contribution. -/
theorem Aggregated.step (decodeTx : Json → Except Error Transaction)
    (transactionsMap : List (String × Transaction)) (accountsMap : List (String × Account))
    (allRelatedTxIDs : List String) (agg agg' : Aggregation) (alert : Alert)
    (included : List (String × Transaction)) (hinv : Aggregated included agg.report)
    (h : aggregateAlert decodeTx transactionsMap accountsMap allRelatedTxIDs agg alert =
      .ok agg') :
    (∃ txs, currentAlertMatchingTxs decodeTx transactionsMap alert = .ok txs) ∧
    Aggregated (included ++ contribution decodeTx transactionsMap alert) agg'.report := by
  unfold aggregateAlert at h
  simp only at h
  cases hc : currentAlertMatchingTxs decodeTx transactionsMap alert with
  | error e => simp [hc] at h
  | ok txs =>
    refine ⟨⟨txs, rfl⟩, ?_⟩
    simp only [hc, Except.ok.injEq] at h
    -- the report after the subject fields are written
    generalize hagg1 : (if (agg.isFirstRow &&
        decide ((associatedAccount transactionsMap accountsMap allRelatedTxIDs
          alert).AccountID ≠ "")) = true then
        ({ agg with
          report := { agg.report with
            SubjectName :=
              (associatedAccount transactionsMap accountsMap allRelatedTxIDs alert).HolderName
            SubjectAddress :=
              (associatedAccount transactionsMap accountsMap allRelatedTxIDs alert).Address
            SubjectDateOfBirth :=
              (associatedAccount transactionsMap accountsMap allRelatedTxIDs
                alert).DateOfBirth }
          isFirstRow := false } : Aggregation)
      else agg) = agg1 at h
    have hinv1 : Aggregated included agg1.report := by
      rw [← hagg1]
      split_ifs
      · exact ⟨hinv.total, hinv.count, hinv.keys_nodup, hinv.tags, hinv.patterns⟩
      · exact hinv
    clear hagg1 hinv
    obtain ⟨hp, hr, -⟩ := foldl_addTransaction txs
      { (mapLookup agg1.report.Patterns alert.AlertType).getD SuspiciousActivityPattern.zero with
        PatternDescription := alert.AlertType } agg1
    rw [← h]
    simp only [hp, hr, contribution, hc]
    -- the pattern read from the map holds the transactions filed so far under the type
    have hold : ((mapLookup agg1.report.Patterns alert.AlertType).getD
          SuspiciousActivityPattern.zero).Transactions =
          (included.filter fun e => decide (e.1 = alert.AlertType)).map (fun e => e.2) ∧
        ((mapLookup agg1.report.Patterns alert.AlertType).getD
          SuspiciousActivityPattern.zero).TotalAmount =
          runningTotal ((mapLookup agg1.report.Patterns alert.AlertType).getD
            SuspiciousActivityPattern.zero).Transactions ∧
        ((mapLookup agg1.report.Patterns alert.AlertType).getD
          SuspiciousActivityPattern.zero).TransactionCount =
          ((mapLookup agg1.report.Patterns alert.AlertType).getD
            SuspiciousActivityPattern.zero).Transactions.length := by
      cases hl : mapLookup agg1.report.Patterns alert.AlertType with
      | some p =>
        have := hinv1.patterns _ _ (mem_of_mapLookup _ _ _ hl)
        exact ⟨this.2.1, this.2.2.1, this.2.2.2⟩
      | none =>
        have hnot := (mapLookup_eq_none_iff _ _).mp hl
        have hempty : (included.filter fun e => decide (e.1 = alert.AlertType)) = [] := by
          rw [List.filter_eq_nil_iff]
          intro e he hd
          apply hnot
          rw [← of_decide_eq_true hd]
          exact hinv1.tags e he
        simp only [Option.getD_none, hempty, List.map_nil]
        exact ⟨rfl, rfl, rfl⟩
    have hnew : ∀ key, ((txs.map fun tx => (alert.AlertType, tx)).filter
        fun e => decide (e.1 = key)) =
        if alert.AlertType = key then txs.map fun tx => (alert.AlertType, tx) else [] := by
      intro key
      split_ifs with hk
      · rw [List.filter_eq_self]
        intro e he
        obtain ⟨tx, -, rfl⟩ := List.mem_map.mp he
        simpa using hk
      · rw [List.filter_eq_nil_iff]
        intro e he
        obtain ⟨tx, -, rfl⟩ := List.mem_map.mp he
        simpa using hk
    have hsnd : ((txs.map fun tx => (alert.AlertType, tx)).map fun e => e.2) = txs := by
      simp [List.map_map, Function.comp_def]
    refine ⟨?_, ?_, ?_, ?_, ?_⟩
    · simp only [List.map_append, hsnd, runningTotal_append, ← hinv1.total]
    · simp [hinv1.count]
    · simp only [mapSet_keys]
      split_ifs with hk
      · exact hinv1.keys_nodup
      · exact List.Nodup.append hinv1.keys_nodup (List.nodup_singleton _) (by simpa using hk)
    · intro e he
      simp only [mapSet_keys]
      rcases List.mem_append.mp he with he | he
      · have := hinv1.tags e he
        split_ifs
        · exact this
        · exact List.mem_append_left _ this
      · obtain ⟨tx, -, rfl⟩ := List.mem_map.mp he
        split_ifs with hk
        · exact hk
        · simp
    · intro key pattern hmem
      rcases mem_mapSet _ _ _ hinv1.keys_nodup _ _ hmem with ⟨hk, hv⟩ | ⟨hk, hm⟩
      · subst hk hv
        simp only [List.filter_append, hnew, if_true, List.map_append, hsnd,
          hold.1, true_and]
        refine ⟨?_, ?_⟩
        · rw [hold.2.1, hold.1, runningTotal_append]
        · rw [hold.2.2, hold.1]
          simp
      · have hk2 : ¬ alert.AlertType = key := fun h => hk h.symm
        have := hinv1.patterns _ _ hm
        simp only [List.filter_append, hnew, hk2, if_false, List.append_nil]
        exact this

/-- The aggregation loop files the contributions of the alerts, in order. -/
theorem Aggregated.loop (decodeTx : Json → Except Error Transaction)
    (transactionsMap : List (String × Transaction)) (accountsMap : List (String × Account))
    (allRelatedTxIDs : List String) (alerts : List Alert) (agg agg' : Aggregation)
    (included : List (String × Transaction)) (hinv : Aggregated included agg.report)
    (h : aggregateAlerts decodeTx transactionsMap accountsMap allRelatedTxIDs agg alerts =
      .ok agg') :
    (∀ a ∈ alerts, ∃ txs, currentAlertMatchingTxs decodeTx transactionsMap a = .ok txs) ∧
    Aggregated (included ++ alerts.flatMap (contribution decodeTx transactionsMap))
      agg'.report := by
  induction alerts generalizing agg included with
  | nil =>
    simp only [aggregateAlerts, Except.ok.injEq] at h
    subst h
    simpa using hinv
  | cons alert alerts ih =>
    simp only [aggregateAlerts] at h
    cases hstep : aggregateAlert decodeTx transactionsMap accountsMap allRelatedTxIDs agg
        alert with
    | error e => simp [hstep] at h
    | ok agg1 =>
      simp only [hstep] at h
      obtain ⟨hok, hinv1⟩ := Aggregated.step decodeTx transactionsMap accountsMap
        allRelatedTxIDs agg agg1 alert included hinv hstep
      obtain ⟨hall, hinv'⟩ := ih agg1 _ hinv1 h
      refine ⟨?_, ?_⟩
      · intro a ha
        rcases List.mem_cons.mp ha with rfl | ha
        · exact hok
        · exact hall a ha
      · simpa [List.flatMap_cons, List.append_assoc] using hinv'

/-- What a report returned by `GenerateSARData` was built from: the alert rows, the related
identifiers, the rows of the one transaction lookup, made with each related identifier
once, and the account rows; every alert has its slice `currentAlertMatchingTxs`, and the
report files the contributions of the alerts in order. -/
theorem GenerateSARData_some (decodeTx : Json → Except Error Transaction) (range : MapRange)
    (now : Time) (alertIDs : List String) (db : Store) (report : SARReport)
    (h : GenerateSARData decodeTx range now alertIDs db = .ok (some report)) :
    ∃ alerts allRelatedTxIDs txRows accRows,
      db.queryAlerts alertIDs = .ok alerts ∧
      scanAlerts decodeTx alerts = .ok allRelatedTxIDs ∧
      db.queryTransactions (range.keys allRelatedTxIDs) = .ok txRows ∧
      db.queryAccounts (scanTransactions txRows).accountIDs = .ok accRows ∧
      (∀ a ∈ alerts, ∃ txs,
        currentAlertMatchingTxs decodeTx (scanTransactions txRows).transactionsMap a =
          .ok txs) ∧
      Aggregated
        (alerts.flatMap (contribution decodeTx (scanTransactions txRows).transactionsMap))
        report := by
  unfold GenerateSARData at h
  by_cases h0 : alertIDs.length = 0
  · simp [h0] at h
  rw [if_neg h0] at h
  cases hq : db.queryAlerts alertIDs with
  | error e => simp [hq] at h
  | ok alerts =>
    simp only [hq] at h
    cases hs : scanAlerts decodeTx alerts with
    | error e => simp [hs] at h
    | ok allRelatedTxIDs =>
      simp only [hs] at h
      by_cases h1 : allRelatedTxIDs.length = 0
      · simp [h1] at h
      rw [if_neg h1] at h
      cases ht : db.queryTransactions (range.keys allRelatedTxIDs) with
      | error e => simp [ht] at h
      | ok txRows =>
        simp only [ht] at h
        by_cases h2 : (scanTransactions txRows).accountIDs.length = 0
        · simp [h2] at h
        rw [if_neg h2] at h
        cases ha : db.queryAccounts (scanTransactions txRows).accountIDs with
        | error e => simp [ha] at h
        | ok accRows =>
          simp only [ha] at h
          cases hg : aggregateAlerts decodeTx (scanTransactions txRows).transactionsMap
              (scanAccounts accRows) allRelatedTxIDs (Aggregation.init now) alerts with
          | error e => simp [hg] at h
          | ok agg =>
            simp only [hg] at h
            obtain ⟨hall, hinv⟩ := Aggregated.loop decodeTx _ _ _ alerts _ agg []
              (Aggregated.init now) hg
            rw [List.nil_append] at hinv
            refine ⟨alerts, allRelatedTxIDs, txRows, accRows, rfl, hs, ht, ha, hall, ?_⟩
            split_ifs at h
            · simp only [Except.ok.injEq, Option.some.injEq] at h
              rw [← h]
              exact ⟨hinv.total, hinv.count, hinv.keys_nodup, hinv.tags, hinv.patterns⟩
            · simp only [Except.ok.injEq, Option.some.injEq] at h
              rw [← h]
              exact hinv

/-- Each tagged transaction is filed under one key: the sizes of the groups add up. -/
theorem sum_filter_length (keys : List String) (included : List (String × Transaction))
    (hkeys : keys.Nodup) (htags : ∀ e ∈ included, e.1 ∈ keys) :
    (keys.map fun key =>
      (((included.filter fun e => decide (e.1 = key)).length : Nat) : Int)).sum =
      included.length := by
  induction included with
  | nil => simp
  | cons e included ih =>
    have hrest := ih fun x hx => htags x (List.mem_cons_of_mem _ hx)
    have hmem : e.1 ∈ keys := htags e (List.mem_cons_self _ _)
    have hone : (keys.map fun key => if e.1 = key then (1 : Int) else 0).sum = 1 := by
      clear ih hrest htags
      induction keys with
      | nil => simp at hmem
      | cons k keys ihk =>
        rw [List.nodup_cons] at hkeys
        by_cases hk : e.1 = k
        · have hzero : (keys.map fun key => if e.1 = key then (1 : Int) else 0).sum = 0 := by
            apply List.sum_eq_zero
            intro x hx
            obtain ⟨key, hkey, rfl⟩ := List.mem_map.mp hx
            have : ¬ e.1 = key := fun h => hkeys.1 (hk ▸ h ▸ hkey)
            simp [this]
          rw [List.map_cons, List.sum_cons, hzero, if_pos hk, add_zero]
        · have hmem2 : e.1 ∈ keys := by
            rcases List.mem_cons.mp hmem with h | h
            · exact absurd h hk
            · exact h
          rw [List.map_cons, List.sum_cons, ihk hkeys.2 hmem2, if_neg hk, zero_add]
    have hsplit : (keys.map fun key =>
        ((((e :: included).filter fun x => decide (x.1 = key)).length : Nat) : Int)) =
        keys.map fun key => (if e.1 = key then (1 : Int) else 0) +
          (((included.filter fun x => decide (x.1 = key)).length : Nat) : Int) := by
      apply List.map_congr_left
      intro key _
      by_cases hk : e.1 = key
      · simp [List.filter_cons, hk]
        omega
      · simp [List.filter_cons, hk]
    rw [hsplit, List.sum_map_add, hone, hrest]
    simp
    omega

/-- The report total of transactions is the sum of the counts of the patterns. -/
theorem Aggregated.count_eq_sum (included : List (String × Transaction)) (report : SARReport)
    (h : Aggregated included report) :
    report.TotalTransactionCount = (report.Patterns.map fun e => e.2.TransactionCount).sum := by
  have hmap : (report.Patterns.map fun e => e.2.TransactionCount) =
      (report.Patterns.map fun e => e.1).map fun key =>
        (((included.filter fun e => decide (e.1 = key)).length : Nat) : Int) := by
    rw [List.map_map]
    apply List.map_congr_left
    intro e he
    obtain ⟨-, h1, -, h3⟩ := h.patterns e.1 e.2 he
    simp only [Function.comp, h3, h1, List.length_map]
  rw [hmap, sum_filter_length _ _ h.keys_nodup h.tags, h.count]

/-- With a single pattern the report total is the total of that pattern. -/
theorem Aggregated.total_single (included : List (String × Transaction)) (report : SARReport)
    (h : Aggregated included report) (key : String) (pattern : SuspiciousActivityPattern)
    (hp : report.Patterns = [(key, pattern)]) :
    report.TotalSuspiciousAmount = pattern.TotalAmount := by
  have hmem : (key, pattern) ∈ report.Patterns := by simp [hp]
  obtain ⟨-, h1, h2, -⟩ := h.patterns key pattern hmem
  have hall : (included.filter fun e => decide (e.1 = key)) = included := by
    rw [List.filter_eq_self]
    intro e he
    have := h.tags e he
    simp only [hp, List.map_cons, List.map_nil, List.mem_singleton] at this
    simpa using this
  rw [h.total, h2, h1, hall]

/-- C17, as stated, fails: for the three transactions (5000.10, 6000.20 and 8500.40) and the
three alerts of `ExampleGenerateSARData`, the report has `TotalSuspiciousAmount`
(5000.10 + 6000.20) + 8500.40 = 19500.699999999997, while its two patterns have the totals
13500.5 and 6000.2, whose `float64` sum is 19500.7 in either order, and whose sum without
rounding is not the report total either. -/
theorem sar_total_not_sum_of_patterns :
    GenerateSARData testDecodeTx insertionOrder testNow ["alert001", "alert002", "alert003"]
        exampleStore = .ok (some exampleReport) ∧
      (exampleReport.Patterns.map fun e => e.2.TotalAmount) =
        [F64.ofRat 135005 10, F64.ofRat 30001 5] ∧
      F64.add (F64.add (.fin 0) (F64.ofRat 135005 10)) (F64.ofRat 30001 5) =
        F64.ofRat 195007 10 ∧
      F64.add (F64.add (.fin 0) (F64.ofRat 30001 5)) (F64.ofRat 135005 10) =
        F64.ofRat 195007 10 ∧
      exampleReport.TotalSuspiciousAmount ≠ F64.ofRat 195007 10 ∧
      ((F64.ofRat 135005 10).units.bind fun a =>
        (F64.ofRat 30001 5).units.map fun b => a + b) ≠
        exampleReport.TotalSuspiciousAmount.units := by
  decide

/-- C17, amended: for every report `GenerateSARData` returns, let `included` be the
transactions it included in the order in which they were processed (alert row by alert
row, each alert contributing its slice `currentAlertMatchingTxs` in order), each tagged
with the type of its alert.  Then `TotalSuspiciousAmount` is the `float64` running total
of all of them in that order and `TotalTransactionCount` their number; the pattern of each
key holds the transactions tagged with the key, in order, `TotalAmount` is the `float64`
running total of the amounts of its `Transactions` list in list order and
`TransactionCount` the length of that list; `TotalTransactionCount` is the sum of the
`TransactionCount` of all patterns; and when the report has a single pattern,
`TotalSuspiciousAmount` is the `TotalAmount` of that pattern. -/
theorem sar_report_totals (decodeTx : Json → Except Error Transaction) (range : MapRange)
    (now : Time) (alertIDs : List String) (db : Store) (report : SARReport)
    (h : GenerateSARData decodeTx range now alertIDs db = .ok (some report)) :
    ∃ (alerts : List Alert) (allRelatedTxIDs : List String) (txRows : List Transaction)
      (included : List (String × Transaction)),
      db.queryAlerts alertIDs = .ok alerts ∧
      scanAlerts decodeTx alerts = .ok allRelatedTxIDs ∧
      db.queryTransactions (range.keys allRelatedTxIDs) = .ok txRows ∧
      (∀ a ∈ alerts, ∃ txs,
        currentAlertMatchingTxs decodeTx (scanTransactions txRows).transactionsMap a =
          .ok txs) ∧
      included =
        alerts.flatMap (contribution decodeTx (scanTransactions txRows).transactionsMap) ∧
      report.TotalSuspiciousAmount = runningTotal (included.map fun e => e.2) ∧
      report.TotalTransactionCount = included.length ∧
      (report.Patterns.map fun e => e.1).Nodup ∧
      (∀ e ∈ included, e.1 ∈ report.Patterns.map fun e => e.1) ∧
      (∀ key pattern, (key, pattern) ∈ report.Patterns →
        pattern.Transactions =
          (included.filter fun e => decide (e.1 = key)).map (fun e => e.2) ∧
        pattern.TotalAmount = runningTotal pattern.Transactions ∧
        pattern.TransactionCount = pattern.Transactions.length) ∧
      report.TotalTransactionCount =
        (report.Patterns.map fun e => e.2.TransactionCount).sum ∧
      (∀ key pattern, report.Patterns = [(key, pattern)] →
        report.TotalSuspiciousAmount = pattern.TotalAmount) := by
  obtain ⟨alerts, allRelatedTxIDs, txRows, -, hq, hs, ht, -, hall, hinv⟩ :=
    GenerateSARData_some decodeTx range now alertIDs db report h
  exact ⟨alerts, allRelatedTxIDs, txRows, _, hq, hs, ht, hall, rfl, hinv.total, hinv.count,
    hinv.keys_nodup, hinv.tags, fun key pattern hm => (hinv.patterns key pattern hm).2,
    hinv.count_eq_sum, hinv.total_single⟩

/-- The report of `ExampleGenerateSARData`: three transactions in two patterns.  The
transactions are included in the order of the alerts, tx001, tx002, tx003, and the report
total is their running total in this order, (5000.10 + 6000.20) + 8500.40. -/
theorem sar_report_totals_witness :
    GenerateSARData testDecodeTx insertionOrder testNow ["alert001", "alert002", "alert003"]
      exampleStore = .ok (some exampleReport) ∧
    exampleAlerts.flatMap
        (contribution testDecodeTx (scanTransactions exampleTransactions).transactionsMap) =
      [("structuring", sarTx "tx001" 50001 10 1673776800000000000),
        ("high_value_transfer", sarTx "tx002" 30001 5 1673863200000000000),
        ("structuring", sarTx "tx003" 42502 5 1673949600000000000)] ∧
    exampleReport.TotalSuspiciousAmount =
      F64.add (F64.add (F64.add (.fin 0) (F64.ofRat 50001 10)) (F64.ofRat 30001 5))
        (F64.ofRat 42502 5) ∧
    ∃ (alerts : List Alert) (allRelatedTxIDs : List String) (txRows : List Transaction)
      (included : List (String × Transaction)),
      exampleStore.queryAlerts ["alert001", "alert002", "alert003"] = .ok alerts ∧
      scanAlerts testDecodeTx alerts = .ok allRelatedTxIDs ∧
      exampleStore.queryTransactions (insertionOrder.keys allRelatedTxIDs) = .ok txRows ∧
      (∀ a ∈ alerts, ∃ txs,
        currentAlertMatchingTxs testDecodeTx (scanTransactions txRows).transactionsMap a =
          .ok txs) ∧
      included =
        alerts.flatMap
          (contribution testDecodeTx (scanTransactions txRows).transactionsMap) ∧
      exampleReport.TotalSuspiciousAmount = runningTotal (included.map fun e => e.2) ∧
      exampleReport.TotalTransactionCount = included.length ∧
      (exampleReport.Patterns.map fun e => e.1).Nodup ∧
      (∀ e ∈ included, e.1 ∈ exampleReport.Patterns.map fun e => e.1) ∧
      (∀ key pattern, (key, pattern) ∈ exampleReport.Patterns →
        pattern.Transactions =
          (included.filter fun e => decide (e.1 = key)).map (fun e => e.2) ∧
        pattern.TotalAmount = runningTotal pattern.Transactions ∧
        pattern.TransactionCount = pattern.Transactions.length) ∧
      exampleReport.TotalTransactionCount =
        (exampleReport.Patterns.map fun e => e.2.TransactionCount).sum ∧
      (∀ key pattern, exampleReport.Patterns = [(key, pattern)] →
        exampleReport.TotalSuspiciousAmount = pattern.TotalAmount) :=
  ⟨by decide, by decide, by decide,
    sar_report_totals testDecodeTx insertionOrder testNow ["alert001", "alert002", "alert003"]
      exampleStore exampleReport (by decide)⟩

/-- An alert with a `matching_transactions` entry contributes what the entry decodes to; an
error of the decoding is wrapped. -/
theorem currentAlertMatchingTxs_of_payload (decodeTx : Json → Except Error Transaction)
    (transactionsMap : List (String × Transaction)) (alert : Alert)
    (result : Except Error (List Transaction))
    (h : payloadTransactions decodeTx alert.RuleDetails = some result) :
    currentAlertMatchingTxs decodeTx transactionsMap alert =
      result.mapError fun e =>
        "failed to unmarshal " ++ payloadKind alert.RuleDetails ++
          " to models.Transaction from alert rule_details for report: " ++ e := by
  unfold currentAlertMatchingTxs
  have hpos : alert.RuleDetails.length > 0 := by
    cases hr : alert.RuleDetails with
    | nil => simp [hr, payloadTransactions, mapLookup] at h
    | cons e l => simp
  simp only [if_pos hpos, h]
  cases result <;> rfl

/-- An alert whose list payload holds an item that does not decode: the error names the item
and the alert, and it is the error of `GenerateSARData`. -/
theorem decode_error_is_wrapped :
    relatedTxIDs testDecodeTx
        (sarAlert "alert009" "tx001" "structuring"
          [("matching_transactions", .array [.string "tx001"])]) =
      .error ("failed to unmarshal transaction item to models.Transaction for alert " ++
        "alert009: json: cannot unmarshal into Go value of type models.Transaction") ∧
    relatedTxIDs testDecodeTx
        (sarAlert "alert009" "tx001" "structuring"
          [("matching_transactions", .string "tx001")]) =
      .error ("failed to unmarshal single transaction to models.Transaction for alert " ++
        "alert009: json: cannot unmarshal into Go value of type models.Transaction") ∧
    GenerateSARData testDecodeTx insertionOrder testNow ["alert009"]
        (tableStore
          [sarAlert "alert009" "tx001" "structuring"
            [("matching_transactions", .array [.string "tx001"])]]
          exampleTransactions [johnDoe]) =
      .error ("failed to unmarshal transaction item to models.Transaction for alert " ++
        "alert009: json: cannot unmarshal into Go value of type models.Transaction") := by
  decide

/-- An alert without a `matching_transactions` entry contributes its own transaction, if
the map of the rows returned has it. -/
theorem currentAlertMatchingTxs_of_no_payload (decodeTx : Json → Except Error Transaction)
    (transactionsMap : List (String × Transaction)) (alert : Alert)
    (h : mapLookup alert.RuleDetails "matching_transactions" = none) :
    currentAlertMatchingTxs decodeTx transactionsMap alert =
      .ok (mapLookup transactionsMap alert.TransactionID).toList := by
  unfold currentAlertMatchingTxs
  have hnone : payloadTransactions decodeTx
      (if alert.RuleDetails.length > 0 then alert.RuleDetails else []) = none := by
    split_ifs
    · simp [payloadTransactions, h]
    · simp [payloadTransactions, mapLookup]
  simp only [hnone]
  cases mapLookup transactionsMap alert.TransactionID <;> rfl

theorem payloadTransactions_eq_none_iff (decodeTx : Json → Except Error Transaction)
    (ruleDetails : JSONMap) :
    payloadTransactions decodeTx ruleDetails = none ↔
      mapLookup ruleDetails "matching_transactions" = none := by
  unfold payloadTransactions
  cases mapLookup ruleDetails "matching_transactions" with
  | none => simp
  | some raw =>
    simp only [reduceCtorEq, iff_false]
    cases raw.asList with
    | some list => simp
    | none => cases decodeTx raw <;> simp

/-- The value a read of `transactionsMap` gives is a row the lookup returned, with the
identifier read; the read misses only if no row has the identifier. -/
theorem mapLookup_foldl_scanTransaction (txRows : List Transaction) (scan : TransactionScan)
    (key : String) :
    (∀ tx, mapLookup (txRows.foldl scanTransaction scan).transactionsMap key = some tx →
      (tx ∈ txRows ∧ tx.TransactionID = key) ∨
        mapLookup scan.transactionsMap key = some tx) ∧
    (mapLookup (txRows.foldl scanTransaction scan).transactionsMap key = none →
      (∀ tx ∈ txRows, tx.TransactionID ≠ key) ∧ mapLookup scan.transactionsMap key = none) := by
  induction txRows generalizing scan with
  | nil => simp
  | cons row txRows ih =>
    have hmap : (scanTransaction scan row).transactionsMap =
        mapSet scan.transactionsMap row.TransactionID row := by
      unfold scanTransaction
      cases mapLookup scan.uniqueAccountIDs row.AccountID <;> rfl
    obtain ⟨ih1, ih2⟩ := ih (scanTransaction scan row)
    rw [List.foldl_cons]
    constructor
    · intro tx htx
      rcases ih1 tx htx with ⟨hm, hid⟩ | hprev
      · exact Or.inl ⟨List.mem_cons_of_mem _ hm, hid⟩
      · rw [hmap] at hprev
        by_cases hk : row.TransactionID = key
        · rw [← hk, mapLookup_mapSet_self] at hprev
          simp only [Option.some.injEq] at hprev
          exact Or.inl ⟨by simp [hprev], by rw [← hprev]; exact hk⟩
        · rw [mapLookup_mapSet_ne _ _ _ _ hk] at hprev
          exact Or.inr hprev
    · intro hnone
      obtain ⟨hall, hprev⟩ := ih2 hnone
      rw [hmap] at hprev
      by_cases hk : row.TransactionID = key
      · rw [← hk, mapLookup_mapSet_self] at hprev
        simp at hprev
      · rw [mapLookup_mapSet_ne _ _ _ _ hk] at hprev
        refine ⟨?_, hprev⟩
        intro tx htx
        rcases List.mem_cons.mp htx with rfl | htx
        · exact hk
        · exact hall tx htx

theorem mapLookup_scanTransactions (txRows : List Transaction) (key : String) :
    (∀ tx, mapLookup (scanTransactions txRows).transactionsMap key = some tx →
      tx ∈ txRows ∧ tx.TransactionID = key) ∧
    (mapLookup (scanTransactions txRows).transactionsMap key = none →
      ∀ tx ∈ txRows, tx.TransactionID ≠ key) := by
  obtain ⟨h1, h2⟩ := mapLookup_foldl_scanTransaction txRows
    { transactionsMap := [], accountIDs := [], uniqueAccountIDs := [] } key
  constructor
  · intro tx htx
    rcases h1 tx htx with h | h
    · exact h
    · simp [mapLookup] at h
  · intro hnone
    exact (h2 hnone).1

/-- The related identifiers of a list of alert rows are those of its parts, in order. -/
theorem scanAlerts_append (decodeTx : Json → Except Error Transaction) (l₁ l₂ : List Alert)
    (ids : List String) (h : scanAlerts decodeTx (l₁ ++ l₂) = .ok ids) :
    ∃ ids₁ ids₂, scanAlerts decodeTx l₁ = .ok ids₁ ∧ scanAlerts decodeTx l₂ = .ok ids₂ ∧
      ids = ids₁ ++ ids₂ := by
  induction l₁ generalizing ids with
  | nil => exact ⟨[], ids, rfl, h, rfl⟩
  | cons alert l₁ ih =>
    simp only [List.cons_append, scanAlerts] at h ⊢
    cases hrel : relatedTxIDs decodeTx alert with
    | error e => simp [hrel] at h
    | ok own =>
      simp only [hrel] at h ⊢
      cases hrest : scanAlerts decodeTx (l₁ ++ l₂) with
      | error e => simp [List.append_eq, hrest] at h
      | ok rest =>
        simp only [List.append_eq, hrest, Except.ok.injEq] at h
        obtain ⟨ids₁, ids₂, h1, h2, h3⟩ := ih rest hrest
        refine ⟨own ++ ids₁, ids₂, ?_, h2, ?_⟩
        · simp [h1]
        · rw [← h, h3, List.append_assoc]

/-- The transactions decoded from a list of items are the decodings of the items. -/
theorem mem_decodeItems (decodeTx : Json → Except Error Transaction) (items : List Json)
    (txs : List Transaction) (h : decodeItems decodeTx items = .ok txs) (tx : Transaction) :
    tx ∈ txs ↔ ∃ item ∈ items, decodeTx item = .ok tx := by
  induction items generalizing txs with
  | nil =>
    simp only [decodeItems, Except.ok.injEq] at h
    simp [← h]
  | cons item items ih =>
    simp only [decodeItems] at h
    cases hd : decodeTx item with
    | error e => simp [hd] at h
    | ok first =>
      simp only [hd] at h
      cases hr : decodeItems decodeTx items with
      | error e => simp [hr] at h
      | ok rest =>
        simp only [hr, Except.ok.injEq] at h
        subst h
        simp only [List.mem_cons, ih rest hr, exists_eq_or_imp, hd, Except.ok.injEq]
        constructor
        · rintro (h1 | h1)
          · exact Or.inl h1.symm
          · exact Or.inr h1
        · rintro (h1 | h1)
          · exact Or.inl h1.symm
          · exact Or.inr h1

/-- The block that reads the payload decodes the items of the entry. -/
theorem payloadTransactions_eq (decodeTx : Json → Except Error Transaction)
    (ruleDetails : JSONMap) (raw : Json)
    (h : mapLookup ruleDetails "matching_transactions" = some raw) :
    payloadTransactions decodeTx ruleDetails = some (decodeItems decodeTx (payloadItems raw)) := by
  unfold payloadTransactions payloadItems
  rw [h]
  cases hl : raw.asList with
  | some list => simp only [hl, Option.getD_some]
  | none =>
    simp only [hl, Option.getD_none, decodeItems]
    cases decodeTx raw <;> rfl

/-- The members of the contribution of an alert. -/
theorem mem_contribution (decodeTx : Json → Except Error Transaction)
    (transactionsMap : List (String × Transaction)) (alert : Alert)
    (e : String × Transaction) :
    e ∈ contribution decodeTx transactionsMap alert ↔
      e.1 = alert.AlertType ∧ e.2 ∈ contributed decodeTx transactionsMap alert := by
  unfold contribution contributed
  cases currentAlertMatchingTxs decodeTx transactionsMap alert with
  | error err => simp
  | ok txs =>
    simp only [List.mem_map]
    constructor
    · rintro ⟨tx, htx, rfl⟩
      exact ⟨rfl, htx⟩
    · rintro ⟨h1, h2⟩
      exact ⟨e.2, h2, by rw [← h1]⟩

theorem contribution_eq (decodeTx : Json → Except Error Transaction)
    (transactionsMap : List (String × Transaction)) (alert : Alert) :
    contribution decodeTx transactionsMap alert =
      (contributed decodeTx transactionsMap alert).map fun tx => (alert.AlertType, tx) := by
  unfold contribution contributed
  cases currentAlertMatchingTxs decodeTx transactionsMap alert <;> rfl

/-- The transactions of a pattern are those the alerts of its type contributed, and each
of those is in the pattern. -/
theorem Aggregated.mem_pattern (decodeTx : Json → Except Error Transaction)
    (transactionsMap : List (String × Transaction)) (alerts : List Alert) (report : SARReport)
    (h : Aggregated (alerts.flatMap (contribution decodeTx transactionsMap)) report) :
    (∀ key pattern, (key, pattern) ∈ report.Patterns → ∀ tx ∈ pattern.Transactions,
      ∃ alert ∈ alerts, alert.AlertType = key ∧
        tx ∈ contributed decodeTx transactionsMap alert) ∧
    (∀ alert ∈ alerts, ∀ tx ∈ contributed decodeTx transactionsMap alert,
      ∃ pattern, (alert.AlertType, pattern) ∈ report.Patterns ∧ tx ∈ pattern.Transactions) := by
  constructor
  · intro key pattern hp tx htx
    rw [(h.patterns key pattern hp).2.1] at htx
    obtain ⟨e, he, rfl⟩ := List.mem_map.mp htx
    obtain ⟨hin, hkey⟩ := List.mem_filter.mp he
    obtain ⟨alert, halert, hc⟩ := List.mem_flatMap.mp hin
    obtain ⟨h1, h2⟩ := (mem_contribution _ _ _ _).mp hc
    exact ⟨alert, halert, by rw [← h1]; exact of_decide_eq_true hkey, h2⟩
  · intro alert halert tx htx
    have hin : (alert.AlertType, tx) ∈ alerts.flatMap (contribution decodeTx transactionsMap) :=
      List.mem_flatMap.mpr ⟨alert, halert, (mem_contribution _ _ _ _).mpr ⟨rfl, htx⟩⟩
    obtain ⟨⟨key, pattern⟩, hp, hk⟩ := List.mem_map.mp (h.tags _ hin)
    simp only at hk
    subst hk
    refine ⟨pattern, hp, ?_⟩
    rw [(h.patterns _ pattern hp).2.1]
    exact List.mem_map.mpr ⟨(alert.AlertType, tx), List.mem_filter.mpr ⟨hin, by simp⟩, rfl⟩

/-- C19, as stated, fails: the store holds "tx001" with the amount 5000.10 and no transaction
"ghost"; the alert's `matching_transactions` entry lists "tx001" with the amount 7000.10 and
"ghost" with 999.  The lookup is made for both identifiers and returns the one row of
"tx001", yet the pattern of the report holds the payload's "tx001" of 7000.10 and "ghost",
and the totals are 7999.10 and 2. -/
theorem payload_transactions_bypass_store :
    GenerateSARData testDecodeTx insertionOrder testNow ["alert001"] ghostStore =
        .ok (some ghostReport) ∧
      scanAlerts testDecodeTx [ghostAlert] = .ok ["tx001", "ghost"] ∧
      ghostStore.queryTransactions (insertionOrder.keys ["tx001", "ghost"]) =
        .ok [sarTx "tx001" 50001 10 1673776800000000000] ∧
      (ghostReport.Patterns.map fun e => e.2.Transactions) =
        [[sarTx "tx001" 70001 10 1673776800000000000,
          sarTx "ghost" 999 1 1673863200000000000]] ∧
      ghostReport.TotalSuspiciousAmount = F64.ofRat 79991 10 ∧
      ghostReport.TotalTransactionCount = 2 ∧
      sarTx "tx001" 70001 10 1673776800000000000 ≠
        sarTx "tx001" 50001 10 1673776800000000000 := by
  decide

/-- C19, amended: every transaction that `GenerateSARData` places in a pattern comes from an
aggregated alert of the pattern's type, and is either the decoding of an item of that
alert's `matching_transactions` entry, or, for an alert without such an entry, a row that
the store's transaction lookup returned, with the identifier `alert.TransactionID`.
Conversely the decoding of every item of the `matching_transactions` entry of an
aggregated alert is placed in the pattern of the alert's type, whether or not the lookup
returned a row with its identifier. -/
theorem pattern_transactions_origin (decodeTx : Json → Except Error Transaction)
    (range : MapRange) (now : Time) (alertIDs : List String) (db : Store) (report : SARReport)
    (h : GenerateSARData decodeTx range now alertIDs db = .ok (some report)) :
    ∃ alerts allRelatedTxIDs txRows,
      db.queryAlerts alertIDs = .ok alerts ∧
      scanAlerts decodeTx alerts = .ok allRelatedTxIDs ∧
      db.queryTransactions (range.keys allRelatedTxIDs) = .ok txRows ∧
      (∀ key pattern, (key, pattern) ∈ report.Patterns → ∀ tx ∈ pattern.Transactions,
        ∃ alert ∈ alerts, alert.AlertType = key ∧
          ((∃ raw, mapLookup alert.RuleDetails "matching_transactions" = some raw ∧
              ∃ item ∈ payloadItems raw, decodeTx item = .ok tx) ∨
            (mapLookup alert.RuleDetails "matching_transactions" = none ∧
              tx ∈ txRows ∧ tx.TransactionID = alert.TransactionID))) ∧
      (∀ alert ∈ alerts, ∀ raw,
        mapLookup alert.RuleDetails "matching_transactions" = some raw →
        ∀ item ∈ payloadItems raw, ∀ tx, decodeTx item = .ok tx →
          ∃ pattern, (alert.AlertType, pattern) ∈ report.Patterns ∧
            tx ∈ pattern.Transactions) := by
  obtain ⟨alerts, allRelatedTxIDs, txRows, accRows, hq, hs, ht, -, hall, hinv⟩ :=
    GenerateSARData_some decodeTx range now alertIDs db report h
  obtain ⟨hfrom, hto⟩ := Aggregated.mem_pattern decodeTx _ alerts report hinv
  refine ⟨alerts, allRelatedTxIDs, txRows, hq, hs, ht, ?_, ?_⟩
  · intro key pattern hp tx htx
    obtain ⟨alert, halert, hkey, hc⟩ := hfrom key pattern hp tx htx
    refine ⟨alert, halert, hkey, ?_⟩
    cases hraw : mapLookup alert.RuleDetails "matching_transactions" with
    | some raw =>
      left
      refine ⟨raw, rfl, ?_⟩
      have hcur := currentAlertMatchingTxs_of_payload decodeTx
        (scanTransactions txRows).transactionsMap alert _
        (payloadTransactions_eq decodeTx _ raw hraw)
      unfold contributed at hc
      rw [hcur] at hc
      cases hd : decodeItems decodeTx (payloadItems raw) with
      | error e => simp [hd, Except.mapError] at hc
      | ok txs =>
        simp only [hd, Except.mapError] at hc
        exact (mem_decodeItems decodeTx _ txs hd tx).mp hc
    | none =>
      right
      refine ⟨rfl, ?_⟩
      unfold contributed at hc
      rw [currentAlertMatchingTxs_of_no_payload decodeTx _ alert hraw] at hc
      simp only [Option.mem_toList, Option.mem_def] at hc
      exact (mapLookup_scanTransactions txRows alert.TransactionID).1 tx hc
  · intro alert halert raw hraw item hitem tx hd
    apply hto alert halert
    obtain ⟨txs, htxs⟩ := hall alert halert
    unfold contributed
    rw [htxs]
    have hcur := currentAlertMatchingTxs_of_payload decodeTx
      (scanTransactions txRows).transactionsMap alert _
      (payloadTransactions_eq decodeTx _ raw hraw)
    rw [hcur] at htxs
    have hdec : decodeItems decodeTx (payloadItems raw) = .ok txs := by
      cases hd' : decodeItems decodeTx (payloadItems raw) with
      | error e => simp [hd', Except.mapError] at htxs
      | ok txs' =>
        simp only [hd', Except.mapError, Except.ok.injEq] at htxs
        rw [htxs]
    exact (mem_decodeItems decodeTx _ txs hdec tx).mpr ⟨item, hitem, hd⟩

/-- The alert with the ghost transaction: both payload items are in the pattern, and each
transaction of the pattern is the decoding of a payload item. -/
theorem pattern_transactions_origin_witness :
    GenerateSARData testDecodeTx insertionOrder testNow ["alert001"] ghostStore =
      .ok (some ghostReport) ∧
    ∃ alerts allRelatedTxIDs txRows,
      ghostStore.queryAlerts ["alert001"] = .ok alerts ∧
      scanAlerts testDecodeTx alerts = .ok allRelatedTxIDs ∧
      ghostStore.queryTransactions (insertionOrder.keys allRelatedTxIDs) = .ok txRows ∧
      (∀ key pattern, (key, pattern) ∈ ghostReport.Patterns → ∀ tx ∈ pattern.Transactions,
        ∃ alert ∈ alerts, alert.AlertType = key ∧
          ((∃ raw, mapLookup alert.RuleDetails "matching_transactions" = some raw ∧
              ∃ item ∈ payloadItems raw, testDecodeTx item = .ok tx) ∨
            (mapLookup alert.RuleDetails "matching_transactions" = none ∧
              tx ∈ txRows ∧ tx.TransactionID = alert.TransactionID))) ∧
      (∀ alert ∈ alerts, ∀ raw,
        mapLookup alert.RuleDetails "matching_transactions" = some raw →
        ∀ item ∈ payloadItems raw, ∀ tx, testDecodeTx item = .ok tx →
          ∃ pattern, (alert.AlertType, pattern) ∈ ghostReport.Patterns ∧
            tx ∈ pattern.Transactions) :=
  ⟨by decide,
    pattern_transactions_origin testDecodeTx insertionOrder testNow ["alert001"] ghostStore
      ghostReport (by decide)⟩

/-- The own transaction of an alert without a payload entry is among the related
identifiers. -/
theorem mem_scanAlerts_of_no_payload (decodeTx : Json → Except Error Transaction)
    (alerts : List Alert) (ids : List String) (h : scanAlerts decodeTx alerts = .ok ids)
    (alert : Alert) (halert : alert ∈ alerts)
    (hraw : mapLookup alert.RuleDetails "matching_transactions" = none) :
    alert.TransactionID ∈ ids := by
  obtain ⟨l₁, l₂, rfl⟩ := List.append_of_mem halert
  obtain ⟨ids₁, ids₂, -, h2, rfl⟩ := scanAlerts_append decodeTx _ _ _ h
  have hp := (payloadTransactions_eq_none_iff decodeTx alert.RuleDetails).mpr hraw
  simp only [scanAlerts, relatedTxIDs, hp] at h2
  cases hrest : scanAlerts decodeTx l₂ with
  | error e => simp [hrest] at h2
  | ok rest =>
    simp only [hrest, Except.ok.injEq] at h2
    rw [← h2]
    simp

/-- C20: for an alert whose payload has no `matching_transactions` entry, the identifier
`alert.TransactionID` is among those sent to the store's transaction lookup, and the
transactions the alert contributes to the report (to the pattern of its type and to the
totals, as `Aggregated` says) are exactly: the one row the lookup returned with that
identifier, or nothing if the lookup returned no row with that identifier. -/
theorem fallback_alert_contribution (decodeTx : Json → Except Error Transaction)
    (range : MapRange) (now : Time) (alertIDs : List String) (db : Store) (report : SARReport)
    (h : GenerateSARData decodeTx range now alertIDs db = .ok (some report)) :
    ∃ (alerts : List Alert) (allRelatedTxIDs : List String) (txRows : List Transaction)
      (contributes : Alert → List Transaction),
      db.queryAlerts alertIDs = .ok alerts ∧
      scanAlerts decodeTx alerts = .ok allRelatedTxIDs ∧
      db.queryTransactions (range.keys allRelatedTxIDs) = .ok txRows ∧
      Aggregated
        (alerts.flatMap fun alert => (contributes alert).map fun tx => (alert.AlertType, tx))
        report ∧
      ∀ alert ∈ alerts, mapLookup alert.RuleDetails "matching_transactions" = none →
        alert.TransactionID ∈ range.keys allRelatedTxIDs ∧
        ((∃ tx ∈ txRows, tx.TransactionID = alert.TransactionID ∧ contributes alert = [tx]) ∨
          ((∀ tx ∈ txRows, tx.TransactionID ≠ alert.TransactionID) ∧
            contributes alert = [])) := by
  obtain ⟨alerts, allRelatedTxIDs, txRows, accRows, hq, hs, ht, -, -, hinv⟩ :=
    GenerateSARData_some decodeTx range now alertIDs db report h
  refine ⟨alerts, allRelatedTxIDs, txRows,
    contributed decodeTx (scanTransactions txRows).transactionsMap, hq, hs, ht, ?_, ?_⟩
  · have hfun : (fun alert => (contributed decodeTx (scanTransactions txRows).transactionsMap
        alert).map fun tx => (alert.AlertType, tx)) =
        contribution decodeTx (scanTransactions txRows).transactionsMap := by
      funext alert
      rw [contribution_eq]
    rw [hfun]
    exact hinv
  · intro alert halert hraw
    refine ⟨(range.mem _ _).mpr (mem_scanAlerts_of_no_payload decodeTx alerts _ hs alert halert
      hraw), ?_⟩
    unfold contributed
    rw [currentAlertMatchingTxs_of_no_payload decodeTx _ alert hraw]
    cases hl : mapLookup (scanTransactions txRows).transactionsMap alert.TransactionID with
    | some tx =>
      obtain ⟨hmem, hid⟩ := (mapLookup_scanTransactions txRows alert.TransactionID).1 tx hl
      exact Or.inl ⟨tx, hmem, hid, rfl⟩
    | none =>
      exact Or.inr ⟨(mapLookup_scanTransactions txRows alert.TransactionID).2 hl, rfl⟩

/-- Two alerts without payload: the first contributes its transaction "tx001" of 5000.10,
the second, on a transaction the store does not have, contributes nothing. -/
theorem fallback_alert_contribution_witness :
    GenerateSARData testDecodeTx insertionOrder testNow ["alert001", "alert002"]
      fallbackStore = .ok (some fallbackReport) ∧
    ∃ (alerts : List Alert) (allRelatedTxIDs : List String) (txRows : List Transaction)
      (contributes : Alert → List Transaction),
      fallbackStore.queryAlerts ["alert001", "alert002"] = .ok alerts ∧
      scanAlerts testDecodeTx alerts = .ok allRelatedTxIDs ∧
      fallbackStore.queryTransactions (insertionOrder.keys allRelatedTxIDs) = .ok txRows ∧
      Aggregated
        (alerts.flatMap fun alert => (contributes alert).map fun tx => (alert.AlertType, tx))
        fallbackReport ∧
      ∀ alert ∈ alerts, mapLookup alert.RuleDetails "matching_transactions" = none →
        alert.TransactionID ∈ insertionOrder.keys allRelatedTxIDs ∧
        ((∃ tx ∈ txRows, tx.TransactionID = alert.TransactionID ∧ contributes alert = [tx]) ∨
          ((∀ tx ∈ txRows, tx.TransactionID ≠ alert.TransactionID) ∧
            contributes alert = [])) :=
  ⟨by decide,
    fallback_alert_contribution testDecodeTx insertionOrder testNow ["alert001", "alert002"]
      fallbackStore fallbackReport (by decide)⟩

/-! ## RuleEngine: rule lists -/

/-- An enabled rule with an unknown identifier and a time window that parses is passed
over: the loop goes on as if the rule were not there. -/
theorem EvaluateRules.loop_insert_unknown (parseDuration : String → Except Error Duration)
    (clock : Nat → Time) (tx : Transaction) (history : List Transaction) (rule : Rule)
    (w : Duration) (hen : rule.Enabled = true) (hid : rule.RuleID ∉ builtinRuleIDs)
    (hparse : parseDuration rule.TimeWindow = .ok w) (before after : List Rule) (k : Nat)
    (violations : List RuleViolation) :
    EvaluateRules.loop parseDuration clock tx history (before ++ rule :: after) k violations =
      EvaluateRules.loop parseDuration clock tx history (before ++ after) k violations := by
  simp only [builtinRuleIDs, List.mem_cons, List.mem_singleton, List.not_mem_nil, or_false,
    not_or] at hid
  induction before generalizing k violations with
  | nil =>
    simp [EvaluateRules.loop, Rule.GetTimeWindow, hen, hparse, hid.1, hid.2.1, hid.2.2]
  | cons x before ih =>
    simp only [List.cons_append, EvaluateRules.loop, List.append_eq, ih]

/-- An enabled rule whose time window does not parse ends the loop with the parse error,
unless the rules before it already ended it with an error. -/
theorem EvaluateRules.loop_insert_malformed (parseDuration : String → Except Error Duration)
    (clock : Nat → Time) (tx : Transaction) (history : List Transaction) (rule : Rule)
    (e : Error) (hen : rule.Enabled = true) (hparse : parseDuration rule.TimeWindow = .error e)
    (before after : List Rule) (k : Nat) (violations : List RuleViolation) :
    EvaluateRules.loop parseDuration clock tx history (before ++ rule :: after) k violations =
      match EvaluateRules.loop parseDuration clock tx history before k violations with
      | .error e' => .error e'
      | .ok _ => .error e := by
  induction before generalizing k violations with
  | nil => simp [EvaluateRules.loop, Rule.GetTimeWindow, hen, hparse]
  | cons x before ih =>
    simp only [List.cons_append, EvaluateRules.loop, List.append_eq, ih]
    cases hx : x.Enabled
    · simp
    · simp only [Bool.not_true, Bool.false_eq_true, if_false]
      cases hp : Rule.GetTimeWindow parseDuration x with
      | error err => rfl
      | ok timeWindow =>
        simp only
        split_ifs <;> rfl

/-- C24, as stated, fails: an enabled rule with an unknown identifier and a time-window
string that does not parse ("bogus") changes the result.  Appended to the three rules of
`TestEvaluateRules` it turns the empty result of the test `no_violations` into an error;
put before the single-transaction rule it turns that rule's violation into an error. -/
theorem unknown_rule_with_malformed_window_aborts :
    (unknownRule "bogus").Enabled = true ∧
      (unknownRule "bogus").RuleID ∉ builtinRuleIDs ∧
      EvaluateRules parseTestWindow (fun _ => testNow) (testTx 1000 testNow) testRules
        quietHistory = .ok [] ∧
      (∃ e, EvaluateRules parseTestWindow (fun _ => testNow) (testTx 1000 testNow)
        (testRules ++ [unknownRule "bogus"]) quietHistory = .error e) ∧
      EvaluateRules parseTestWindow (fun _ => testNow) (testTx 15000 testNow) [singleRule] [] =
        .ok [⟨"single_transaction_exceeds_10000", F64.ofInt 15000, F64.ofInt 10000⟩] ∧
      (∃ e, EvaluateRules parseTestWindow (fun _ => testNow) (testTx 15000 testNow)
        [unknownRule "bogus", singleRule] [] = .error e) :=
  ⟨by decide, by decide, by decide, ⟨"time: invalid duration bogus", by decide⟩, by decide,
    ⟨"time: invalid duration bogus", by decide⟩⟩

/-- C24, amended: for every rule list, transaction and history, inserting at any position
an enabled rule whose `RuleID` is none of the three built-in identifiers and whose
time-window string parses as a duration leaves the result of `EvaluateRules` unchanged,
whatever the rule's threshold is; if its time-window string does not parse, the result is
the error of the rules before it when they fail, and otherwise the parse error of the
inserted rule. -/
theorem unknown_rule_skipped_if_window_parses
    (parseDuration : String → Except Error Duration) (clock : Nat → Time) (tx : Transaction)
    (history : List Transaction) (before after : List Rule) (rule : Rule)
    (hen : rule.Enabled = true) (hid : rule.RuleID ∉ builtinRuleIDs) :
    (∀ w, parseDuration rule.TimeWindow = .ok w →
      EvaluateRules parseDuration clock tx (before ++ rule :: after) history =
        EvaluateRules parseDuration clock tx (before ++ after) history) ∧
    (∀ e, parseDuration rule.TimeWindow = .error e →
      EvaluateRules parseDuration clock tx (before ++ rule :: after) history =
        match EvaluateRules parseDuration clock tx before history with
        | .error e' => .error e'
        | .ok _ => .error e) :=
  ⟨fun w hparse => EvaluateRules.loop_insert_unknown parseDuration clock tx history rule w hen
      hid hparse before after 0 [],
    fun e hparse => EvaluateRules.loop_insert_malformed parseDuration clock tx history rule e
      hen hparse before after 0 []⟩

/-- An unknown rule with the window "1h" put between the rules of `TestEvaluateRules` leaves
the violation of the test `single_transaction_exceeds` as it is. -/
theorem unknown_rule_skipped_if_window_parses_witness :
    EvaluateRules parseTestWindow (fun _ => testNow) (testTx 15000 testNow)
        ([singleRule] ++ unknownRule "1h" :: [dailyRule, hourlyRule]) [] =
      EvaluateRules parseTestWindow (fun _ => testNow) (testTx 15000 testNow)
        ([singleRule] ++ [dailyRule, hourlyRule]) [] ∧
    EvaluateRules parseTestWindow (fun _ => testNow) (testTx 15000 testNow)
        ([singleRule] ++ [dailyRule, hourlyRule]) [] =
      .ok [⟨"single_transaction_exceeds_10000", F64.ofInt 15000, F64.ofInt 10000⟩] :=
  ⟨(unknown_rule_skipped_if_window_parses parseTestWindow (fun _ => testNow)
      (testTx 15000 testNow) [] [singleRule] [dailyRule, hourlyRule] (unknownRule "1h") rfl
      (by decide)).1 3600000000000 rfl,
    by decide⟩

/-- The loop fails on a list that holds an enabled rule whose time window does not parse,
with the parse error of such a rule. -/
theorem EvaluateRules.loop_error_of_malformed (parseDuration : String → Except Error Duration)
    (clock : Nat → Time) (tx : Transaction) (history : List Transaction) (rules : List Rule)
    (rule : Rule) (e : Error) (hmem : rule ∈ rules) (hen : rule.Enabled = true)
    (hparse : parseDuration rule.TimeWindow = .error e) (k : Nat)
    (violations : List RuleViolation) :
    ∃ bad ∈ rules, ∃ e', bad.Enabled = true ∧ parseDuration bad.TimeWindow = .error e' ∧
      EvaluateRules.loop parseDuration clock tx history rules k violations = .error e' := by
  induction rules generalizing k violations with
  | nil => simp at hmem
  | cons x rules ih =>
    have hrest : ∀ k' violations', x ≠ rule →
        ∃ bad ∈ x :: rules, ∃ e', bad.Enabled = true ∧
          parseDuration bad.TimeWindow = .error e' ∧
          EvaluateRules.loop parseDuration clock tx history rules k' violations' =
            .error e' := by
      intro k' violations' hne
      have hin : rule ∈ rules := by
        rcases List.mem_cons.mp hmem with h | h
        · exact absurd h.symm hne
        · exact h
      obtain ⟨bad, hbad, e', h1, h2, h3⟩ := ih hin k' violations'
      exact ⟨bad, List.mem_cons_of_mem _ hbad, e', h1, h2, h3⟩
    by_cases hx : x = rule
    · subst hx
      exact ⟨x, List.mem_cons_self _ _, e, hen, hparse, by
        simp [EvaluateRules.loop, Rule.GetTimeWindow, hen, hparse]⟩
    · simp only [EvaluateRules.loop]
      cases hxe : x.Enabled
      · simpa using hrest k violations hx
      · simp only [Bool.not_true, Bool.false_eq_true, if_false]
        cases hp : Rule.GetTimeWindow parseDuration x with
        | error err =>
          exact ⟨x, List.mem_cons_self _ _, err, hxe, hp, rfl⟩
        | ok timeWindow =>
          simp only
          split_ifs <;> exact hrest _ _ hx

/-- C25: if some enabled rule in the list has a time-window string that does not parse as a
duration, `EvaluateRules` returns an error and no violation list, whatever the rules
before it appended; the error is the parse error of an enabled rule of the list. -/
theorem malformed_window_aborts (parseDuration : String → Except Error Duration)
    (clock : Nat → Time) (tx : Transaction) (history : List Transaction) (rules : List Rule)
    (rule : Rule) (e : Error) (hmem : rule ∈ rules) (hen : rule.Enabled = true)
    (hparse : parseDuration rule.TimeWindow = .error e) :
    (∃ e', EvaluateRules parseDuration clock tx rules history = .error e') ∧
    (∀ violations, EvaluateRules parseDuration clock tx rules history ≠ .ok violations) ∧
    ∃ bad ∈ rules, ∃ e', bad.Enabled = true ∧ parseDuration bad.TimeWindow = .error e' ∧
      EvaluateRules parseDuration clock tx rules history = .error e' := by
  obtain ⟨bad, hbad, e', h1, h2, h3⟩ := EvaluateRules.loop_error_of_malformed parseDuration
    clock tx history rules rule e hmem hen hparse 0 []
  refine ⟨⟨e', h3⟩, ?_, bad, hbad, e', h1, h2, h3⟩
  intro violations hok
  unfold EvaluateRules at hok
  rw [h3] at hok
  cases hok

/-- The single-transaction rule fires on an amount of 15000, and a rule after it with the
window "bogus" turns the result into an error. -/
theorem malformed_window_aborts_witness :
    EvaluateRules parseTestWindow (fun _ => testNow) (testTx 15000 testNow) [singleRule] [] =
      .ok [⟨"single_transaction_exceeds_10000", F64.ofInt 15000, F64.ofInt 10000⟩] ∧
    ∃ e', EvaluateRules parseTestWindow (fun _ => testNow) (testTx 15000 testNow)
      [singleRule, { dailyRule with TimeWindow := "bogus" }] [] = .error e' :=
  ⟨by decide,
    (malformed_window_aborts parseTestWindow (fun _ => testNow) (testTx 15000 testNow) []
      [singleRule, { dailyRule with TimeWindow := "bogus" }]
      { dailyRule with TimeWindow := "bogus" } "time: invalid duration bogus" (by decide) rfl
      rfl).1⟩

/-- C26: for every rule list, transaction and history, removing all rules whose `Enabled`
flag is false leaves the result of `EvaluateRules` unchanged. -/
theorem disabled_rules_ignored (parseDuration : String → Except Error Duration)
    (clock : Nat → Time) (tx : Transaction) (history : List Transaction) (rules : List Rule) :
    EvaluateRules parseDuration clock tx (rules.filter fun rule => rule.Enabled) history =
      EvaluateRules parseDuration clock tx rules history := by
  unfold EvaluateRules
  generalize (0 : Nat) = k
  generalize ([] : List RuleViolation) = violations
  induction rules generalizing k violations with
  | nil => rfl
  | cons x rules ih =>
    cases hx : x.Enabled
    · rw [List.filter_cons_of_neg (by simp [hx])]
      simp only [EvaluateRules.loop, hx, Bool.not_false, if_true]
      exact ih k violations
    · rw [List.filter_cons_of_pos (by simp [hx])]
      simp only [EvaluateRules.loop, ih]

/-- A disabled single-transaction rule with the window "bogus" and an exceeded threshold
gives neither a violation nor an error. -/
theorem disabled_rules_ignored_witness :
    EvaluateRules parseTestWindow (fun _ => testNow) (testTx 15000 testNow)
        [{ singleRule with TimeWindow := "bogus", Enabled := false }, dailyRule] [] =
      EvaluateRules parseTestWindow (fun _ => testNow) (testTx 15000 testNow) [dailyRule] [] ∧
    EvaluateRules parseTestWindow (fun _ => testNow) (testTx 15000 testNow) [dailyRule] [] =
      .ok [] :=
  ⟨(disabled_rules_ignored parseTestWindow (fun _ => testNow) (testTx 15000 testNow) []
      [{ singleRule with TimeWindow := "bogus", Enabled := false }, dailyRule]).symm,
    by decide⟩

/-- What the loop appends when it succeeds: at most one violation for each enabled rule, in
the order of the rules, each with the identifier and the threshold of a rule that fired. -/
theorem EvaluateRules.loop_ok (parseDuration : String → Except Error Duration)
    (clock : Nat → Time) (tx : Transaction) (history : List Transaction) (rules : List Rule)
    (k : Nat) (violations result : List RuleViolation)
    (h : EvaluateRules.loop parseDuration clock tx history rules k violations = .ok result) :
    ∃ new, result = violations ++ new ∧
      (new.map fun v => (v.RuleID, v.ThresholdValue)).Sublist
        ((rules.filter fun rule => rule.Enabled).map fun rule =>
          (rule.RuleID, rule.ThresholdValue)) ∧
      ∀ v ∈ new, ∃ rule ∈ rules, rule.Enabled = true ∧ v.RuleID = rule.RuleID ∧
        v.ThresholdValue = rule.ThresholdValue ∧
        ∃ w k', parseDuration rule.TimeWindow = .ok w ∧
          ruleFires (clock k') tx history rule w = true := by
  induction rules generalizing k violations with
  | nil =>
    simp only [EvaluateRules.loop, Except.ok.injEq] at h
    exact ⟨[], by simp [h], by simp, by simp⟩
  | cons x rules ih =>
    -- the rule `x` appends nothing
    have hskip : ∀ k', EvaluateRules.loop parseDuration clock tx history rules k' violations =
        .ok result →
        ∃ new, result = violations ++ new ∧
          (new.map fun v => (v.RuleID, v.ThresholdValue)).Sublist
            (((x :: rules).filter fun rule => rule.Enabled).map fun rule =>
              (rule.RuleID, rule.ThresholdValue)) ∧
          ∀ v ∈ new, ∃ rule ∈ x :: rules, rule.Enabled = true ∧ v.RuleID = rule.RuleID ∧
            v.ThresholdValue = rule.ThresholdValue ∧
            ∃ w k', parseDuration rule.TimeWindow = .ok w ∧
              ruleFires (clock k') tx history rule w = true := by
      intro k' h'
      obtain ⟨new, h1, h2, h3⟩ := ih k' violations h'
      refine ⟨new, h1, ?_, ?_⟩
      · refine h2.trans ?_
        exact List.Sublist.map _ (List.Sublist.filter _ (List.sublist_cons_self x rules))
      · intro v hv
        obtain ⟨rule, hr, rest⟩ := h3 v hv
        exact ⟨rule, List.mem_cons_of_mem _ hr, rest⟩
    -- the rule `x` appends the violation `v`
    have hfire : ∀ (k' : Nat) (actual : F64) (w : Duration) (kf : Nat), x.Enabled = true →
        parseDuration x.TimeWindow = .ok w → ruleFires (clock kf) tx history x w = true →
        EvaluateRules.loop parseDuration clock tx history rules k'
          (violations ++ [⟨x.RuleID, actual, x.ThresholdValue⟩]) = .ok result →
        ∃ new, result = violations ++ new ∧
          (new.map fun v => (v.RuleID, v.ThresholdValue)).Sublist
            (((x :: rules).filter fun rule => rule.Enabled).map fun rule =>
              (rule.RuleID, rule.ThresholdValue)) ∧
          ∀ v ∈ new, ∃ rule ∈ x :: rules, rule.Enabled = true ∧ v.RuleID = rule.RuleID ∧
            v.ThresholdValue = rule.ThresholdValue ∧
            ∃ w k', parseDuration rule.TimeWindow = .ok w ∧
              ruleFires (clock k') tx history rule w = true := by
      intro k' actual w kf hen hparse hf h'
      obtain ⟨new, h1, h2, h3⟩ := ih k' _ h'
      refine ⟨⟨x.RuleID, actual, x.ThresholdValue⟩ :: new, by simp [h1], ?_, ?_⟩
      · rw [List.filter_cons_of_pos (by simp [hen])]
        exact List.Sublist.cons₂ _ h2
      · intro v hv
        rcases List.mem_cons.mp hv with rfl | hv
        · exact ⟨x, List.mem_cons_self _ _, hen, rfl, rfl, w, kf, hparse, hf⟩
        · obtain ⟨rule, hr, rest⟩ := h3 v hv
          exact ⟨rule, List.mem_cons_of_mem _ hr, rest⟩
    simp only [EvaluateRules.loop] at h
    cases hen : x.Enabled
    · simp only [hen, Bool.not_false, if_true] at h
      exact hskip k h
    · simp only [hen, Bool.not_true, Bool.false_eq_true, if_false] at h
      cases hp : Rule.GetTimeWindow parseDuration x with
      | error err => simp [hp] at h
      | ok w =>
        simp only [hp] at h
        have hparse : parseDuration x.TimeWindow = .ok w := hp
        by_cases h1 : x.RuleID = "single_transaction_exceeds_10000"
        · simp only [h1, if_true] at h
          by_cases hc : F64.gt tx.Amount x.ThresholdValue = true
          · simp only [hc, if_true] at h
            have := hfire k tx.Amount w 0 hen hparse (by simp [ruleFires, h1, hc])
            rw [h1] at this
            exact this h
          · simp only [hc, if_false] at h
            exact hskip k h
        · simp only [h1, if_false] at h
          by_cases h2 : x.RuleID = "daily_cumulative_exceeds_50000"
          · simp only [h2, if_true] at h
            by_cases hc : F64.gt (F64.add (sumAmounts (GetTransactionsInWindow (clock k) history
                w)) tx.Amount) x.ThresholdValue = true
            · simp only [hc, if_true] at h
              have := hfire (k + 1) (F64.add (sumAmounts (GetTransactionsInWindow (clock k)
                history w)) tx.Amount) w k hen hparse (by simp [ruleFires, h2, hc])
              rw [h2] at this
              exact this h
            · simp only [hc, if_false] at h
              exact hskip (k + 1) h
          · simp only [h2, if_false] at h
            by_cases h3 : x.RuleID = "more_than_5_transactions_in_1_hour"
            · simp only [h3, if_true] at h
              by_cases hc : F64.gt (F64.ofInt (((GetTransactionsInWindow (clock k) history
                  w).length : Int) + 1)) x.ThresholdValue = true
              · simp only [hc, if_true] at h
                have := hfire (k + 1) (F64.ofInt (((GetTransactionsInWindow (clock k) history
                  w).length : Int) + 1)) w k hen hparse (by simp [ruleFires, h3, hc])
                rw [h3] at this
                exact this h
              · simp only [hc, if_false] at h
                exact hskip (k + 1) h
            · simp only [h3, if_false] at h
              exact hskip k h

/-- The loop appends nothing when no enabled rule fires. -/
theorem EvaluateRules.loop_quiet (parseDuration : String → Except Error Duration)
    (clock : Nat → Time) (tx : Transaction) (history : List Transaction) (rules : List Rule)
    (hquiet : ∀ rule ∈ rules, rule.Enabled = true →
      ∃ w, parseDuration rule.TimeWindow = .ok w ∧
        ∀ k, ruleFires (clock k) tx history rule w = false)
    (k : Nat) (violations : List RuleViolation) :
    EvaluateRules.loop parseDuration clock tx history rules k violations = .ok violations := by
  induction rules generalizing k with
  | nil => rfl
  | cons x rules ih =>
    have hrest := ih fun rule hr => hquiet rule (List.mem_cons_of_mem _ hr)
    simp only [EvaluateRules.loop]
    cases hen : x.Enabled
    · simpa using hrest k
    · obtain ⟨w, hparse, hno⟩ := hquiet x (List.mem_cons_self _ _) hen
      have hk := hno k
      have hp : Rule.GetTimeWindow parseDuration x = .ok w := hparse
      simp only [Bool.not_true, Bool.false_eq_true, if_false, hp]
      unfold ruleFires at hk
      split_ifs at hk ⊢ <;> first | exact hrest _ | simp_all

/-- C27: when `EvaluateRules` succeeds, the violations come in rule order with at most one
violation for each rule: the sequence of the `RuleID`s of the violations is a subsequence
of the sequence of the `RuleID`s of the enabled input rules (and so is the sequence of the
pairs of `RuleID` and `ThresholdValue`), and every violation belongs to an enabled rule that
fired.  When no enabled rule fires and every enabled rule has a time window that parses,
the result is the empty list and no error. -/
theorem violations_in_rule_order (parseDuration : String → Except Error Duration)
    (clock : Nat → Time) (tx : Transaction) (history : List Transaction) (rules : List Rule) :
    (∀ violations, EvaluateRules parseDuration clock tx rules history = .ok violations →
      (violations.map fun v => v.RuleID).Sublist
        ((rules.filter fun rule => rule.Enabled).map fun rule => rule.RuleID) ∧
      (violations.map fun v => (v.RuleID, v.ThresholdValue)).Sublist
        ((rules.filter fun rule => rule.Enabled).map fun rule =>
          (rule.RuleID, rule.ThresholdValue)) ∧
      ∀ v ∈ violations, ∃ rule ∈ rules, rule.Enabled = true ∧ v.RuleID = rule.RuleID ∧
        v.ThresholdValue = rule.ThresholdValue ∧
        ∃ w k, parseDuration rule.TimeWindow = .ok w ∧
          ruleFires (clock k) tx history rule w = true) ∧
    ((∀ rule ∈ rules, rule.Enabled = true →
        ∃ w, parseDuration rule.TimeWindow = .ok w ∧
          ∀ k, ruleFires (clock k) tx history rule w = false) →
      EvaluateRules parseDuration clock tx rules history = .ok []) := by
  constructor
  · intro violations h
    obtain ⟨new, h1, h2, h3⟩ := EvaluateRules.loop_ok parseDuration clock tx history rules 0 []
      violations h
    rw [List.nil_append] at h1
    subst h1
    refine ⟨?_, h2, h3⟩
    have hmap := List.Sublist.map (fun p : String × F64 => p.1) h2
    simpa [List.map_map, Function.comp_def] using hmap
  · intro hquiet
    exact EvaluateRules.loop_quiet parseDuration clock tx history rules hquiet 0 []

/-- The test `no_violations`: an amount of 1000 with one transaction of 1000 two hours ago
fires none of the three rules; and an amount of 15000 gives the one violation of the first
rule, whose identifier sequence is a subsequence of the three. -/
theorem violations_in_rule_order_witness :
    EvaluateRules parseTestWindow (fun _ => testNow) (testTx 1000 testNow) testRules
      quietHistory = .ok [] ∧
    (["single_transaction_exceeds_10000"] : List String).Sublist
      ((testRules.filter fun rule => rule.Enabled).map fun rule => rule.RuleID) :=
  ⟨(violations_in_rule_order parseTestWindow (fun _ => testNow) (testTx 1000 testNow)
      quietHistory testRules).2 (by
        intro rule hr _
        simp only [testRules, List.mem_cons, List.mem_singleton, List.not_mem_nil,
          or_false] at hr
        rcases hr with rfl | rfl | rfl
        · exact ⟨0, rfl, fun _ => by decide⟩
        · exact ⟨86400000000000, rfl, fun _ => by decide⟩
        · exact ⟨3600000000000, rfl, fun _ => by decide⟩),
    ((violations_in_rule_order parseTestWindow (fun _ => testNow) (testTx 15000 testNow) []
      testRules).1 [⟨"single_transaction_exceeds_10000", F64.ofInt 15000, F64.ofInt 10000⟩]
      (by decide)).1⟩

/-! ## Rule validation -/

/-- The loop of `validateRules` fails exactly when some rule that remains has a threshold
`<= 0`, or a time window that does not parse, or an identifier that is in the map or is
that of a rule before it. -/
theorem validateRules.loop_error_iff (parseDuration : String → Except Error Duration)
    (rules : List Rule) (ruleIDs : List (String × Bool)) :
    (∃ e, validateRules.loop parseDuration rules ruleIDs = .error e) ↔
      ∃ before rule after, rules = before ++ rule :: after ∧
        (F64.le rule.ThresholdValue (.fin 0) = true ∨
          (∃ e, parseDuration rule.TimeWindow = .error e) ∨
          rule.RuleID ∈ ruleIDs.map (fun entry => entry.1) ∨
          rule.RuleID ∈ before.map fun r => r.RuleID) := by
  induction rules generalizing ruleIDs with
  | nil => simp [validateRules.loop]
  | cons x rest ih =>
    constructor
    · rintro ⟨e, he⟩
      simp only [validateRules.loop] at he
      by_cases hle : F64.le x.ThresholdValue (.fin 0) = true
      · exact ⟨[], x, rest, rfl, Or.inl hle⟩
      · simp only [hle, if_false] at he
        cases hp : parseDuration x.TimeWindow with
        | error e' => exact ⟨[], x, rest, rfl, Or.inr (Or.inl ⟨e', hp⟩)⟩
        | ok w =>
          simp only [hp] at he
          cases hl : mapLookup ruleIDs x.RuleID with
          | some b =>
            have hin : x.RuleID ∈ ruleIDs.map fun entry => entry.1 := by
              by_contra hnot
              rw [(mapLookup_eq_none_iff _ _).mpr hnot] at hl
              cases hl
            exact ⟨[], x, rest, rfl, Or.inr (Or.inr (Or.inl hin))⟩
          | none =>
            simp only [hl] at he
            obtain ⟨before, rule, after, hsplit, hcond⟩ :=
              (ih (mapSet ruleIDs x.RuleID true)).mp ⟨e, he⟩
            refine ⟨x :: before, rule, after, by rw [hsplit]; rfl, ?_⟩
            rcases hcond with h | h | h | h
            · exact Or.inl h
            · exact Or.inr (Or.inl h)
            · rw [mapSet_keys] at h
              split_ifs at h
              · exact Or.inr (Or.inr (Or.inl h))
              · rcases List.mem_append.mp h with h | h
                · exact Or.inr (Or.inr (Or.inl h))
                · simp only [List.mem_singleton] at h
                  exact Or.inr (Or.inr (Or.inr (by simp [h])))
            · exact Or.inr (Or.inr (Or.inr (by simp [h])))
    · rintro ⟨before, rule, after, hsplit, hcond⟩
      simp only [validateRules.loop]
      by_cases hle : F64.le x.ThresholdValue (.fin 0) = true
      · exact ⟨_, by rw [if_pos hle]⟩
      · simp only [hle, if_false]
        cases hp : parseDuration x.TimeWindow with
        | error e' => exact ⟨_, rfl⟩
        | ok w =>
          simp only
          cases hl : mapLookup ruleIDs x.RuleID with
          | some b => exact ⟨_, rfl⟩
          | none =>
            simp only
            have hnotin := (mapLookup_eq_none_iff _ _).mp hl
            apply (ih (mapSet ruleIDs x.RuleID true)).mpr
            cases before with
            | nil =>
              simp only [List.nil_append, List.cons.injEq] at hsplit
              obtain ⟨rfl, rfl⟩ := hsplit
              rcases hcond with h | h | h | h
              · exact absurd h hle
              · obtain ⟨e', he'⟩ := h
                rw [hp] at he'
                cases he'
              · exact absurd h hnotin
              · simp at h
            | cons y before =>
              simp only [List.cons_append, List.cons.injEq] at hsplit
              obtain ⟨rfl, rfl⟩ := hsplit
              refine ⟨before, rule, after, rfl, ?_⟩
              rcases hcond with h | h | h | h
              · exact Or.inl h
              · exact Or.inr (Or.inl h)
              · refine Or.inr (Or.inr (Or.inl ?_))
                rw [mapSet_keys, if_neg hnotin]
                exact List.mem_append_left _ h
              · simp only [List.map_cons, List.mem_cons] at h
                rcases h with h | h
                · refine Or.inr (Or.inr (Or.inl ?_))
                  rw [mapSet_keys, if_neg hnotin, h]
                  simp
                · exact Or.inr (Or.inr (Or.inr h))

/-- C28: `validateRules` returns an error exactly when some rule in the list has
`ThresholdValue <= 0`, or a `TimeWindow` string that does not parse as a duration, or a
`RuleID` equal to the `RuleID` of an earlier rule in the list; and when validation of the
rules read from the file fails, `LoadRules` returns an error and no rules, while it returns
the rules read when validation passes. -/
theorem validate_rules_error_iff (parseDuration : String → Except Error Duration)
    (rules : List Rule) :
    ((∃ e, validateRules parseDuration rules = .error e) ↔
      ∃ before rule after, rules = before ++ rule :: after ∧
        (F64.le rule.ThresholdValue (.fin 0) = true ∨
          (∃ e, parseDuration rule.TimeWindow = .error e) ∨
          rule.RuleID ∈ before.map fun r => r.RuleID)) ∧
    ∀ (readFile : String → Except Error (List UInt8))
      (unmarshalRules : List UInt8 → Except Error (List Rule)) (filepath : String)
      (data : List UInt8),
      readFile filepath = .ok data → unmarshalRules data = .ok rules →
      (∀ e, validateRules parseDuration rules = .error e →
        LoadRules readFile unmarshalRules parseDuration filepath =
          .error ("rule validation failed: " ++ e)) ∧
      (validateRules parseDuration rules = .ok () →
        LoadRules readFile unmarshalRules parseDuration filepath = .ok rules) := by
  constructor
  · unfold validateRules
    rw [validateRules.loop_error_iff]
    simp only [List.map_nil, List.not_mem_nil, false_or]
  · intro readFile unmarshalRules filepath data hread hparse
    constructor
    · intro e he
      simp only [LoadRules, hread, hparse, he]
    · intro hok
      simp only [LoadRules, hread, hparse, hok]

/-- The three rules of `TestEvaluateRules` pass validation; a list in which the first rule
comes twice, one with a threshold of 0 and one with the window "bogus" are rejected. -/
theorem validate_rules_error_iff_witness :
    validateRules parseTestWindow testRules = .ok () ∧
    (∃ e, validateRules parseTestWindow [singleRule, dailyRule, singleRule] = .error e) ∧
    (∃ e, validateRules parseTestWindow [{ singleRule with ThresholdValue := .fin 0 }] =
      .error e) ∧
    (∃ e, validateRules parseTestWindow [{ singleRule with TimeWindow := "bogus" }] =
      .error e) ∧
    LoadRules (fun _ => .ok []) (fun _ => .ok testRules) parseTestWindow "rules.json" =
      .ok testRules :=
  ⟨by decide,
    (validate_rules_error_iff parseTestWindow [singleRule, dailyRule, singleRule]).1.mpr
      ⟨[singleRule, dailyRule], singleRule, [], rfl, Or.inr (Or.inr (by decide))⟩,
    (validate_rules_error_iff parseTestWindow [{ singleRule with ThresholdValue := .fin 0 }]).1.mpr
      ⟨[], _, [], rfl, Or.inl (by decide)⟩,
    (validate_rules_error_iff parseTestWindow [{ singleRule with TimeWindow := "bogus" }]).1.mpr
      ⟨[], _, [], rfl, Or.inr (Or.inl ⟨"time: invalid duration bogus", by decide⟩)⟩,
    ((validate_rules_error_iff parseTestWindow testRules).2 (fun _ => .ok [])
      (fun _ => .ok testRules) "rules.json" [] rfl rfl).2 (by decide)⟩

theorem F64.le_fin (a b : Int) : F64.le (.fin a) (.fin b) = true ↔ a ≤ b := by
  simp only [F64.le, F64.lt, F64.eq, Bool.or_eq_true, decide_eq_true_eq, F64.fin.injEq]
  omega

theorem F64.negInf_le (x : F64) (hx : x ≠ .nan) : F64.le .negInf x = true := by
  cases x <;> simp_all [F64.le, F64.lt, F64.eq]

theorem F64.le_posInf (x : F64) (hx : x ≠ .nan) : F64.le x .posInf = true := by
  cases x <;> simp_all [F64.le, F64.lt, F64.eq]

theorem F64.round_ne_nan (neg : Bool) (n d : Nat) : F64.round neg n d ≠ .nan := by
  unfold F64.round
  by_cases ho : 1 <<< 2098 ≤ roundNat n d
  · simp only [if_pos ho]
    cases neg <;> simp
  · simp only [if_neg ho]
    simp

/-- The operands of `<=` are not NaN when it holds. -/
theorem F64.ne_nan_of_le (x y : F64) (h : F64.le x y = true) : x ≠ .nan ∧ y ≠ .nan := by
  cases x <;> cases y <;> simp_all [F64.le, F64.lt, F64.eq]

/-- Rounding a signed quotient to a `float64` is monotone for `<=`: the quotients are
`± N1 / d1` and `± N2 / d2`, negative where the flag is set. -/
theorem F64.round_mono (n1 n2 : Bool) (N1 d1 N2 d2 : Nat) (h1 : 0 < d1) (h2 : 0 < d2)
    (h : (if n1 then -(N1 : Int) else (N1 : Int)) * d2 ≤
      (if n2 then -(N2 : Int) else (N2 : Int)) * d1) :
    F64.le (F64.round n1 N1 d1) (F64.round n2 N2 d2) = true := by
  cases n1 <;> cases n2
  · simp only [Bool.false_eq_true, if_false] at h
    exact F64.round_le_round _ _ _ _ h1 h2 (by exact_mod_cast h)
  · simp only [Bool.false_eq_true, if_false, if_true] at h
    have hA : (0 : Int) ≤ (N1 : Int) * d2 := by positivity
    have hB : (0 : Int) ≤ (N2 : Int) * d1 := by positivity
    rw [neg_mul] at h
    have hA0 : (N1 : Int) * d2 = 0 := by linarith
    have hB0 : (N2 : Int) * d1 = 0 := by linarith
    have hN1z : N1 = 0 := by
      rcases mul_eq_zero.mp hA0 with h0 | h0
      · exact_mod_cast h0
      · have : d2 = 0 := by exact_mod_cast h0
        omega
    have hN2z : N2 = 0 := by
      rcases mul_eq_zero.mp hB0 with h0 | h0
      · exact_mod_cast h0
      · have : d1 = 0 := by exact_mod_cast h0
        omega
    subst hN1z hN2z
    have hz1 : ¬ 1 <<< 2098 ≤ 0 := by decide
    simp only [F64.round, roundNat_zero, if_neg hz1, Bool.false_eq_true, if_false, if_true,
      Nat.cast_zero, neg_zero, F64.le_fin, le_refl]
  · have hne := F64.round_ne_nan false N2 d2
    unfold F64.round at hne ⊢
    simp only [Bool.false_eq_true, if_false, if_true] at hne ⊢
    by_cases ho1 : 1 <<< 2098 ≤ roundNat N1 d1
    · rw [if_pos ho1]
      exact F64.negInf_le _ hne
    · rw [if_neg ho1]
      by_cases ho2 : 1 <<< 2098 ≤ roundNat N2 d2
      · rw [if_pos ho2]
        exact F64.le_posInf _ (by simp)
      · rw [if_neg ho2, F64.le_fin]
        omega
  · simp only [if_true] at h
    have hm : roundNat N2 d2 ≤ roundNat N1 d1 :=
      roundNat_mono _ _ _ _ h2 h1 (by
        have : (N2 : Int) * d1 ≤ (N1 : Int) * d2 := by linarith
        exact_mod_cast this)
    unfold F64.round
    simp only [if_true]
    by_cases ho1 : 1 <<< 2098 ≤ roundNat N1 d1
    · rw [if_pos ho1]
      apply F64.negInf_le
      by_cases ho2 : 1 <<< 2098 ≤ roundNat N2 d2
      · rw [if_pos ho2]
        simp
      · rw [if_neg ho2]
        simp
    · rw [if_neg ho1]
      have ho2 : ¬ 1 <<< 2098 ≤ roundNat N2 d2 := fun hc => ho1 (le_trans hc hm)
      rw [if_neg ho2, F64.le_fin]
      omega

/-- The magnitude and the sign that `*` and `/` round are those of the product. -/
theorem signed_natAbs (a : Int) (m : Nat) (c : Int) (hc : 0 < c) :
    (if decide (a * c < 0) = true then -((a.natAbs * m : Nat) : Int)
      else ((a.natAbs * m : Nat) : Int)) = a * m := by
  have hsign : a * c < 0 ↔ a < 0 := by
    constructor
    · intro h
      by_contra hn
      have : 0 ≤ a * c := mul_nonneg (by omega) (le_of_lt hc)
      omega
    · intro h
      exact mul_neg_of_neg_of_pos h hc
  simp only [decide_eq_true_eq, hsign, Nat.cast_mul, Int.natCast_natAbs]
  split_ifs with h
  · rw [abs_of_neg h]
    ring
  · rw [abs_of_nonneg (by omega)]

/-- Division by a positive number is monotone for `<=`. -/
theorem F64.div_const_mono (x y : F64) (c : Int) (hc : 0 < c) (h : F64.le x y = true) :
    F64.le (F64.div x (.fin c)) (F64.div y (.fin c)) = true := by
  have hc0 : c ≠ 0 := by omega
  have hcn : ¬ c < 0 := by omega
  have hneg : F64.div .negInf (.fin c) = .negInf := by simp [F64.div, hcn]
  have hpos : F64.div .posInf (.fin c) = .posInf := by simp [F64.div, hcn]
  have hfin : ∀ a : Int, F64.div (.fin a) (.fin c) =
      F64.round (decide (a * c < 0)) (a.natAbs <<< 1074) c.natAbs := by
    intro a
    simp only [F64.div, hc0, if_false]
  obtain ⟨hx, hy⟩ := F64.ne_nan_of_le x y h
  cases x with
  | nan => exact absurd rfl hx
  | negInf =>
    rw [hneg]
    apply F64.negInf_le
    cases y with
    | nan => exact absurd rfl hy
    | negInf => rw [hneg]; simp
    | posInf => rw [hpos]; simp
    | fin b => rw [hfin]; exact F64.round_ne_nan _ _ _
  | posInf =>
    cases y with
    | posInf => rw [hpos]; rfl
    | _ => simp [F64.le, F64.lt, F64.eq] at h
  | fin a =>
    cases y with
    | nan => exact absurd rfl hy
    | negInf => simp [F64.le, F64.lt, F64.eq] at h
    | posInf =>
      rw [hpos, hfin]
      exact F64.le_posInf _ (F64.round_ne_nan _ _ _)
    | fin b =>
      rw [F64.le_fin] at h
      rw [hfin, hfin]
      apply F64.round_mono _ _ _ _ _ _ (by omega) (by omega)
      rw [Nat.shiftLeft_eq, Nat.shiftLeft_eq, signed_natAbs a _ c hc, signed_natAbs b _ c hc]
      exact mul_le_mul_of_nonneg_right
        (mul_le_mul_of_nonneg_right h (Nat.cast_nonneg _)) (Nat.cast_nonneg _)

/-- Multiplication by a positive number is monotone for `<=`. -/
theorem F64.mul_const_mono (x y : F64) (c : Int) (hc : 0 < c) (h : F64.le x y = true) :
    F64.le (F64.mul x (.fin c)) (F64.mul y (.fin c)) = true := by
  have hc0 : c ≠ 0 := by omega
  have hcn : ¬ c < 0 := by omega
  have hneg : F64.mul .negInf (.fin c) = .negInf := by simp [F64.mul, hc0, hcn]
  have hpos : F64.mul .posInf (.fin c) = .posInf := by simp [F64.mul, hc0, hcn]
  have hfin : ∀ a : Int, F64.mul (.fin a) (.fin c) =
      F64.round (decide (a * c < 0)) (a.natAbs * c.natAbs) (1 <<< 1074) := fun a => rfl
  obtain ⟨hx, hy⟩ := F64.ne_nan_of_le x y h
  cases x with
  | nan => exact absurd rfl hx
  | negInf =>
    rw [hneg]
    apply F64.negInf_le
    cases y with
    | nan => exact absurd rfl hy
    | negInf => rw [hneg]; simp
    | posInf => rw [hpos]; simp
    | fin b => rw [hfin]; exact F64.round_ne_nan _ _ _
  | posInf =>
    cases y with
    | posInf => rw [hpos]; rfl
    | _ => simp [F64.le, F64.lt, F64.eq] at h
  | fin a =>
    cases y with
    | nan => exact absurd rfl hy
    | negInf => simp [F64.le, F64.lt, F64.eq] at h
    | posInf =>
      rw [hpos, hfin]
      exact F64.le_posInf _ (F64.round_ne_nan _ _ _)
    | fin b =>
      rw [F64.le_fin] at h
      rw [hfin, hfin]
      have hp : 0 < 1 <<< 1074 := by rw [Nat.shiftLeft_eq]; positivity
      apply F64.round_mono _ _ _ _ _ _ hp hp
      rw [signed_natAbs a _ c hc, signed_natAbs b _ c hc]
      exact mul_le_mul_of_nonneg_right
        (mul_le_mul_of_nonneg_right h (Nat.cast_nonneg _)) (Nat.cast_nonneg _)

/-- Addition to a number is monotone for `<=`. -/
theorem F64.add_const_mono (c : Int) (x y : F64) (h : F64.le x y = true) :
    F64.le (F64.add (.fin c) x) (F64.add (.fin c) y) = true := by
  have hneg : F64.add (.fin c) .negInf = .negInf := rfl
  have hpos : F64.add (.fin c) .posInf = .posInf := rfl
  have hfin : ∀ a : Int, F64.add (.fin c) (.fin a) =
      F64.round (decide (c + a < 0)) (c + a).natAbs 1 := fun a => rfl
  obtain ⟨hx, hy⟩ := F64.ne_nan_of_le x y h
  cases x with
  | nan => exact absurd rfl hx
  | negInf =>
    rw [hneg]
    apply F64.negInf_le
    cases y with
    | nan => exact absurd rfl hy
    | negInf => rw [hneg]; simp
    | posInf => rw [hpos]; simp
    | fin b => rw [hfin]; exact F64.round_ne_nan _ _ _
  | posInf =>
    cases y with
    | posInf => rw [hpos]; rfl
    | _ => simp [F64.le, F64.lt, F64.eq] at h
  | fin a =>
    cases y with
    | nan => exact absurd rfl hy
    | negInf => simp [F64.le, F64.lt, F64.eq] at h
    | posInf =>
      rw [hpos, hfin]
      exact F64.le_posInf _ (F64.round_ne_nan _ _ _)
    | fin b =>
      rw [F64.le_fin] at h
      rw [hfin, hfin]
      apply F64.round_mono _ _ _ _ _ _ (by norm_num) (by norm_num)
      have hs : ∀ z : Int, (if decide (z < 0) = true then -((z.natAbs : Nat) : Int)
          else ((z.natAbs : Nat) : Int)) = z := by
        intro z
        simp only [decide_eq_true_eq]
        split_ifs <;> omega
      rw [hs, hs]
      simp only [Nat.cast_one, mul_one]
      omega

/-- Go's `math.Min` with a number is monotone for `<=`. -/
theorem F64.min_const_mono (x y : F64) (c : Int) (h : F64.le x y = true) :
    F64.le (F64.min x (.fin c)) (F64.min y (.fin c)) = true := by
  obtain ⟨hx, hy⟩ := F64.ne_nan_of_le x y h
  cases x with
  | nan => exact absurd rfl hx
  | negInf =>
    apply F64.negInf_le
    cases y with
    | nan => exact absurd rfl hy
    | negInf => simp [F64.min]
    | posInf => simp [F64.min, F64.lt]
    | fin b =>
      simp only [F64.min]
      split_ifs <;> simp
  | posInf =>
    cases y <;> simp_all [F64.le, F64.lt, F64.eq, F64.min]
  | fin a =>
    cases y with
    | nan => exact absurd rfl hy
    | negInf => simp [F64.le, F64.lt, F64.eq] at h
    | posInf =>
      simp only [F64.min, F64.lt, Bool.false_eq_true, if_false, decide_eq_true_eq]
      split_ifs with hac
      · rw [F64.le_fin]
        omega
      · rw [F64.le_fin]
    | fin b =>
      rw [F64.le_fin] at h
      simp only [F64.min, F64.lt, decide_eq_true_eq]
      split_ifs <;> rw [F64.le_fin] <;> omega

/-- From the second operand of `math.Min` on, `math.Min` is that operand. -/
theorem F64.min_of_le (x : F64) (c : Int) (h : F64.le (.fin c) x = true) :
    F64.min x (.fin c) = .fin c := by
  cases x with
  | nan => simp [F64.le, F64.lt, F64.eq] at h
  | negInf => simp [F64.le, F64.lt, F64.eq] at h
  | posInf => simp [F64.min, F64.lt]
  | fin a =>
    rw [F64.le_fin] at h
    have : ¬ a < c := by omega
    simp [F64.min, F64.lt, this]

/-- The fused multiply-add of two numbers is monotone for `<=` in the number added. -/
theorem F64.fma_add_mono (a b : Int) (x y : F64) (h : F64.le x y = true) :
    F64.le (F64.fma (.fin a) (.fin b) x) (F64.fma (.fin a) (.fin b) y) = true := by
  have hneg : F64.fma (.fin a) (.fin b) .negInf = .negInf := rfl
  have hpos : F64.fma (.fin a) (.fin b) .posInf = .posInf := rfl
  have hfin : ∀ c : Int, F64.fma (.fin a) (.fin b) (.fin c) =
      F64.round (decide (a * b + c * ((1 <<< 1074 : Nat) : Int) < 0))
        (a * b + c * ((1 <<< 1074 : Nat) : Int)).natAbs (1 <<< 1074) := fun c => rfl
  obtain ⟨hx, hy⟩ := F64.ne_nan_of_le x y h
  cases x with
  | nan => exact absurd rfl hx
  | negInf =>
    rw [hneg]
    apply F64.negInf_le
    cases y with
    | nan => exact absurd rfl hy
    | negInf => rw [hneg]; simp
    | posInf => rw [hpos]; simp
    | fin d => rw [hfin]; exact F64.round_ne_nan _ _ _
  | posInf =>
    cases y with
    | posInf => rw [hpos]; rfl
    | _ => simp [F64.le, F64.lt, F64.eq] at h
  | fin c =>
    cases y with
    | nan => exact absurd rfl hy
    | negInf => simp [F64.le, F64.lt, F64.eq] at h
    | posInf =>
      rw [hpos, hfin]
      exact F64.le_posInf _ (F64.round_ne_nan _ _ _)
    | fin d =>
      rw [F64.le_fin] at h
      rw [hfin, hfin]
      have hp : 0 < 1 <<< 1074 := by rw [Nat.shiftLeft_eq]; positivity
      apply F64.round_mono _ _ _ _ _ _ hp hp
      have hs : ∀ z : Int, (if decide (z < 0) = true then -((z.natAbs : Nat) : Int)
          else ((z.natAbs : Nat) : Int)) = z := by
        intro z
        simp only [decide_eq_true_eq]
        split_ifs <;> omega
      rw [hs, hs]
      have hu : (0 : Int) ≤ ((1 <<< 1074 : Nat) : Int) := Nat.cast_nonneg _
      have h1 : c * ((1 <<< 1074 : Nat) : Int) ≤ d * ((1 <<< 1074 : Nat) : Int) :=
        mul_le_mul_of_nonneg_right h hu
      exact mul_le_mul_of_nonneg_right (by linarith) hu

/-- The fused multiply-add with a positive factor and a number added is monotone for `<=`
in the other factor. -/
theorem F64.fma_mul_mono (c w : Int) (hc : 0 < c) (x y : F64) (h : F64.le x y = true) :
    F64.le (F64.fma x (.fin c) (.fin w)) (F64.fma y (.fin c) (.fin w)) = true := by
  have hc0 : c ≠ 0 := by omega
  have hcn : ¬ c < 0 := by omega
  have hneg : F64.fma .negInf (.fin c) (.fin w) = .negInf := by
    simp [F64.fma, F64.mul, F64.add, hc0, hcn]
  have hpos : F64.fma .posInf (.fin c) (.fin w) = .posInf := by
    simp [F64.fma, F64.mul, F64.add, hc0, hcn]
  have hfin : ∀ a : Int, F64.fma (.fin a) (.fin c) (.fin w) =
      F64.round (decide (a * c + w * ((1 <<< 1074 : Nat) : Int) < 0))
        (a * c + w * ((1 <<< 1074 : Nat) : Int)).natAbs (1 <<< 1074) := fun a => rfl
  obtain ⟨hx, hy⟩ := F64.ne_nan_of_le x y h
  cases x with
  | nan => exact absurd rfl hx
  | negInf =>
    rw [hneg]
    apply F64.negInf_le
    cases y with
    | nan => exact absurd rfl hy
    | negInf => rw [hneg]; simp
    | posInf => rw [hpos]; simp
    | fin b => rw [hfin]; exact F64.round_ne_nan _ _ _
  | posInf =>
    cases y with
    | posInf => rw [hpos]; rfl
    | _ => simp [F64.le, F64.lt, F64.eq] at h
  | fin a =>
    cases y with
    | nan => exact absurd rfl hy
    | negInf => simp [F64.le, F64.lt, F64.eq] at h
    | posInf =>
      rw [hpos, hfin]
      exact F64.le_posInf _ (F64.round_ne_nan _ _ _)
    | fin b =>
      rw [F64.le_fin] at h
      rw [hfin, hfin]
      have hp : 0 < 1 <<< 1074 := by rw [Nat.shiftLeft_eq]; positivity
      apply F64.round_mono _ _ _ _ _ _ hp hp
      have hs : ∀ z : Int, (if decide (z < 0) = true then -((z.natAbs : Nat) : Int)
          else ((z.natAbs : Nat) : Int)) = z := by
        intro z
        simp only [decide_eq_true_eq]
        split_ifs <;> omega
      rw [hs, hs]
      have hu : (0 : Int) ≤ ((1 <<< 1074 : Nat) : Int) := Nat.cast_nonneg _
      have h1 : a * c ≤ b * c := mul_le_mul_of_nonneg_right h (le_of_lt hc)
      exact mul_le_mul_of_nonneg_right (by linarith) hu

/-- The sum `w*c + x*d` of two products, with `w*c` a number and `d` positive, is monotone
for `<=` in `x`, however the build evaluates it. -/
theorem F64.addProducts_mono (fusion : Fusion) (w c wc d : Int)
    (hwc : F64.mul (.fin w) (.fin c) = .fin wc) (hd : 0 < d) (x y : F64)
    (h : F64.le x y = true) :
    F64.le (F64.addProducts fusion (.fin w) (.fin c) x (.fin d))
      (F64.addProducts fusion (.fin w) (.fin c) y (.fin d)) = true := by
  cases fusion with
  | separate =>
    simp only [F64.addProducts, hwc]
    exact F64.add_const_mono wc _ _ (F64.mul_const_mono _ _ _ hd h)
  | firstProduct =>
    simp only [F64.addProducts]
    exact F64.fma_add_mono w c _ _ (F64.mul_const_mono _ _ _ hd h)
  | secondProduct =>
    simp only [F64.addProducts, hwc]
    exact F64.fma_mul_mono d wc hd _ _ h

/-! ## AlertGenerator: the score as a function of the amount -/

/-- A number that is not NaN and not an infinity is finite. -/
theorem F64.exists_fin (x : F64) (h1 : x ≠ .nan) (h2 : x ≠ .posInf) (h3 : x ≠ .negInf) :
    ∃ c, x = .fin c := by
  cases x with
  | fin c => exact ⟨c, rfl⟩
  | _ => simp_all

/-- A number above zero that is not `+Inf` is a positive finite number. -/
theorem F64.exists_pos_fin (x : F64) (h1 : F64.lt (.fin 0) x = true) (h2 : x ≠ .posInf) :
    ∃ c, 0 < c ∧ x = .fin c := by
  cases x with
  | fin c => exact ⟨c, by simpa [F64.lt] using h1, rfl⟩
  | _ => simp_all [F64.lt]

/-- The score of `CalculateRiskScore` for the weight of a valid priority. -/
theorem CalculateRiskScore_ok (fusion : Fusion) (amount : F64) (p : PriorityLevel)
    (hp : p = Medium ∨ p = High ∨ p = Critical) :
    CalculateRiskScore fusion amount p =
      .ok (F64.min
        (F64.addProducts fusion (priorityWeight p) (F64.ofRat 4 5)
          (F64.mul (F64.div (F64.min amount (F64.ofInt 1000000)) (F64.ofInt 1000000))
            (F64.ofInt 20))
          (F64.ofRat 1 5))
        (F64.ofInt 100)) := by
  rcases hp with h | h | h <;> subst h <;> rfl

/-- The score of `CalculateRiskScore` is monotone in the amount for `<=`, and does not
change from 1000000 on. -/
theorem CalculateRiskScore_mono (fusion : Fusion) (a b : F64) (p : PriorityLevel)
    (hp : p = Medium ∨ p = High ∨ p = Critical) (h : F64.le a b = true) :
    ∃ s t, CalculateRiskScore fusion a p = .ok s ∧ CalculateRiskScore fusion b p = .ok t ∧
      F64.le s t = true ∧ (F64.le (F64.ofInt 1000000) a = true → s = t) := by
  obtain ⟨m, hm, hM⟩ := F64.exists_pos_fin (F64.ofInt 1000000) (by decide) (by decide)
  obtain ⟨c20, h20, hC20⟩ := F64.exists_pos_fin (F64.ofInt 20) (by decide) (by decide)
  obtain ⟨c02, h02, hC02⟩ := F64.exists_pos_fin (F64.ofRat 1 5) (by decide) (by decide)
  obtain ⟨c100, hC100⟩ := F64.exists_fin (F64.ofInt 100) (by decide) (by decide) (by decide)
  obtain ⟨c08, hC08⟩ := F64.exists_fin (F64.ofRat 4 5) (by decide) (by decide) (by decide)
  obtain ⟨w, hW⟩ : ∃ w, priorityWeight p = .fin w := by
    rcases hp with h | h | h <;> subst h <;>
      exact F64.exists_fin _ (by decide) (by decide) (by decide)
  obtain ⟨wc, hWC⟩ : ∃ wc, F64.mul (priorityWeight p) (F64.ofRat 4 5) = .fin wc := by
    rcases hp with h | h | h <;> subst h <;>
      exact F64.exists_fin _ (by decide) (by decide) (by decide)
  rw [hW, hC08] at hWC
  refine ⟨_, _, CalculateRiskScore_ok fusion a p hp, CalculateRiskScore_ok fusion b p hp, ?_,
    ?_⟩
  · rw [hM, hC20, hC02, hC100, hW, hC08]
    apply F64.min_const_mono
    apply F64.addProducts_mono fusion w c08 wc c02 hWC h02
    apply F64.mul_const_mono _ _ _ h20
    apply F64.div_const_mono _ _ _ hm
    exact F64.min_const_mono _ _ _ h
  · intro ha
    rw [hM] at ha ⊢
    have hb : F64.le (.fin m) b = true := by
      obtain ⟨-, hbn⟩ := F64.ne_nan_of_le a b h
      cases a with
      | nan => simp [F64.le, F64.lt, F64.eq] at ha
      | negInf => simp [F64.le, F64.lt, F64.eq] at ha
      | posInf =>
        cases b with
        | posInf => rfl
        | _ => simp [F64.le, F64.lt, F64.eq] at h
      | fin z =>
        cases b with
        | nan => exact absurd rfl hbn
        | negInf => simp [F64.le, F64.lt, F64.eq] at h
        | posInf => rfl
        | fin y =>
          rw [F64.le_fin] at ha h ⊢
          omega
    rw [F64.min_of_le a m ha, F64.min_of_le b m hb]

/-- C30: for each of the four valid alert types and any two amounts `a <= b`, `GenerateAlert`
builds an alert for both, and the score for `a` is `<=` the score for `b`; when
`a >= 1000000` the two scores are equal.  This holds however the build evaluates the sum of
the score. -/
theorem score_monotone_in_amount (fusion : Fusion) (alertType : String)
    (hvalid : alertType ∈ validAlertTypes)
    (newID₁ newID₂ : String) (now₁ now₂ : Time) (tx₁ tx₂ : Transaction)
    (ruleDetails₁ ruleDetails₂ : JSONMap) (h : F64.le tx₁.Amount tx₂.Amount = true) :
    ∃ alert₁ alert₂,
      GenerateAlert fusion newID₁ now₁ tx₁ alertType ruleDetails₁ = .ok alert₁ ∧
      GenerateAlert fusion newID₂ now₂ tx₂ alertType ruleDetails₂ = .ok alert₂ ∧
      F64.le alert₁.Score alert₂.Score = true ∧
      (F64.le (F64.ofInt 1000000) tx₁.Amount = true → alert₁.Score = alert₂.Score) := by
  obtain ⟨p, hprio, hp⟩ : ∃ p, getPriorityForAlertType alertType = .ok p ∧
      (p = Medium ∨ p = High ∨ p = Critical) := by
    simp only [validAlertTypes, List.mem_cons, List.mem_singleton, List.not_mem_nil,
      or_false] at hvalid
    rcases hvalid with h | h | h | h <;> subst h
    · exact ⟨Medium, rfl, Or.inl rfl⟩
    · exact ⟨High, rfl, Or.inr (Or.inl rfl)⟩
    · exact ⟨Critical, rfl, Or.inr (Or.inr rfl)⟩
    · exact ⟨Medium, rfl, Or.inl rfl⟩
  obtain ⟨s, t, hs, ht, hle, hconst⟩ := CalculateRiskScore_mono fusion tx₁.Amount tx₂.Amount p hp h
  simp only [GenerateAlert, hprio, hs, ht]
  exact ⟨_, _, rfl, rfl, hle, hconst⟩

/-- The amounts 50000 and 60000 with the type `ANOMALY_DETECTED`: the scores are 60.2 and
60.24; and the amounts 1000000 and 2000000 both give the score 64. -/
theorem score_monotone_in_amount_witness :
    F64.le (testTx 50000 testNow).Amount (testTx 60000 testNow).Amount = true ∧
    (∃ alert₁ alert₂,
      GenerateAlert .separate "a" testNow (testTx 50000 testNow) "ANOMALY_DETECTED" [] =
        .ok alert₁ ∧
      GenerateAlert .separate "b" testNow (testTx 60000 testNow) "ANOMALY_DETECTED" [] =
        .ok alert₂ ∧
      F64.le alert₁.Score alert₂.Score = true ∧
      (F64.le (F64.ofInt 1000000) (testTx 50000 testNow).Amount = true →
        alert₁.Score = alert₂.Score)) ∧
    CalculateRiskScore .separate (F64.ofInt 50000) High = .ok (F64.ofRat 301 5) ∧
    CalculateRiskScore .separate (F64.ofInt 60000) High = .ok (F64.ofRat 1506 25) ∧
    CalculateRiskScore .separate (F64.ofInt 1000000) High = .ok (F64.ofInt 64) ∧
    CalculateRiskScore .separate (F64.ofInt 2000000) High = .ok (F64.ofInt 64) :=
  ⟨by decide,
    score_monotone_in_amount .separate "ANOMALY_DETECTED" (by decide) "a" "b" testNow testNow
      (testTx 50000 testNow) (testTx 60000 testNow) [] [] (by decide),
    by decide, by decide, by decide, by decide⟩

/-! ## SARGenerator: subject and dates -/

/-- The effect of the loop over `currentAlertMatchingTxs` on the two dates. -/
theorem foldl_addTransaction_dates (txs : List Transaction)
    (pattern : SuspiciousActivityPattern) (agg : Aggregation) :
    (txs.foldl addTransaction (pattern, agg)).2.minStartDate =
      txs.foldl (fun m tx => if Time.Before tx.Timestamp m then tx.Timestamp else m)
        agg.minStartDate ∧
    (txs.foldl addTransaction (pattern, agg)).2.maxEndDate =
      txs.foldl (fun m tx => if Time.After tx.Timestamp m then tx.Timestamp else m)
        agg.maxEndDate := by
  induction txs generalizing pattern agg with
  | nil => exact ⟨rfl, rfl⟩
  | cons tx txs ih =>
    rw [List.foldl_cons]
    obtain ⟨h1, h2⟩ := ih (addTransaction (pattern, agg) tx).1 (addTransaction (pattern, agg) tx).2
    exact ⟨h1, h2⟩

/-- One turn of the aggregation loop: the alert has its slice of transactions; the subject
is written from the account resolved for the alert if none was written before and that
account has an identifier; the dates move over the transactions of the slice. -/
theorem aggregateAlert_ok (decodeTx : Json → Except Error Transaction)
    (transactionsMap : List (String × Transaction)) (accountsMap : List (String × Account))
    (allRelatedTxIDs : List String) (agg agg' : Aggregation) (alert : Alert)
    (h : aggregateAlert decodeTx transactionsMap accountsMap allRelatedTxIDs agg alert =
      .ok agg') :
    (agg'.isFirstRow = (agg.isFirstRow &&
      decide ((associatedAccount transactionsMap accountsMap allRelatedTxIDs alert).AccountID =
        ""))) ∧
    ((agg'.report.SubjectName, agg'.report.SubjectAddress, agg'.report.SubjectDateOfBirth) =
      if agg.isFirstRow = true ∧
          (associatedAccount transactionsMap accountsMap allRelatedTxIDs alert).AccountID ≠ ""
      then
        ((associatedAccount transactionsMap accountsMap allRelatedTxIDs alert).HolderName,
          (associatedAccount transactionsMap accountsMap allRelatedTxIDs alert).Address,
          (associatedAccount transactionsMap accountsMap allRelatedTxIDs alert).DateOfBirth)
      else (agg.report.SubjectName, agg.report.SubjectAddress,
        agg.report.SubjectDateOfBirth)) ∧
    agg'.minStartDate =
      (contributed decodeTx transactionsMap alert).foldl
        (fun m tx => if Time.Before tx.Timestamp m then tx.Timestamp else m)
        agg.minStartDate ∧
    agg'.maxEndDate =
      (contributed decodeTx transactionsMap alert).foldl
        (fun m tx => if Time.After tx.Timestamp m then tx.Timestamp else m)
        agg.maxEndDate := by
  unfold aggregateAlert at h
  simp only at h
  unfold contributed
  cases hc : currentAlertMatchingTxs decodeTx transactionsMap alert with
  | error e => simp [hc] at h
  | ok txs =>
    simp only [hc, Except.ok.injEq] at h
    generalize hacc : associatedAccount transactionsMap accountsMap allRelatedTxIDs alert =
      account at h ⊢
    by_cases hfirst : agg.isFirstRow = true ∧ account.AccountID ≠ ""
    · have hcond : (agg.isFirstRow && decide (account.AccountID ≠ "")) = true := by
        simp [hfirst.1, hfirst.2]
      simp only [hcond, if_true] at h
      obtain ⟨-, hr, hf⟩ := foldl_addTransaction txs
        { (mapLookup agg.report.Patterns alert.AlertType).getD SuspiciousActivityPattern.zero
          with PatternDescription := alert.AlertType }
        { agg with
          report := { agg.report with
            SubjectName := account.HolderName
            SubjectAddress := account.Address
            SubjectDateOfBirth := account.DateOfBirth }
          isFirstRow := false }
      obtain ⟨hd1, hd2⟩ := foldl_addTransaction_dates txs
        { (mapLookup agg.report.Patterns alert.AlertType).getD SuspiciousActivityPattern.zero
          with PatternDescription := alert.AlertType }
        { agg with
          report := { agg.report with
            SubjectName := account.HolderName
            SubjectAddress := account.Address
            SubjectDateOfBirth := account.DateOfBirth }
          isFirstRow := false }
      rw [← h]
      simp only [if_pos hfirst, hr, hf, hd1, hd2]
      simp [hfirst.1, hfirst.2]
    · have hcond : (agg.isFirstRow && decide (account.AccountID ≠ "")) = false := by
        by_cases h1 : agg.isFirstRow = true
        · have h2 : account.AccountID = "" := by
            by_contra hne
            exact hfirst ⟨h1, hne⟩
          simp [h2]
        · simp [h1]
      simp only [hcond, Bool.false_eq_true, if_false] at h
      obtain ⟨-, hr, hf⟩ := foldl_addTransaction txs
        { (mapLookup agg.report.Patterns alert.AlertType).getD SuspiciousActivityPattern.zero
          with PatternDescription := alert.AlertType } agg
      obtain ⟨hd1, hd2⟩ := foldl_addTransaction_dates txs
        { (mapLookup agg.report.Patterns alert.AlertType).getD SuspiciousActivityPattern.zero
          with PatternDescription := alert.AlertType } agg
      rw [← h]
      simp only [if_neg hfirst, hr, hf, hd1, hd2, true_and, and_true]
      by_cases h1 : agg.isFirstRow = true
      · have h2 : account.AccountID = "" := by
          by_contra hne
          exact hfirst ⟨h1, hne⟩
        simp [h1, h2]
      · simp [h1]

/-- The aggregation loop: the subject is that of the first account with an identifier that
is resolved for an alert, if none was written before the loop; the dates move over the
transactions that the alerts contribute, in order. -/
theorem aggregateAlerts_ok (decodeTx : Json → Except Error Transaction)
    (transactionsMap : List (String × Transaction)) (accountsMap : List (String × Account))
    (allRelatedTxIDs : List String) (alerts : List Alert) (agg agg' : Aggregation)
    (h : aggregateAlerts decodeTx transactionsMap accountsMap allRelatedTxIDs agg alerts =
      .ok agg') :
    ((agg'.report.SubjectName, agg'.report.SubjectAddress, agg'.report.SubjectDateOfBirth) =
      match (if agg.isFirstRow = true then
          (alerts.map (associatedAccount transactionsMap accountsMap allRelatedTxIDs)).find?
            fun account => decide (account.AccountID ≠ "")
        else none) with
      | some account => (account.HolderName, account.Address, account.DateOfBirth)
      | none => (agg.report.SubjectName, agg.report.SubjectAddress,
        agg.report.SubjectDateOfBirth)) ∧
    agg'.minStartDate =
      (alerts.flatMap (contributed decodeTx transactionsMap)).foldl
        (fun m tx => if Time.Before tx.Timestamp m then tx.Timestamp else m)
        agg.minStartDate ∧
    agg'.maxEndDate =
      (alerts.flatMap (contributed decodeTx transactionsMap)).foldl
        (fun m tx => if Time.After tx.Timestamp m then tx.Timestamp else m)
        agg.maxEndDate := by
  induction alerts generalizing agg with
  | nil =>
    simp only [aggregateAlerts, Except.ok.injEq] at h
    subst h
    refine ⟨?_, rfl, rfl⟩
    split_ifs <;> rfl
  | cons alert alerts ih =>
    simp only [aggregateAlerts] at h
    cases hstep : aggregateAlert decodeTx transactionsMap accountsMap allRelatedTxIDs agg
        alert with
    | error e => simp [hstep] at h
    | ok agg1 =>
      simp only [hstep] at h
      obtain ⟨hf, hs, hd1, hd2⟩ := aggregateAlert_ok decodeTx transactionsMap accountsMap
        allRelatedTxIDs agg agg1 alert hstep
      obtain ⟨ihs, ihd1, ihd2⟩ := ih agg1 h
      refine ⟨?_, ?_, ?_⟩
      · rw [ihs, hf]
        simp only [List.map_cons, List.find?_cons]
        by_cases h1 : agg.isFirstRow = true
        · by_cases h2 : (associatedAccount transactionsMap accountsMap allRelatedTxIDs
              alert).AccountID = ""
          · simp only [h1, h2, decide_True, Bool.and_self, if_true, ne_eq, not_true_eq_false,
              decide_False]
            rw [if_neg (by simp [h1, h2])] at hs
            cases hfind : (alerts.map (associatedAccount transactionsMap accountsMap
              allRelatedTxIDs)).find? fun account => decide (¬ account.AccountID = "") with
            | none => exact hs
            | some account => rfl
          · simp only [h1, h2, decide_False, Bool.and_false, Bool.false_eq_true, if_false,
              if_true, ne_eq, not_false_eq_true, decide_True]
            rw [if_pos ⟨h1, h2⟩] at hs
            exact hs
        · simp only [h1, Bool.false_eq_true, if_false] at hs ⊢
          have h1' : agg.isFirstRow = false := by simpa using h1
          simp only [h1', Bool.false_and, Bool.false_eq_true, if_false, false_and] at hs ⊢
          exact hs
      · rw [ihd1, hd1, List.flatMap_cons, List.foldl_append]
      · rw [ihd2, hd2, List.flatMap_cons, List.foldl_append]

/-- The aggregation behind a report that `GenerateSARData` returns. -/
theorem GenerateSARData_aggregation (decodeTx : Json → Except Error Transaction)
    (range : MapRange) (now : Time) (alertIDs : List String) (db : Store) (report : SARReport)
    (h : GenerateSARData decodeTx range now alertIDs db = .ok (some report)) :
    ∃ alerts allRelatedTxIDs txRows accRows agg,
      db.queryAlerts alertIDs = .ok alerts ∧
      scanAlerts decodeTx alerts = .ok allRelatedTxIDs ∧
      db.queryTransactions (range.keys allRelatedTxIDs) = .ok txRows ∧
      db.queryAccounts (scanTransactions txRows).accountIDs = .ok accRows ∧
      aggregateAlerts decodeTx (scanTransactions txRows).transactionsMap (scanAccounts accRows)
        allRelatedTxIDs (Aggregation.init now) alerts = .ok agg ∧
      report = { agg.report with StartDate := agg.minStartDate, EndDate := agg.maxEndDate } := by
  unfold GenerateSARData at h
  by_cases h0 : alertIDs.length = 0
  · simp [h0] at h
  rw [if_neg h0] at h
  cases hq : db.queryAlerts alertIDs with
  | error e => simp [hq] at h
  | ok alerts =>
    simp only [hq] at h
    cases hs : scanAlerts decodeTx alerts with
    | error e => simp [hs] at h
    | ok allRelatedTxIDs =>
      simp only [hs] at h
      by_cases h1 : allRelatedTxIDs.length = 0
      · simp [h1] at h
      rw [if_neg h1] at h
      cases ht : db.queryTransactions (range.keys allRelatedTxIDs) with
      | error e => simp [ht] at h
      | ok txRows =>
        simp only [ht] at h
        by_cases h2 : (scanTransactions txRows).accountIDs.length = 0
        · simp [h2] at h
        rw [if_neg h2] at h
        cases ha : db.queryAccounts (scanTransactions txRows).accountIDs with
        | error e => simp [ha] at h
        | ok accRows =>
          simp only [ha] at h
          cases hg : aggregateAlerts decodeTx (scanTransactions txRows).transactionsMap
              (scanAccounts accRows) allRelatedTxIDs (Aggregation.init now) alerts with
          | error e => simp [hg] at h
          | ok agg =>
            simp only [hg] at h
            have hne : alerts.length > 0 := by
              cases alerts with
              | nil =>
                simp only [scanAlerts, Except.ok.injEq] at hs
                subst hs
                simp at h1
              | cons a l => simp
            rw [if_pos hne] at h
            simp only [Except.ok.injEq, Option.some.injEq] at h
            exact ⟨alerts, allRelatedTxIDs, txRows, accRows, agg, rfl, hs, ht, ha, hg, h.symm⟩

/-- The value a read of `accountsMap` gives is an account row the store returned. -/
theorem mapLookup_scanAccounts (accRows : List Account) (key : String) (account : Account)
    (h : mapLookup (scanAccounts accRows) key = some account) :
    account ∈ accRows ∧ account.AccountID = key := by
  have hgen : ∀ (rows : List Account) (m : List (String × Account)),
      mapLookup (rows.foldl (fun accountsMap a => mapSet accountsMap a.AccountID a) m) key =
        some account →
      (account ∈ rows ∧ account.AccountID = key) ∨ mapLookup m key = some account := by
    intro rows
    induction rows with
    | nil => intro m hm; exact Or.inr hm
    | cons row rows ih =>
      intro m hm
      rw [List.foldl_cons] at hm
      rcases ih _ hm with ⟨h1, h2⟩ | hprev
      · exact Or.inl ⟨List.mem_cons_of_mem _ h1, h2⟩
      · by_cases hk : row.AccountID = key
        · rw [← hk, mapLookup_mapSet_self] at hprev
          simp only [Option.some.injEq] at hprev
          exact Or.inl ⟨by simp [hprev], by rw [← hprev]; exact hk⟩
        · rw [mapLookup_mapSet_ne _ _ _ _ hk] at hprev
          exact Or.inr hprev
  rcases hgen accRows [] h with h1 | h1
  · exact h1
  · simp [mapLookup] at h1

/-- An account with an identifier that is resolved for an alert is an account row the store
returned. -/
theorem associatedAccount_mem (transactionsMap : List (String × Transaction))
    (accRows : List Account) (allRelatedTxIDs : List String) (alert : Alert)
    (h : (associatedAccount transactionsMap (scanAccounts accRows) allRelatedTxIDs
      alert).AccountID ≠ "") :
    associatedAccount transactionsMap (scanAccounts accRows) allRelatedTxIDs alert ∈
      accRows := by
  have hget : ∀ key : String,
      ((mapLookup (scanAccounts accRows) key).getD Account.zero).AccountID ≠ "" →
      (mapLookup (scanAccounts accRows) key).getD Account.zero ∈ accRows := by
    intro key hne
    cases hl : mapLookup (scanAccounts accRows) key with
    | none => simp [hl, Account.zero] at hne
    | some account => exact (mapLookup_scanAccounts accRows key account hl).1
  unfold associatedAccount at h ⊢
  split_ifs at h ⊢ with hlen
  · cases h1 : mapLookup transactionsMap alert.TransactionID with
    | some tx =>
      simp only [h1] at h ⊢
      exact hget _ h
    | none =>
      simp only [h1] at h ⊢
      cases h2 : allRelatedTxIDs.findSome? fun txID => mapLookup transactionsMap txID with
      | some tx =>
        simp only [h2] at h ⊢
        exact hget _ h
      | none =>
        simp only [h2] at h
        simp [Account.zero] at h
  · simp [Account.zero] at h

/-- C21: the subject name, address and date of birth of the report `GenerateSARData` returns
are those of the first account, in the order of the alert rows, that is resolved for an
alert with a non-empty account identifier, which is an account row the store returned;
the alerts after it, whatever accounts are resolved for them, do not change these fields.
When no alert resolves such an account the three fields are empty. -/
theorem subject_is_first_resolved_account (decodeTx : Json → Except Error Transaction)
    (range : MapRange) (now : Time) (alertIDs : List String) (db : Store) (report : SARReport)
    (h : GenerateSARData decodeTx range now alertIDs db = .ok (some report)) :
    ∃ alerts allRelatedTxIDs txRows accRows,
      db.queryAlerts alertIDs = .ok alerts ∧
      scanAlerts decodeTx alerts = .ok allRelatedTxIDs ∧
      db.queryTransactions (range.keys allRelatedTxIDs) = .ok txRows ∧
      db.queryAccounts (scanTransactions txRows).accountIDs = .ok accRows ∧
      (∀ before alert after, alerts = before ++ alert :: after →
        (∀ a ∈ before, (associatedAccount (scanTransactions txRows).transactionsMap
          (scanAccounts accRows) allRelatedTxIDs a).AccountID = "") →
        (associatedAccount (scanTransactions txRows).transactionsMap (scanAccounts accRows)
          allRelatedTxIDs alert).AccountID ≠ "" →
        associatedAccount (scanTransactions txRows).transactionsMap (scanAccounts accRows)
          allRelatedTxIDs alert ∈ accRows ∧
        report.SubjectName = (associatedAccount (scanTransactions txRows).transactionsMap
          (scanAccounts accRows) allRelatedTxIDs alert).HolderName ∧
        report.SubjectAddress = (associatedAccount (scanTransactions txRows).transactionsMap
          (scanAccounts accRows) allRelatedTxIDs alert).Address ∧
        report.SubjectDateOfBirth =
          (associatedAccount (scanTransactions txRows).transactionsMap (scanAccounts accRows)
            allRelatedTxIDs alert).DateOfBirth) ∧
      ((∀ a ∈ alerts, (associatedAccount (scanTransactions txRows).transactionsMap
          (scanAccounts accRows) allRelatedTxIDs a).AccountID = "") →
        report.SubjectName = "" ∧ report.SubjectAddress = "" ∧
          report.SubjectDateOfBirth = "") := by
  obtain ⟨alerts, allRelatedTxIDs, txRows, accRows, agg, hq, hs, ht, ha, hg, hr⟩ :=
    GenerateSARData_aggregation decodeTx range now alertIDs db report h
  obtain ⟨hsub, -, -⟩ := aggregateAlerts_ok decodeTx _ _ _ alerts _ agg hg
  have hinit : (Aggregation.init now).isFirstRow = true := rfl
  simp only [hinit, if_true] at hsub
  have hrep : (report.SubjectName, report.SubjectAddress, report.SubjectDateOfBirth) =
      (agg.report.SubjectName, agg.report.SubjectAddress, agg.report.SubjectDateOfBirth) := by
    rw [hr]
  rw [← hrep] at hsub
  refine ⟨alerts, allRelatedTxIDs, txRows, accRows, hq, hs, ht, ha, ?_, ?_⟩
  · intro before alert after hsplit hbefore hres
    have hfind : (alerts.map (associatedAccount (scanTransactions txRows).transactionsMap
        (scanAccounts accRows) allRelatedTxIDs)).find?
        (fun account => decide (account.AccountID ≠ "")) =
        some (associatedAccount (scanTransactions txRows).transactionsMap
          (scanAccounts accRows) allRelatedTxIDs alert) := by
      rw [hsplit, List.map_append, List.find?_append, List.map_cons, List.find?_cons]
      have hnone : (before.map (associatedAccount (scanTransactions txRows).transactionsMap
          (scanAccounts accRows) allRelatedTxIDs)).find?
          (fun account => decide (account.AccountID ≠ "")) = none := by
        rw [List.find?_eq_none]
        intro account hacc
        obtain ⟨a, hain, rfl⟩ := List.mem_map.mp hacc
        simp [hbefore a hain]
      rw [hnone]
      simp [hres]
    rw [hfind] at hsub
    simp only [Prod.mk.injEq] at hsub
    exact ⟨associatedAccount_mem _ accRows _ alert hres, hsub.1, hsub.2.1, hsub.2.2⟩
  · intro hall
    have hfind : (alerts.map (associatedAccount (scanTransactions txRows).transactionsMap
        (scanAccounts accRows) allRelatedTxIDs)).find?
        (fun account => decide (account.AccountID ≠ "")) = none := by
      rw [List.find?_eq_none]
      intro account hacc
      obtain ⟨a, hain, rfl⟩ := List.mem_map.mp hacc
      simp [hall a hain]
    rw [hfind] at hsub
    simp only [Prod.mk.injEq] at hsub
    exact hsub

/-- An alert on a transaction of John Doe, then an alert on a transaction of Jane Roe: the
subject of the report is John Doe. -/
theorem subject_is_first_resolved_account_witness :
    GenerateSARData testDecodeTx insertionOrder testNow ["alert001", "alert002"]
      twoAccountStore = .ok (some twoAccountReport) ∧
    twoAccountReport.SubjectName = "John Doe" ∧
    ∃ alerts allRelatedTxIDs txRows accRows,
      twoAccountStore.queryAlerts ["alert001", "alert002"] = .ok alerts ∧
      scanAlerts testDecodeTx alerts = .ok allRelatedTxIDs ∧
      twoAccountStore.queryTransactions (insertionOrder.keys allRelatedTxIDs) = .ok txRows ∧
      twoAccountStore.queryAccounts (scanTransactions txRows).accountIDs = .ok accRows ∧
      (∀ before alert after, alerts = before ++ alert :: after →
        (∀ a ∈ before, (associatedAccount (scanTransactions txRows).transactionsMap
          (scanAccounts accRows) allRelatedTxIDs a).AccountID = "") →
        (associatedAccount (scanTransactions txRows).transactionsMap (scanAccounts accRows)
          allRelatedTxIDs alert).AccountID ≠ "" →
        associatedAccount (scanTransactions txRows).transactionsMap (scanAccounts accRows)
          allRelatedTxIDs alert ∈ accRows ∧
        twoAccountReport.SubjectName =
          (associatedAccount (scanTransactions txRows).transactionsMap
            (scanAccounts accRows) allRelatedTxIDs alert).HolderName ∧
        twoAccountReport.SubjectAddress =
          (associatedAccount (scanTransactions txRows).transactionsMap
            (scanAccounts accRows) allRelatedTxIDs alert).Address ∧
        twoAccountReport.SubjectDateOfBirth =
          (associatedAccount (scanTransactions txRows).transactionsMap (scanAccounts accRows)
            allRelatedTxIDs alert).DateOfBirth) ∧
      ((∀ a ∈ alerts, (associatedAccount (scanTransactions txRows).transactionsMap
          (scanAccounts accRows) allRelatedTxIDs a).AccountID = "") →
        twoAccountReport.SubjectName = "" ∧ twoAccountReport.SubjectAddress = "" ∧
          twoAccountReport.SubjectDateOfBirth = "") :=
  ⟨by decide, rfl,
    subject_is_first_resolved_account testDecodeTx insertionOrder testNow
      ["alert001", "alert002"] twoAccountStore twoAccountReport (by decide)⟩

/-- The start date after a list of transactions: no later than the date before and than
every timestamp of the list, and equal to one of them. -/
theorem foldl_earliest (txs : List Transaction) (start : Int) :
    (txs.foldl (fun (m : Int) tx => if Time.Before tx.Timestamp m then tx.Timestamp else m)
        start ≤ start) ∧
    (∀ tx ∈ txs,
      txs.foldl (fun (m : Int) tx => if Time.Before tx.Timestamp m then tx.Timestamp else m)
        start ≤ tx.Timestamp) ∧
    (txs.foldl (fun (m : Int) tx => if Time.Before tx.Timestamp m then tx.Timestamp else m)
        start = start ∨
      ∃ tx ∈ txs,
        txs.foldl (fun (m : Int) tx => if Time.Before tx.Timestamp m then tx.Timestamp else m)
          start = tx.Timestamp) := by
  induction txs generalizing start with
  | nil => simp
  | cons tx txs ih =>
    simp only [List.foldl_cons, Time.Before, decide_eq_true_eq]
    obtain ⟨h1, h2, h3⟩ := ih (if tx.Timestamp < start then tx.Timestamp else start)
    simp only [Time.Before, decide_eq_true_eq] at h1 h2 h3
    have hstep : (if tx.Timestamp < start then tx.Timestamp else start) ≤ start ∧
        (if tx.Timestamp < start then tx.Timestamp else start) ≤ tx.Timestamp := by
      split_ifs with hlt
      · exact ⟨le_of_lt hlt, le_refl _⟩
      · exact ⟨le_refl _, not_lt.mp hlt⟩
    refine ⟨le_trans h1 hstep.1, ?_, ?_⟩
    · intro t ht
      rcases List.mem_cons.mp ht with rfl | ht
      · exact le_trans h1 hstep.2
      · exact h2 t ht
    · rcases h3 with h3 | ⟨t, ht, h3⟩
      · by_cases hlt : tx.Timestamp < start
        · right
          exact ⟨tx, List.mem_cons_self _ _, by rw [h3, if_pos hlt]⟩
        · left
          rw [h3, if_neg hlt]
      · right
        exact ⟨t, List.mem_cons_of_mem _ ht, h3⟩

/-- The end date after a list of transactions: no earlier than the date before and than
every timestamp of the list, and equal to one of them. -/
theorem foldl_latest (txs : List Transaction) (start : Int) :
    (start ≤ txs.foldl
      (fun (m : Int) tx => if Time.After tx.Timestamp m then tx.Timestamp else m) start) ∧
    (∀ tx ∈ txs, tx.Timestamp ≤ txs.foldl
      (fun (m : Int) tx => if Time.After tx.Timestamp m then tx.Timestamp else m) start) ∧
    (txs.foldl (fun (m : Int) tx => if Time.After tx.Timestamp m then tx.Timestamp else m)
        start = start ∨
      ∃ tx ∈ txs,
        txs.foldl (fun (m : Int) tx => if Time.After tx.Timestamp m then tx.Timestamp else m)
          start = tx.Timestamp) := by
  induction txs generalizing start with
  | nil => simp
  | cons tx txs ih =>
    simp only [List.foldl_cons, Time.After, decide_eq_true_eq]
    obtain ⟨h1, h2, h3⟩ := ih (if start < tx.Timestamp then tx.Timestamp else start)
    simp only [Time.After, decide_eq_true_eq] at h1 h2 h3
    have hstep : start ≤ (if start < tx.Timestamp then tx.Timestamp else start) ∧
        tx.Timestamp ≤ (if start < tx.Timestamp then tx.Timestamp else start) := by
      split_ifs with hlt
      · exact ⟨le_of_lt hlt, le_refl _⟩
      · exact ⟨le_refl _, not_lt.mp hlt⟩
    refine ⟨le_trans hstep.1 h1, ?_, ?_⟩
    · intro t ht
      rcases List.mem_cons.mp ht with rfl | ht
      · exact le_trans hstep.2 h1
      · exact h2 t ht
    · rcases h3 with h3 | ⟨t, ht, h3⟩
      · by_cases hlt : start < tx.Timestamp
        · right
          exact ⟨tx, List.mem_cons_self _ _, by rw [h3, if_pos hlt]⟩
        · left
          rw [h3, if_neg hlt]
      · right
        exact ⟨t, List.mem_cons_of_mem _ ht, h3⟩

/-- C22, amended: for every report `GenerateSARData` returns, `included` being the
transactions it included, `StartDate` is the earliest of the included timestamps and of
the instant a hundred years of 365 days after the reading of the clock, and `EndDate` the
latest of the included timestamps and of the zero time: every included timestamp lies
between `StartDate` and `EndDate`, `StartDate` is the earliest included timestamp when some
included transaction is dated no later than that instant, `EndDate` is the latest
included timestamp when some included transaction is dated no earlier than the zero
time, and `StartDate <= EndDate` when a transaction is included. -/
theorem sar_dates_bounds (decodeTx : Json → Except Error Transaction) (range : MapRange)
    (now : Time) (alertIDs : List String) (db : Store) (report : SARReport)
    (h : GenerateSARData decodeTx range now alertIDs db = .ok (some report)) :
    ∃ included : List (String × Transaction),
      Aggregated included report ∧
      (∀ e ∈ included, report.StartDate ≤ e.2.Timestamp ∧ e.2.Timestamp ≤ report.EndDate) ∧
      report.StartDate ≤ Time.Add now 3153600000000000000 ∧
      Time.zero ≤ report.EndDate ∧
      (report.StartDate = Time.Add now 3153600000000000000 ∨
        ∃ e ∈ included, report.StartDate = e.2.Timestamp) ∧
      (report.EndDate = Time.zero ∨ ∃ e ∈ included, report.EndDate = e.2.Timestamp) ∧
      ((∃ e ∈ included, e.2.Timestamp ≤ Time.Add now 3153600000000000000) →
        ∃ e ∈ included, report.StartDate = e.2.Timestamp) ∧
      ((∃ e ∈ included, Time.zero ≤ e.2.Timestamp) →
        ∃ e ∈ included, report.EndDate = e.2.Timestamp) ∧
      (included ≠ [] → report.StartDate ≤ report.EndDate) := by
  obtain ⟨alerts, allRelatedTxIDs, txRows, accRows, agg, hq, hs, ht, ha, hg, hr⟩ :=
    GenerateSARData_aggregation decodeTx range now alertIDs db report h
  obtain ⟨alerts', ids', txRows', -, hq', hs', ht', -, -, hinv⟩ :=
    GenerateSARData_some decodeTx range now alertIDs db report h
  rw [hq, Except.ok.injEq] at hq'
  subst hq'
  rw [hs, Except.ok.injEq] at hs'
  subst hs'
  rw [ht, Except.ok.injEq] at ht'
  subst ht'
  obtain ⟨-, hd1, hd2⟩ := aggregateAlerts_ok decodeTx _ _ _ alerts _ agg hg
  have hstart : report.StartDate = agg.minStartDate := by rw [hr]
  have hend : report.EndDate = agg.maxEndDate := by rw [hr]
  have hmem : ∀ e ∈ alerts.flatMap (contribution decodeTx
      (scanTransactions txRows).transactionsMap),
      e.2 ∈ alerts.flatMap (contributed decodeTx (scanTransactions txRows).transactionsMap) := by
    intro e he
    obtain ⟨a, ha1, ha2⟩ := List.mem_flatMap.mp he
    exact List.mem_flatMap.mpr ⟨a, ha1, ((mem_contribution _ _ _ _).mp ha2).2⟩
  have hmem' : ∀ tx ∈ alerts.flatMap (contributed decodeTx
      (scanTransactions txRows).transactionsMap),
      ∃ e ∈ alerts.flatMap (contribution decodeTx (scanTransactions txRows).transactionsMap),
        e.2 = tx := by
    intro tx htx
    obtain ⟨a, ha1, ha2⟩ := List.mem_flatMap.mp htx
    exact ⟨(a.AlertType, tx),
      List.mem_flatMap.mpr ⟨a, ha1, (mem_contribution _ _ _ _).mpr ⟨rfl, ha2⟩⟩, rfl⟩
  obtain ⟨e1, e2, e3⟩ := foldl_earliest
    (alerts.flatMap (contributed decodeTx (scanTransactions txRows).transactionsMap))
    (Time.Add now 3153600000000000000)
  obtain ⟨l1, l2, l3⟩ := foldl_latest
    (alerts.flatMap (contributed decodeTx (scanTransactions txRows).transactionsMap))
    Time.zero
  have hminit : (Aggregation.init now).minStartDate = Time.Add now 3153600000000000000 := rfl
  have hmaxit : (Aggregation.init now).maxEndDate = Time.zero := rfl
  rw [hminit] at hd1
  rw [hmaxit] at hd2
  rw [← hd1, ← hstart] at e1 e2 e3
  rw [← hd2, ← hend] at l1 l2 l3
  have hs3 : report.StartDate = Time.Add now 3153600000000000000 ∨
      ∃ e ∈ alerts.flatMap (contribution decodeTx (scanTransactions txRows).transactionsMap),
        report.StartDate = e.2.Timestamp := by
    rcases e3 with h3 | ⟨tx, htx, h3⟩
    · exact Or.inl h3
    · obtain ⟨e, he, rfl⟩ := hmem' tx htx
      exact Or.inr ⟨e, he, h3⟩
  have hl3 : report.EndDate = Time.zero ∨
      ∃ e ∈ alerts.flatMap (contribution decodeTx (scanTransactions txRows).transactionsMap),
        report.EndDate = e.2.Timestamp := by
    rcases l3 with h3 | ⟨tx, htx, h3⟩
    · exact Or.inl h3
    · obtain ⟨e, he, rfl⟩ := hmem' tx htx
      exact Or.inr ⟨e, he, h3⟩
  refine ⟨_, hinv, fun e he => ⟨e2 _ (hmem e he), l2 _ (hmem e he)⟩, e1, l1, hs3, hl3, ?_, ?_,
    ?_⟩
  · rintro ⟨e, he, hle⟩
    rcases hs3 with h3 | h3
    · exact ⟨e, he, le_antisymm (e2 _ (hmem e he)) (by rw [h3]; exact hle)⟩
    · exact h3
  · rintro ⟨e, he, hle⟩
    rcases hl3 with h3 | h3
    · exact ⟨e, he, le_antisymm (by rw [h3]; exact hle) (l2 _ (hmem e he))⟩
    · exact h3
  · intro hne
    obtain ⟨e, he⟩ := List.exists_mem_of_ne_nil _ hne
    exact le_trans (e2 _ (hmem e he)) (l2 _ (hmem e he))

/-- C22, as stated, fails: the store's one transaction is dated 2200-01-01 and the clock
reads 2023-11-14.  The report on the alert on that transaction includes it, and its
`StartDate` is the clock reading plus a hundred years of 365 days (2123-10-21), which is
the timestamp of no included transaction; the earliest included timestamp is 2200-01-01,
which is the `EndDate`. -/
theorem start_date_stops_at_hundred_years :
    GenerateSARData testDecodeTx insertionOrder testNow ["alert001"] futureStore =
      .ok (some futureReport) ∧
    (futureReport.Patterns.map fun e => e.2.Transactions.map fun tx => tx.Timestamp) =
      [[7258118400000000000]] ∧
    futureReport.StartDate = Time.Add testNow 3153600000000000000 ∧
    futureReport.StartDate = 4853600000000000000 ∧
    futureReport.StartDate ≠ 7258118400000000000 ∧
    futureReport.EndDate = 7258118400000000000 := by
  decide

/-- The report of `ExampleGenerateSARData`: its three transactions are dated before the
reading of the clock, and the dates of the report are those of the first and the last. -/
theorem sar_dates_bounds_witness :
    GenerateSARData testDecodeTx insertionOrder testNow ["alert001", "alert002", "alert003"]
      exampleStore = .ok (some exampleReport) ∧
    exampleReport.StartDate = 1673776800000000000 ∧
    exampleReport.EndDate = 1673949600000000000 ∧
    ∃ included : List (String × Transaction),
      Aggregated included exampleReport ∧
      (∀ e ∈ included, exampleReport.StartDate ≤ e.2.Timestamp ∧
        e.2.Timestamp ≤ exampleReport.EndDate) ∧
      exampleReport.StartDate ≤ Time.Add testNow 3153600000000000000 ∧
      Time.zero ≤ exampleReport.EndDate ∧
      (exampleReport.StartDate = Time.Add testNow 3153600000000000000 ∨
        ∃ e ∈ included, exampleReport.StartDate = e.2.Timestamp) ∧
      (exampleReport.EndDate = Time.zero ∨
        ∃ e ∈ included, exampleReport.EndDate = e.2.Timestamp) ∧
      ((∃ e ∈ included, e.2.Timestamp ≤ Time.Add testNow 3153600000000000000) →
        ∃ e ∈ included, exampleReport.StartDate = e.2.Timestamp) ∧
      ((∃ e ∈ included, Time.zero ≤ e.2.Timestamp) →
        ∃ e ∈ included, exampleReport.EndDate = e.2.Timestamp) ∧
      (included ≠ [] → exampleReport.StartDate ≤ exampleReport.EndDate) :=
  ⟨by decide, rfl, rfl,
    sar_dates_bounds testDecodeTx insertionOrder testNow ["alert001", "alert002", "alert003"]
      exampleStore exampleReport (by decide)⟩

/-! ## End-to-end scenario -/

/-- A slice that `sort.Slice` sorts with the `less` function of `DetectStructuring` comes out
as the one arrangement of its elements by strictly descending timestamp, if there is one. -/
theorem sort_eq_of_perm_descending (sorter : SliceSorter) (l sorted : List Transaction)
    (hl : l.Perm sorted) (hdesc : sorted.Pairwise fun a b => timestampAfter a b = true) :
    sorter.sort timestampAfter l = sorted := by
  have hperm := (sorter.perm timestampAfter l).trans hl
  have hsorted := sorter.sorted timestampAfter l timestampAfter_strictWeakOrder
  have hweak : sorted.Pairwise fun a b => timestampAfter b a = false :=
    hdesc.imp fun {a b} hab => timestampAfter_strictWeakOrder.1 a b hab
  have hdistinct : ∀ a ∈ sorted, ∀ b ∈ sorted,
      timestampAfter b a = false → timestampAfter a b = false → a = b := by
    intro a ha b hb h1 h2
    by_contra hne
    have := List.Pairwise.forall (R := fun a b => timestampAfter a b = true ∨
      timestampAfter b a = true) (fun {x y} hxy => hxy.symm)
      (hdesc.imp fun {x y} hxy => Or.inl hxy) ha hb hne
    rcases this with h | h
    · rw [h] at h2; cases h2
    · rw [h] at h1; cases h1
  exact List.Perm.eq_of_sorted
    (fun a b ha hb hab hba => hdistinct a (hperm.subset ha) b hb hab hba) hsorted hweak hperm

/-- The loop over `currentAlertMatchingTxs` reads `minStartDate` only to write it. -/
theorem foldl_addTransaction_clock (txs : List Transaction)
    (pattern : SuspiciousActivityPattern) (report : SARReport) (isFirstRow : Bool)
    (maxEndDate m₁ m₂ : Time) :
    ∃ pattern' report' maxEndDate' m₁' m₂',
      txs.foldl addTransaction (pattern, ⟨report, isFirstRow, m₁, maxEndDate⟩) =
        (pattern', ⟨report', isFirstRow, m₁', maxEndDate'⟩) ∧
      txs.foldl addTransaction (pattern, ⟨report, isFirstRow, m₂, maxEndDate⟩) =
        (pattern', ⟨report', isFirstRow, m₂', maxEndDate'⟩) := by
  induction txs generalizing pattern report maxEndDate m₁ m₂ with
  | nil => exact ⟨_, _, _, _, _, rfl, rfl⟩
  | cons tx txs ih =>
    simp only [List.foldl_cons, addTransaction]
    exact ih _ _ _ _ _

/-- One turn of the aggregation loop reads `minStartDate` only to write it. -/
theorem aggregateAlert_clock (decodeTx : Json → Except Error Transaction)
    (transactionsMap : List (String × Transaction)) (accountsMap : List (String × Account))
    (allRelatedTxIDs : List String) (alert : Alert) (report : SARReport) (isFirstRow : Bool)
    (maxEndDate m₁ m₂ : Time) :
    (∃ e,
      aggregateAlert decodeTx transactionsMap accountsMap allRelatedTxIDs
        ⟨report, isFirstRow, m₁, maxEndDate⟩ alert = .error e ∧
      aggregateAlert decodeTx transactionsMap accountsMap allRelatedTxIDs
        ⟨report, isFirstRow, m₂, maxEndDate⟩ alert = .error e) ∨
    ∃ report' isFirstRow' maxEndDate' m₁' m₂',
      aggregateAlert decodeTx transactionsMap accountsMap allRelatedTxIDs
        ⟨report, isFirstRow, m₁, maxEndDate⟩ alert =
          .ok ⟨report', isFirstRow', m₁', maxEndDate'⟩ ∧
      aggregateAlert decodeTx transactionsMap accountsMap allRelatedTxIDs
        ⟨report, isFirstRow, m₂, maxEndDate⟩ alert =
          .ok ⟨report', isFirstRow', m₂', maxEndDate'⟩ := by
  simp only [aggregateAlert]
  cases hc : currentAlertMatchingTxs decodeTx transactionsMap alert with
  | error e => exact Or.inl ⟨e, rfl, rfl⟩
  | ok txs =>
    right
    simp only
    by_cases hfirst : (isFirstRow && decide ((associatedAccount transactionsMap accountsMap
        allRelatedTxIDs alert).AccountID ≠ "")) = true
    · simp only [hfirst, if_true]
      obtain ⟨p, r, M, a, b, h1, h2⟩ := foldl_addTransaction_clock txs
        { (mapLookup ({ report with
            SubjectName := (associatedAccount transactionsMap accountsMap allRelatedTxIDs
              alert).HolderName
            SubjectAddress := (associatedAccount transactionsMap accountsMap allRelatedTxIDs
              alert).Address
            SubjectDateOfBirth := (associatedAccount transactionsMap accountsMap
              allRelatedTxIDs alert).DateOfBirth } : SARReport).Patterns
            alert.AlertType).getD SuspiciousActivityPattern.zero with
          PatternDescription := alert.AlertType }
        { report with
            SubjectName := (associatedAccount transactionsMap accountsMap allRelatedTxIDs
              alert).HolderName
            SubjectAddress := (associatedAccount transactionsMap accountsMap allRelatedTxIDs
              alert).Address
            SubjectDateOfBirth := (associatedAccount transactionsMap accountsMap
              allRelatedTxIDs alert).DateOfBirth } false maxEndDate m₁ m₂
      rw [h1, h2]
      exact ⟨_, _, _, _, _, rfl, rfl⟩
    · simp only [hfirst, if_false, Bool.false_eq_true]
      obtain ⟨p, r, M, a, b, h1, h2⟩ := foldl_addTransaction_clock txs
        { (mapLookup report.Patterns alert.AlertType).getD SuspiciousActivityPattern.zero with
          PatternDescription := alert.AlertType } report isFirstRow maxEndDate m₁ m₂
      rw [h1, h2]
      exact ⟨_, _, _, _, _, rfl, rfl⟩

/-- The aggregation loop reads `minStartDate` only to write it. -/
theorem aggregateAlerts_clock (decodeTx : Json → Except Error Transaction)
    (transactionsMap : List (String × Transaction)) (accountsMap : List (String × Account))
    (allRelatedTxIDs : List String) (alerts : List Alert) (report : SARReport)
    (isFirstRow : Bool) (maxEndDate m₁ m₂ : Time) :
    (∃ e,
      aggregateAlerts decodeTx transactionsMap accountsMap allRelatedTxIDs
        ⟨report, isFirstRow, m₁, maxEndDate⟩ alerts = .error e ∧
      aggregateAlerts decodeTx transactionsMap accountsMap allRelatedTxIDs
        ⟨report, isFirstRow, m₂, maxEndDate⟩ alerts = .error e) ∨
    ∃ report' isFirstRow' maxEndDate' m₁' m₂',
      aggregateAlerts decodeTx transactionsMap accountsMap allRelatedTxIDs
        ⟨report, isFirstRow, m₁, maxEndDate⟩ alerts =
          .ok ⟨report', isFirstRow', m₁', maxEndDate'⟩ ∧
      aggregateAlerts decodeTx transactionsMap accountsMap allRelatedTxIDs
        ⟨report, isFirstRow, m₂, maxEndDate⟩ alerts =
          .ok ⟨report', isFirstRow', m₂', maxEndDate'⟩ := by
  induction alerts generalizing report isFirstRow maxEndDate m₁ m₂ with
  | nil => exact Or.inr ⟨_, _, _, _, _, rfl, rfl⟩
  | cons alert alerts ih =>
    simp only [aggregateAlerts]
    rcases aggregateAlert_clock decodeTx transactionsMap accountsMap allRelatedTxIDs alert
      report isFirstRow maxEndDate m₁ m₂ with ⟨e, h1, h2⟩ | ⟨r, f, M, a, b, h1, h2⟩
    · rw [h1, h2]
      exact Or.inl ⟨e, rfl, rfl⟩
    · rw [h1, h2]
      exact ih r f M a b

/-- The reading of the clock in `GenerateSARData` bears on the `StartDate` of the report
only: at another reading the function returns the same error, or the same nil report, or a
report that differs in `StartDate` at most. -/
theorem GenerateSARData_clock (decodeTx : Json → Except Error Transaction) (range : MapRange)
    (now later : Time) (alertIDs : List String) (db : Store) (report : SARReport)
    (h : GenerateSARData decodeTx range now alertIDs db = .ok (some report)) :
    ∃ startDate, GenerateSARData decodeTx range later alertIDs db =
      .ok (some { report with StartDate := startDate }) := by
  unfold GenerateSARData at h ⊢
  by_cases h0 : alertIDs.length = 0
  · simp [h0] at h
  rw [if_neg h0] at h ⊢
  cases hq : db.queryAlerts alertIDs with
  | error e => simp [hq] at h
  | ok alerts =>
    simp only [hq] at h ⊢
    cases hs : scanAlerts decodeTx alerts with
    | error e => simp [hs] at h
    | ok allRelatedTxIDs =>
      simp only [hs] at h ⊢
      by_cases h1 : allRelatedTxIDs.length = 0
      · simp [h1] at h
      rw [if_neg h1] at h ⊢
      cases ht : db.queryTransactions (range.keys allRelatedTxIDs) with
      | error e => simp [ht] at h
      | ok txRows =>
        simp only [ht] at h ⊢
        by_cases h2 : (scanTransactions txRows).accountIDs.length = 0
        · simp [h2] at h
        rw [if_neg h2] at h ⊢
        cases ha : db.queryAccounts (scanTransactions txRows).accountIDs with
        | error e => simp [ha] at h
        | ok accRows =>
          simp only [ha] at h ⊢
          rcases aggregateAlerts_clock decodeTx (scanTransactions txRows).transactionsMap
            (scanAccounts accRows) allRelatedTxIDs alerts (Aggregation.init now).report true
            Time.zero (Time.Add now 3153600000000000000)
            (Time.Add later 3153600000000000000) with ⟨e, h3, h4⟩ | ⟨r, f, M, a, b, h3, h4⟩
          · rw [show Aggregation.init now = ⟨(Aggregation.init now).report, true,
              Time.Add now 3153600000000000000, Time.zero⟩ from rfl, h3] at h
            simp at h
          · rw [show Aggregation.init now = ⟨(Aggregation.init now).report, true,
              Time.Add now 3153600000000000000, Time.zero⟩ from rfl, h3] at h
            rw [show Aggregation.init later = ⟨(Aggregation.init now).report, true,
              Time.Add later 3153600000000000000, Time.zero⟩ from rfl, h4]
            by_cases hlen : alerts.length > 0
            · simp only [hlen, if_true, Except.ok.injEq, Option.some.injEq] at h ⊢
              subst h
              exact ⟨b, rfl⟩
            · simp only [hlen, if_false, Except.ok.injEq, Option.some.injEq] at h ⊢
              subst h
              exact ⟨r.StartDate, rfl⟩

/-- The transaction lookup of a table store depends on the set of the identifiers bound, not
on their order. -/
theorem tableStore_queryTransactions_range (alerts : List Alert)
    (transactions : List Transaction) (accounts : List Account) (range range' : MapRange)
    (ids : List String) :
    (tableStore alerts transactions accounts).queryTransactions (range.keys ids) =
      (tableStore alerts transactions accounts).queryTransactions (range'.keys ids) := by
  simp only [tableStore, range.mem, range'.mem]

/-- On a table store the result of `GenerateSARData` does not depend on the iteration order
of the set of related identifiers. -/
theorem GenerateSARData_tableStore_range (decodeTx : Json → Except Error Transaction)
    (range range' : MapRange) (now : Time) (alertIDs : List String) (alerts : List Alert)
    (transactions : List Transaction) (accounts : List Account) :
    GenerateSARData decodeTx range now alertIDs (tableStore alerts transactions accounts) =
      GenerateSARData decodeTx range' now alertIDs
        (tableStore alerts transactions accounts) := by
  unfold GenerateSARData
  simp only [tableStore_queryTransactions_range alerts transactions accounts range range']

/-- C23: the scenario of the end-to-end test.  The account "ACC123" holds deposits of 9000,
9500 and 9800 dated one, two and three hours before an instant, and a deposit of 100 dated
thirteen hours before it.  (a) Whatever the order of these four transactions in the slice,
whatever the sort, and whenever `DetectStructuring` reads the clock within nine hours from
that instant, its result with the window of 12 hours, the band [1, 27000] and the minimum
count 3 is `true` with exactly the three deposits, latest first.  (b) The
`matching_transactions` of the alert of the scenario decode to these three deposits.
(c) Whatever the iteration order of the set of related identifiers and whenever the clock is
read, `GenerateSARData` on the one "STRUCTURING_PATTERN" alert returns a report of John Doe
with `TotalSuspiciousAmount` 28300 and `TotalTransactionCount` 3, whose only pattern is
"STRUCTURING_PATTERN" with the same three deposits, total amount 28300 and count 3. -/
theorem end_to_end_structuring_scenario (sorter : SliceSorter) (range : MapRange)
    (pool : List Transaction) (detectedAt reportedAt : Time)
    (hpool : pool.Perm e2ePool)
    (hdetectedAt : e2eNow ≤ detectedAt ∧ detectedAt < e2eNow + 9 * hour) :
    DetectStructuring sorter detectedAt "ACC123" pool (12 * hour) (F64.ofInt 1)
      (F64.ofInt 27000) 3 = (true, e2eMatching) ∧
    payloadTransactions testDecodeTx e2eRuleDetails = some (.ok e2eMatching) ∧
    ∃ report,
      GenerateSARData testDecodeTx range reportedAt ["alert-1"] e2eStore =
        .ok (some report) ∧
      (report.SubjectName, report.SubjectAddress, report.SubjectDateOfBirth) =
        ("John Doe", "123 Main St", "1980-01-01") ∧
      report.TotalSuspiciousAmount = F64.ofInt 28300 ∧
      report.TotalTransactionCount = 3 ∧
      report.Patterns =
        [("STRUCTURING_PATTERN",
          { PatternDescription := "STRUCTURING_PATTERN", Transactions := e2eMatching,
            TotalAmount := F64.ofInt 28300, TransactionCount := 3 })] := by
  have hge : (1673784000000000000 : Int) ≤ detectedAt := hdetectedAt.1
  have hlt : @LT.lt Int _ detectedAt 1673816400000000000 := hdetectedAt.2
  have hhour : hour = 3600000000000 := rfl
  have hwindow : windowStart detectedAt (12 * hour) = detectedAt - 43200000000000 :=
    windowStart_eq_sub detectedAt (12 * hour) (by decide) (by decide)
  refine ⟨?_, by decide, ?_⟩
  · have hfilter : e2ePool.filter (isCandidate detectedAt "ACC123" (12 * hour) (F64.ofInt 1)
        (F64.ofInt 27000)) = e2eMatching := by
      have h1 : isCandidate detectedAt "ACC123" (12 * hour) (F64.ofInt 1) (F64.ofInt 27000)
          (deposit "tx-9000" 9000 (e2eNow - 1 * hour)) = true := by
        rw [isCandidate_eq, decide_eq_true_eq]
        refine ⟨rfl, ?_, ?_, by decide, by decide⟩
        · rw [hwindow]
          show @LT.lt Int _ (detectedAt - 43200000000000) 1673780400000000000
          omega
        · show (1673780400000000000 : Int) < detectedAt
          omega
      have h2 : isCandidate detectedAt "ACC123" (12 * hour) (F64.ofInt 1) (F64.ofInt 27000)
          (deposit "tx-9500" 9500 (e2eNow - 2 * hour)) = true := by
        rw [isCandidate_eq, decide_eq_true_eq]
        refine ⟨rfl, ?_, ?_, by decide, by decide⟩
        · rw [hwindow]
          show @LT.lt Int _ (detectedAt - 43200000000000) 1673776800000000000
          omega
        · show (1673776800000000000 : Int) < detectedAt
          omega
      have h3 : isCandidate detectedAt "ACC123" (12 * hour) (F64.ofInt 1) (F64.ofInt 27000)
          (deposit "tx-9800" 9800 (e2eNow - 3 * hour)) = true := by
        rw [isCandidate_eq, decide_eq_true_eq]
        refine ⟨rfl, ?_, ?_, by decide, by decide⟩
        · rw [hwindow]
          show @LT.lt Int _ (detectedAt - 43200000000000) 1673773200000000000
          omega
        · show (1673773200000000000 : Int) < detectedAt
          omega
      have h4 : isCandidate detectedAt "ACC123" (12 * hour) (F64.ofInt 1) (F64.ofInt 27000)
          (deposit "tx-100" 100 (e2eNow - 13 * hour)) = false := by
        rw [isCandidate_eq, decide_eq_false_iff_not]
        rintro ⟨-, h, -⟩
        rw [hwindow] at h
        have h' : @LT.lt Int _ (detectedAt - 43200000000000) 1673737200000000000 := h
        omega
      simp only [e2ePool, e2eMatching, List.filter, h1, h2, h3, h4]
    have hcandidates := hpool.filter (isCandidate detectedAt "ACC123" (12 * hour)
      (F64.ofInt 1) (F64.ofInt 27000))
    rw [hfilter] at hcandidates
    have hlen : ((pool.filter (isCandidate detectedAt "ACC123" (12 * hour) (F64.ofInt 1)
        (F64.ofInt 27000))).length : Int) ≥ 3 := by
      rw [hcandidates.length_eq]
      decide
    simp only [DetectStructuring]
    rw [if_pos hlen, sort_eq_of_perm_descending sorter _ e2eMatching hcandidates (by decide)]
  · have hrun : GenerateSARData testDecodeTx insertionOrder e2eNow ["alert-1"] e2eStore =
        .ok (some e2eReport) := by decide
    rw [e2eStore, GenerateSARData_tableStore_range testDecodeTx range insertionOrder]
    obtain ⟨startDate, hlater⟩ := GenerateSARData_clock testDecodeTx insertionOrder e2eNow
      reportedAt ["alert-1"] e2eStore e2eReport hrun
    rw [e2eStore] at hlater
    exact ⟨_, hlater, rfl, rfl, rfl, rfl⟩

/-- The scenario with the four deposits in the reverse order, merge sort, detection one
hour after the instant and the report one day after it. -/
theorem end_to_end_structuring_scenario_witness :
    e2ePool.reverse.Perm e2ePool ∧
    (e2eNow ≤ e2eNow + 1 * hour ∧ e2eNow + 1 * hour < e2eNow + 9 * hour) ∧
    DetectStructuring mergeSorter (e2eNow + 1 * hour) "ACC123" e2ePool.reverse (12 * hour)
      (F64.ofInt 1) (F64.ofInt 27000) 3 = (true, e2eMatching) ∧
    payloadTransactions testDecodeTx e2eRuleDetails = some (.ok e2eMatching) ∧
    ∃ report,
      GenerateSARData testDecodeTx insertionOrder (e2eNow + 24 * hour) ["alert-1"] e2eStore =
        .ok (some report) ∧
      (report.SubjectName, report.SubjectAddress, report.SubjectDateOfBirth) =
        ("John Doe", "123 Main St", "1980-01-01") ∧
      report.TotalSuspiciousAmount = F64.ofInt 28300 ∧
      report.TotalTransactionCount = 3 ∧
      report.Patterns =
        [("STRUCTURING_PATTERN",
          { PatternDescription := "STRUCTURING_PATTERN", Transactions := e2eMatching,
            TotalAmount := F64.ofInt 28300, TransactionCount := 3 })] :=
  ⟨List.reverse_perm _, by decide,
    end_to_end_structuring_scenario mergeSorter insertionOrder e2ePool.reverse
      (e2eNow + 1 * hour) (e2eNow + 24 * hour) (List.reverse_perm _) (by decide)⟩

/-! ## StructuringDetector: the minimum count -/

/-- C40: when the minimum count passed to `DetectStructuring` is zero or negative, the
result is `detected = true` for every pool, with the matching transactions a rearrangement
of the candidates; when the pool holds no candidate (an empty pool in particular), the list
of matching transactions returned with `true` is empty. -/
theorem nonpositive_min_count_always_detects (sorter : SliceSorter) (now : Time)
    (accountID : String) (transactions : List Transaction) (timeWindow : Duration)
    (thresholdLow thresholdHigh : F64) (minCount : Int) (hmin : minCount ≤ 0) :
    (DetectStructuring sorter now accountID transactions timeWindow thresholdLow thresholdHigh
      minCount).1 = true ∧
    (DetectStructuring sorter now accountID transactions timeWindow thresholdLow thresholdHigh
      minCount).2.Perm
      (transactions.filter (isCandidate now accountID timeWindow thresholdLow thresholdHigh)) ∧
    ((∀ tx ∈ transactions,
        isCandidate now accountID timeWindow thresholdLow thresholdHigh tx = false) →
      DetectStructuring sorter now accountID transactions timeWindow thresholdLow thresholdHigh
        minCount = (true, [])) ∧
    DetectStructuring sorter now accountID [] timeWindow thresholdLow thresholdHigh minCount =
      (true, []) := by
  have hlen : ∀ l : List Transaction, ((l.length : Int) ≥ minCount) := by
    intro l
    have : (0 : Int) ≤ (l.length : Int) := Int.natCast_nonneg _
    omega
  have hnil : sorter.sort timestampAfter [] = [] :=
    List.Perm.eq_nil (sorter.perm timestampAfter [])
  refine ⟨?_, ?_, ?_, ?_⟩
  · simp only [DetectStructuring, if_pos (hlen _)]
  · simp only [DetectStructuring, if_pos (hlen _)]
    exact sorter.perm _ _
  · intro hnone
    have hfilter : transactions.filter
        (isCandidate now accountID timeWindow thresholdLow thresholdHigh) = [] := by
      rw [List.filter_eq_nil_iff]
      intro tx htx
      rw [hnone tx htx]
      decide
    simp only [DetectStructuring, if_pos (hlen _), hfilter, hnil]
  · simp only [DetectStructuring, if_pos (hlen _), List.filter_nil, hnil]

/-- The empty pool and a pool with no candidate (its account has no transaction in it) are
reported as detected with the minimum counts 0 and -1. -/
theorem nonpositive_min_count_always_detects_witness :
    DetectStructuring mergeSorter testNow "ACC1" [] hour (F64.ofInt 1) (F64.ofInt 10000) 0 =
      (true, []) ∧
    DetectStructuring mergeSorter e2eNow "ACC999" e2ePool (12 * hour) (F64.ofInt 1)
      (F64.ofInt 27000) (-1) = (true, []) :=
  ⟨(nonpositive_min_count_always_detects mergeSorter testNow "ACC1" [] hour (F64.ofInt 1)
      (F64.ofInt 10000) 0 (by decide)).2.2.2,
    (nonpositive_min_count_always_detects mergeSorter e2eNow "ACC999" e2ePool (12 * hour)
      (F64.ofInt 1) (F64.ofInt 27000) (-1) (by decide)).2.2.1 (by decide)⟩

/-! ## AlertLifecycle: failed calls and chains of calls -/

/-- The alert after a call of `TransitionAlertStatus` that returns an error is the alert
before the call. -/
theorem TransitionAlertStatus_unchanged (now : Time) (alert : Alert) (newStatus : String)
    (investigatorID : String)
    (herr : (TransitionAlertStatus now alert newStatus investigatorID).2 ≠ none) :
    (TransitionAlertStatus now alert newStatus investigatorID).1 = alert := by
  unfold TransitionAlertStatus at herr ⊢
  cases h : allowedTransitions alert.Status with
  | none => simp only [h]
  | some validTransitions =>
    simp only [h] at herr ⊢
    by_cases hv : (!(validTransitions.any fun status => decide (status = newStatus))) = true
    · rw [if_pos hv]
    · rw [if_neg hv] at herr
      exact absurd rfl herr

/-- C37: `TransitionAlertStatus` returns an error exactly when the current status of the
alert has no entry in `allowedTransitions` or the target status is not in its entry, and
when it returns an error the alert is left exactly as it was: `Status`, `AssignedTo`,
`TransitionAt` and every other field are unchanged, whatever investigator ID was
supplied. -/
theorem failed_transition_leaves_alert (now : Time) (alert : Alert) (newStatus : String)
    (investigatorID : String)
    (herr : (TransitionAlertStatus now alert newStatus investigatorID).2 ≠ none) :
    (TransitionAlertStatus now alert newStatus investigatorID).1 = alert ∧
    (TransitionAlertStatus now alert newStatus investigatorID).1.Status = alert.Status ∧
    (TransitionAlertStatus now alert newStatus investigatorID).1.AssignedTo =
      alert.AssignedTo ∧
    (TransitionAlertStatus now alert newStatus investigatorID).1.TransitionAt =
      alert.TransitionAt ∧
    (allowedTransitions alert.Status = none ∨
      ∃ validTransitions, allowedTransitions alert.Status = some validTransitions ∧
        newStatus ∉ validTransitions) := by
  have hsame := TransitionAlertStatus_unchanged now alert newStatus investigatorID herr
  refine ⟨hsame, by rw [hsame], by rw [hsame], by rw [hsame], ?_⟩
  rw [TransitionAlertStatus_error] at herr
  cases h : allowedTransitions alert.Status with
  | none => exact Or.inl rfl
  | some validTransitions =>
    right
    refine ⟨validTransitions, rfl, ?_⟩
    intro hmem
    simp only [h, hmem, if_true] at herr
    exact herr rfl

/-- A closed alert rejects the target INVESTIGATING, and an alert with the unknown status
"PENDING" rejects the target OPEN; in both calls an investigator is named and the alert
stays as it was. -/
theorem failed_transition_leaves_alert_witness :
    (TransitionAlertStatus testNow (statusAlert "CLOSED") "INVESTIGATING" "inv-1").2 ≠ none ∧
    (TransitionAlertStatus testNow (statusAlert "CLOSED") "INVESTIGATING" "inv-1").1 =
      statusAlert "CLOSED" ∧
    (TransitionAlertStatus testNow (statusAlert "PENDING") "OPEN" "inv-1").2 ≠ none ∧
    (TransitionAlertStatus testNow (statusAlert "PENDING") "OPEN" "inv-1").1 =
      statusAlert "PENDING" :=
  ⟨by decide,
    (failed_transition_leaves_alert testNow (statusAlert "CLOSED") "INVESTIGATING" "inv-1"
      (by decide)).1,
    by decide,
    (failed_transition_leaves_alert testNow (statusAlert "PENDING") "OPEN" "inv-1"
      (by decide)).1⟩

/-- The successors of a status in `allowedTransitions`, by cases. -/
theorem allowedTransitions_cases (status : String) (validTransitions : List String)
    (h : allowedTransitions status = some validTransitions) :
    (status = "OPEN" ∧ validTransitions = ["INVESTIGATING"]) ∨
    (status = "INVESTIGATING" ∧ validTransitions = ["ESCALATED", "FALSE_POSITIVE"]) ∨
    (status = "ESCALATED" ∧ validTransitions = ["CLOSED"]) ∨
    (status = "CLOSED" ∧ validTransitions = []) ∨
    (status = "FALSE_POSITIVE" ∧ validTransitions = []) := by
  unfold allowedTransitions StatusOpen StatusInvestigating StatusEscalated StatusClosed
    StatusFalsePositive at h
  split_ifs at h with h1 h2 h3 h4 h5 <;> simp_all

/-- A call of `TransitionAlertStatus` that returns no error sets the status to the target,
which is a successor of the status before the call. -/
theorem TransitionAlertStatus_success (now : Time) (alert : Alert) (newStatus : String)
    (investigatorID : String)
    (hok : (TransitionAlertStatus now alert newStatus investigatorID).2 = none) :
    (TransitionAlertStatus now alert newStatus investigatorID).1.Status = newStatus ∧
    ∃ validTransitions, allowedTransitions alert.Status = some validTransitions ∧
      newStatus ∈ validTransitions := by
  have herr := TransitionAlertStatus_error now alert newStatus investigatorID
  rw [hok] at herr
  unfold TransitionAlertStatus
  cases h : allowedTransitions alert.Status with
  | none => simp [h] at herr
  | some validTransitions =>
    simp only [h] at herr ⊢
    by_cases hmem : newStatus ∈ validTransitions
    · have hany : (validTransitions.any fun status => decide (status = newStatus)) = true := by
        simp [List.any_eq_true, hmem]
      refine ⟨?_, validTransitions, rfl, hmem⟩
      simp only [hany, Bool.not_true, Bool.false_eq_true, if_false]
      split_ifs <;> rfl
    · simp [hmem] at herr

/-! ## AlertGenerator: the alert built -/

/-- C33: every alert `GenerateAlert` returns has `Status` "OPEN" and an empty `AssignedTo`,
has the identifier generated for it and the clock reading as `CreatedAt`, and carries the
`TransactionID` of the input transaction, the given alert type and the given rule details
unchanged; and `TransitionAlertStatus` on this alert returns no error for the target
"INVESTIGATING" and an error for every other target. -/
theorem fresh_alert_is_open (fusion : Fusion) (newID : String) (now : Time) (tx : Transaction)
    (alertType : String) (ruleDetails : JSONMap) (alert : Alert)
    (h : GenerateAlert fusion newID now tx alertType ruleDetails = .ok alert) :
    alert.Status = "OPEN" ∧ alert.AssignedTo = "" ∧ alert.ID = newID ∧
    alert.CreatedAt = now ∧ alert.TransactionID = tx.TransactionID ∧
    alert.AlertType = alertType ∧ alert.RuleDetails = ruleDetails ∧
    ∀ (later : Time) (newStatus investigatorID : String),
      (TransitionAlertStatus later alert newStatus investigatorID).2 = none ↔
        newStatus = "INVESTIGATING" := by
  unfold GenerateAlert at h
  cases hp : getPriorityForAlertType alertType with
  | error e => simp [hp] at h
  | ok priority =>
    simp only [hp] at h
    cases hs : CalculateRiskScore fusion tx.Amount priority with
    | error e => simp [hs] at h
    | ok score =>
      simp only [hs, Except.ok.injEq] at h
      subst h
      refine ⟨rfl, rfl, rfl, rfl, rfl, rfl, rfl, ?_⟩
      intro later newStatus investigatorID
      rw [TransitionAlertStatus_error]
      have hopen : allowedTransitions "OPEN" = some ["INVESTIGATING"] := by decide
      simp only [hopen, List.mem_singleton]
      by_cases hn : newStatus = "INVESTIGATING"
      · simp [hn]
      · simp [hn]

/-- The alert of the first case of `TestGenerateAlert` is open and unassigned, and accepts
INVESTIGATING but not ESCALATED. -/
theorem fresh_alert_is_open_witness :
    ∃ alert, GenerateAlert .separate "id-1" testNow alertTestTx "THRESHOLD_VIOLATION"
        [("rule", .string "test")] = .ok alert ∧
      alert.Status = "OPEN" ∧ alert.AssignedTo = "" ∧ alert.TransactionID = "tx-123" ∧
      (TransitionAlertStatus testNow alert "INVESTIGATING" "inv-1").2 = none ∧
      (TransitionAlertStatus testNow alert "ESCALATED" "inv-1").2 ≠ none :=
  have h : GenerateAlert .separate "id-1" testNow alertTestTx "THRESHOLD_VIOLATION"
      [("rule", .string "test")] = .ok
        { ID := "id-1", TransactionID := "tx-123", AlertType := "THRESHOLD_VIOLATION",
          Priority := Medium, Score := F64.ofRat 201 5, CreatedAt := testNow,
          Status := "OPEN", AssignedTo := "", RuleDetails := [("rule", .string "test")],
          TransitionAt := Time.zero } := rfl
  have hfresh := fresh_alert_is_open .separate "id-1" testNow alertTestTx "THRESHOLD_VIOLATION"
    [("rule", .string "test")] _ h
  ⟨_, h, hfresh.1, hfresh.2.1, hfresh.2.2.2.2.1,
    (hfresh.2.2.2.2.2.2.2 testNow "INVESTIGATING" "inv-1").mpr rfl,
    fun hnone => absurd ((hfresh.2.2.2.2.2.2.2 testNow "ESCALATED" "inv-1").mp hnone)
      (by decide)⟩

/-- C32: for all transactions, whatever their amounts (equal amounts in particular),
`GenerateAlert` builds an alert for type STRUCTURING_PATTERN and one for type
THRESHOLD_VIOLATION, the first with priority Critical and the second with priority Medium,
and Critical is strictly higher than Medium in the order Medium < High < Critical. -/
theorem structuring_outranks_threshold (fusion : Fusion) (newID₁ newID₂ : String)
    (now₁ now₂ : Time) (tx₁ tx₂ : Transaction) (ruleDetails₁ ruleDetails₂ : JSONMap) :
    Medium < High ∧ High < Critical ∧
    ∃ structuring threshold,
      GenerateAlert fusion newID₁ now₁ tx₁ "STRUCTURING_PATTERN" ruleDetails₁ =
        .ok structuring ∧
      GenerateAlert fusion newID₂ now₂ tx₂ "THRESHOLD_VIOLATION" ruleDetails₂ =
        .ok threshold ∧
      structuring.Priority = Critical ∧ threshold.Priority = Medium ∧
      threshold.Priority < structuring.Priority := by
  refine ⟨by decide, by decide, ?_⟩
  have h1 : getPriorityForAlertType "STRUCTURING_PATTERN" = .ok Critical := by decide
  have h2 : getPriorityForAlertType "THRESHOLD_VIOLATION" = .ok Medium := by decide
  simp only [GenerateAlert, h1, h2, CalculateRiskScore_ok fusion tx₁.Amount Critical (by simp),
    CalculateRiskScore_ok fusion tx₂.Amount Medium (by simp)]
  exact ⟨_, _, rfl, rfl, rfl, rfl, show Medium < Critical by decide⟩

/-! ## AlertLifecycle: the status machine is acyclic -/

/-- A successor of a status has a shorter longest path than the status. -/
theorem stepsLeft_successor (status target : String) (validTransitions : List String)
    (h : allowedTransitions status = some validTransitions) (ht : target ∈ validTransitions) :
    stepsLeft target < stepsLeft status := by
  rcases allowedTransitions_cases status validTransitions h with
    ⟨rfl, rfl⟩ | ⟨rfl, rfl⟩ | ⟨rfl, rfl⟩ | ⟨rfl, rfl⟩ | ⟨rfl, rfl⟩
  · simp only [List.mem_singleton] at ht
    subst ht
    decide
  · simp only [List.mem_cons, List.mem_singleton, List.not_mem_nil, or_false] at ht
    rcases ht with rfl | rfl <;> decide
  · simp only [List.mem_singleton] at ht
    subst ht
    decide
  · simp at ht
  · simp at ht

/-- A sequence of successful calls is no longer than the longest path from the status of the
alert, and ends in a status whose longest path is shorter by the number of calls at
least. -/
theorem successfulTransitions_length (calls : List TransitionCall) (alert final : Alert)
    (h : successfulTransitions alert calls = some final) :
    calls.length + stepsLeft final.Status ≤ stepsLeft alert.Status := by
  induction calls generalizing alert with
  | nil =>
    simp only [successfulTransitions, Option.some.injEq] at h
    subst h
    simp
  | cons call calls ih =>
    simp only [successfulTransitions] at h
    cases hres : TransitionAlertStatus call.now alert call.newStatus call.investigatorID with
    | mk next err =>
      cases err with
      | some e => simp [hres] at h
      | none =>
        simp only [hres] at h
        have hok : (TransitionAlertStatus call.now alert call.newStatus
            call.investigatorID).2 = none := by rw [hres]
        obtain ⟨hstatus, validTransitions, hentry, hmem⟩ :=
          TransitionAlertStatus_success call.now alert call.newStatus call.investigatorID hok
        rw [hres] at hstatus
        have hstep := stepsLeft_successor alert.Status call.newStatus validTransitions hentry
          hmem
        have hrest := ih next h
        simp only at hstatus
        rw [hstatus] at hrest
        simp only [List.length_cons]
        omega

/-- C38: the alert status machine is acyclic.  (a) No status is its own successor in
`allowedTransitions`, and a successful call of `TransitionAlertStatus` leaves a status other
than the one before it.  (b) Starting from any alert, every sequence of calls of
`TransitionAlertStatus` that all return no error has at most 3 calls.  (c) The path OPEN,
INVESTIGATING, ESCALATED, CLOSED has 3.  (d) An alert whose status is one of the five known
statuses has a known status after any call, successful or not. -/
theorem status_machine_acyclic :
    (∀ status validTransitions, allowedTransitions status = some validTransitions →
      status ∉ validTransitions) ∧
    (∀ (now : Time) (alert : Alert) (newStatus investigatorID : String),
      (TransitionAlertStatus now alert newStatus investigatorID).2 = none →
      (TransitionAlertStatus now alert newStatus investigatorID).1.Status ≠ alert.Status) ∧
    (∀ (alert final : Alert) (calls : List TransitionCall),
      successfulTransitions alert calls = some final → calls.length ≤ 3) ∧
    (∃ final, successfulTransitions (statusAlert "OPEN")
        [⟨testNow, "INVESTIGATING", "inv-1"⟩, ⟨testNow, "ESCALATED", ""⟩,
          ⟨testNow, "CLOSED", ""⟩] = some final ∧ final.Status = "CLOSED") ∧
    (∀ (now : Time) (alert : Alert) (newStatus investigatorID : String),
      alert.Status ∈ knownStatuses →
      (TransitionAlertStatus now alert newStatus investigatorID).1.Status ∈
        knownStatuses) := by
  refine ⟨?_, ?_, ?_, ?_, ?_⟩
  · intro status validTransitions h hmem
    exact absurd (stepsLeft_successor status status validTransitions h hmem) (lt_irrefl _)
  · intro now alert newStatus investigatorID hok heq
    obtain ⟨hstatus, validTransitions, hentry, hmem⟩ :=
      TransitionAlertStatus_success now alert newStatus investigatorID hok
    rw [hstatus] at heq
    subst heq
    exact absurd (stepsLeft_successor _ _ validTransitions hentry hmem) (lt_irrefl _)
  · intro alert final calls h
    have hlen := successfulTransitions_length calls alert final h
    have hmax : stepsLeft alert.Status ≤ 3 := by
      unfold stepsLeft
      split_ifs <;> omega
    omega
  · exact ⟨_, rfl, rfl⟩
  · intro now alert newStatus investigatorID hknown
    cases herr : (TransitionAlertStatus now alert newStatus investigatorID).2 with
    | some e =>
      rw [TransitionAlertStatus_unchanged now alert newStatus investigatorID
        (by rw [herr]; simp)]
      exact hknown
    | none =>
      obtain ⟨hstatus, validTransitions, hentry, hmem⟩ :=
        TransitionAlertStatus_success now alert newStatus investigatorID herr
      rw [hstatus]
      rcases allowedTransitions_cases alert.Status validTransitions hentry with
        ⟨-, rfl⟩ | ⟨-, rfl⟩ | ⟨-, rfl⟩ | ⟨-, rfl⟩ | ⟨-, rfl⟩
      · simp only [List.mem_singleton] at hmem
        subst hmem
        decide
      · simp only [List.mem_cons, List.mem_singleton, List.not_mem_nil, or_false] at hmem
        rcases hmem with rfl | rfl <;> decide
      · simp only [List.mem_singleton] at hmem
        subst hmem
        decide
      · simp at hmem
      · simp at hmem

/-- The two longest sequences of successful calls from an open alert, and their lengths; a
fourth call on the closed alert fails. -/
theorem status_machine_acyclic_witness :
    (∃ final, successfulTransitions (statusAlert "OPEN")
        [⟨testNow, "INVESTIGATING", "inv-1"⟩, ⟨testNow, "FALSE_POSITIVE", ""⟩] =
          some final ∧
      [(⟨testNow, "INVESTIGATING", "inv-1"⟩ : TransitionCall),
        ⟨testNow, "FALSE_POSITIVE", ""⟩].length ≤ 3) ∧
    successfulTransitions (statusAlert "OPEN")
      [⟨testNow, "INVESTIGATING", "inv-1"⟩, ⟨testNow, "ESCALATED", ""⟩,
        ⟨testNow, "CLOSED", ""⟩, ⟨testNow, "OPEN", ""⟩] = none ∧
    (TransitionAlertStatus testNow (statusAlert "ESCALATED") "CLOSED" "").1.Status ∈
      knownStatuses :=
  ⟨⟨_, rfl, status_machine_acyclic.2.2.1 (statusAlert "OPEN") _
      [⟨testNow, "INVESTIGATING", "inv-1"⟩, ⟨testNow, "FALSE_POSITIVE", ""⟩] rfl⟩,
    rfl,
    status_machine_acyclic.2.2.2.2 testNow (statusAlert "ESCALATED") "CLOSED" "" (by decide)⟩

/-! ## RuleEngine on validated rules -/

/-- The loop of `EvaluateRules` returns no error when the time window of every enabled rule
parses. -/
theorem EvaluateRules.loop_no_error (parseDuration : String → Except Error Duration)
    (clock : Nat → Time) (tx : Transaction) (history : List Transaction) (rules : List Rule)
    (hparse : ∀ rule ∈ rules, rule.Enabled = true →
      ∃ w, parseDuration rule.TimeWindow = .ok w)
    (k : Nat) (violations : List RuleViolation) :
    ∃ result, EvaluateRules.loop parseDuration clock tx history rules k violations =
      .ok result := by
  induction rules generalizing k violations with
  | nil => exact ⟨violations, rfl⟩
  | cons x rules ih =>
    have hrest := ih fun rule hr => hparse rule (List.mem_cons_of_mem _ hr)
    simp only [EvaluateRules.loop]
    cases hen : x.Enabled
    · simpa using hrest k violations
    · obtain ⟨w, hw⟩ := hparse x (List.mem_cons_self _ _) hen
      simp only [Bool.not_true, Bool.false_eq_true, if_false, Rule.GetTimeWindow, hw]
      split_ifs <;> exact hrest _ _

/-- The time window of every rule of a list that `validateRules` accepts parses. -/
theorem validateRules_parses (parseDuration : String → Except Error Duration)
    (rules : List Rule) (hvalid : validateRules parseDuration rules = .ok ()) :
    ∀ rule ∈ rules, ∃ w, parseDuration rule.TimeWindow = .ok w := by
  intro rule hmem
  cases hp : parseDuration rule.TimeWindow with
  | ok w => exact ⟨w, rfl⟩
  | error e =>
    exfalso
    obtain ⟨before, after, hsplit⟩ := List.append_of_mem hmem
    have herr := (validateRules.loop_error_iff parseDuration rules []).mpr
      ⟨before, rule, after, hsplit, Or.inr (Or.inl ⟨e, hp⟩)⟩
    obtain ⟨e', he'⟩ := herr
    unfold validateRules at hvalid
    rw [hvalid] at he'
    cases he'

/-- C36: for every rule list that `validateRules` accepts, `EvaluateRules` returns a
violation list and no error for every transaction, every history and every sequence of
clock readings: the time window of every rule parses, so the branch of the parse failure is
not taken. -/
theorem validated_rules_never_fail (parseDuration : String → Except Error Duration)
    (rules : List Rule) (hvalid : validateRules parseDuration rules = .ok ())
    (clock : Nat → Time) (tx : Transaction) (history : List Transaction) :
    (∀ rule ∈ rules, ∃ w, rule.GetTimeWindow parseDuration = .ok w) ∧
    (∃ violations, EvaluateRules parseDuration clock tx rules history = .ok violations) ∧
    ∀ e, EvaluateRules parseDuration clock tx rules history ≠ .error e := by
  have hparse := validateRules_parses parseDuration rules hvalid
  obtain ⟨result, hresult⟩ := EvaluateRules.loop_no_error parseDuration clock tx history rules
    (fun rule hr _ => hparse rule hr) 0 []
  refine ⟨hparse, ⟨result, hresult⟩, ?_⟩
  intro e he
  unfold EvaluateRules at he
  rw [hresult] at he
  cases he

/-- The three rules of `TestEvaluateRules` pass validation, and the evaluation of the test
`daily_cumulative_exceeds` returns its violations. -/
theorem validated_rules_never_fail_witness :
    validateRules parseTestWindow testRules = .ok () ∧
    ∃ violations, EvaluateRules parseTestWindow (fun _ => testNow) (testTx 15000 testNow)
      testRules busyHistory = .ok violations :=
  ⟨by decide,
    (validated_rules_never_fail parseTestWindow testRules (by decide) (fun _ => testNow)
      (testTx 15000 testNow) busyHistory).2.1⟩

/-! ## AlertGenerator: the bands of the score -/

/-- Go's `<=` is transitive. -/
theorem F64.le_trans (x y z : F64) (h1 : F64.le x y = true) (h2 : F64.le y z = true) :
    F64.le x z = true := by
  cases x <;> cases y <;> cases z <;>
    simp_all [F64.le, F64.lt, F64.eq]
  omega

/-- Two numbers that are not NaN compare with `<=` one way or the other. -/
theorem F64.le_total (x y : F64) (hx : x ≠ .nan) (hy : y ≠ .nan) :
    F64.le x y = true ∨ F64.le y x = true := by
  cases x <;> cases y <;> simp_all [F64.le, F64.lt, F64.eq]
  omega

/-- A number at most `a` is below a number at least `b` when `a < b`. -/
theorem F64.lt_of_le_of_lt_of_le (x y : F64) (a b : Int) (hab : a < b)
    (hx : F64.le x (.fin a) = true) (hy : F64.le (.fin b) y = true) :
    F64.lt x y = true := by
  cases x <;> cases y <;> simp_all [F64.le, F64.lt, F64.eq]
  omega

/-- The cap `math.Min(x, c)` is `x` when the result is at most a number below `c`. -/
theorem F64.min_eq_left_of_le (x : F64) (c d : Int) (hdc : d < c)
    (h : F64.le (F64.min x (.fin c)) (.fin d) = true) : F64.min x (.fin c) = x := by
  cases x with
  | nan => rfl
  | negInf => rfl
  | posInf =>
    simp [F64.min, F64.lt, F64.le, F64.eq] at h
    omega
  | fin a =>
    by_cases hac : a < c
    · simp [F64.min, F64.lt, hac]
    · simp [F64.min, F64.lt, hac, F64.le, F64.eq] at h
      omega

/-- The band of the score: for every non-negative amount and every valid priority, the
score is the uncapped score and lies between the score of the amount 0 and the score of the
amount 1000000, which are the ends of the band of the priority. -/
theorem CalculateRiskScore_band (fusion : Fusion) (a : F64) (p : PriorityLevel)
    (hp : p = Medium ∨ p = High ∨ p = Critical) (ha : F64.le (.fin 0) a = true) :
    CalculateRiskScore fusion a p = .ok (uncappedScore fusion a p) ∧
    F64.le (F64.ofInt (scoreBand p).1) (uncappedScore fusion a p) = true ∧
    F64.le (uncappedScore fusion a p) (F64.ofInt (scoreBand p).2) = true := by
  have hnan := (F64.ne_nan_of_le _ _ ha).2
  have hlow : CalculateRiskScore fusion (.fin 0) p = .ok (F64.ofInt (scoreBand p).1) := by
    cases fusion <;> rcases hp with h | h | h <;> subst h <;> decide
  have hhigh : CalculateRiskScore fusion (F64.ofInt 1000000) p =
      .ok (F64.ofInt (scoreBand p).2) := by
    cases fusion <;> rcases hp with h | h | h <;> subst h <;> decide
  obtain ⟨s0, s, h0, hs, hle0, -⟩ := CalculateRiskScore_mono fusion (.fin 0) a p hp ha
  rw [hlow, Except.ok.injEq] at h0
  subst h0
  have hup : F64.le s (F64.ofInt (scoreBand p).2) = true := by
    rcases F64.le_total a (F64.ofInt 1000000) hnan (by decide) with hle | hle
    · obtain ⟨s', t, hs', ht, hle', -⟩ :=
        CalculateRiskScore_mono fusion a (F64.ofInt 1000000) p hp hle
      rw [hs, Except.ok.injEq] at hs'
      rw [hhigh, Except.ok.injEq] at ht
      subst hs' ht
      exact hle'
    · obtain ⟨t, s', ht, hs', -, hconst⟩ :=
        CalculateRiskScore_mono fusion (F64.ofInt 1000000) a p hp hle
      rw [hs, Except.ok.injEq] at hs'
      rw [hhigh, Except.ok.injEq] at ht
      subst hs' ht
      rw [← hconst (by decide)]
      rcases hp with h | h | h <;> subst h <;> decide
  have hcap : s = uncappedScore fusion a p := by
    have hok := CalculateRiskScore_ok fusion a p hp
    rw [hs, Except.ok.injEq] at hok
    obtain ⟨c100, hC100⟩ := F64.exists_fin (F64.ofInt 100) (by decide) (by decide) (by decide)
    obtain ⟨c84, hC84⟩ := F64.exists_fin (F64.ofInt 84) (by decide) (by decide) (by decide)
    have hlt : c84 < c100 := by
      have : F64.lt (F64.ofInt 84) (F64.ofInt 100) = true := by decide
      rw [hC84, hC100] at this
      simpa [F64.lt] using this
    have hle84 : F64.le s (F64.ofInt 84) = true := by
      refine F64.le_trans _ _ _ hup ?_
      rcases hp with h | h | h <;> subst h <;> decide
    rw [hok]
    unfold uncappedScore
    rw [hC100]
    apply F64.min_eq_left_of_le _ c100 c84 hlt
    rw [← hC100, ← hC84, ← hok]
    exact hle84
  rw [hs, hcap]
  rw [hcap] at hle0 hup
  exact ⟨rfl, hle0, hup⟩

/-- What `GenerateAlert` puts into an alert it returns: a valid priority and the score of
the amount for this priority. -/
theorem GenerateAlert_score (fusion : Fusion) (newID : String) (now : Time) (tx : Transaction)
    (alertType : String) (ruleDetails : JSONMap) (alert : Alert)
    (h : GenerateAlert fusion newID now tx alertType ruleDetails = .ok alert) :
    (alert.Priority = Medium ∨ alert.Priority = High ∨ alert.Priority = Critical) ∧
    getPriorityForAlertType alertType = .ok alert.Priority ∧
    CalculateRiskScore fusion tx.Amount alert.Priority = .ok alert.Score := by
  unfold GenerateAlert at h
  cases hp : getPriorityForAlertType alertType with
  | error e => simp [hp] at h
  | ok priority =>
    simp only [hp] at h
    cases hs : CalculateRiskScore fusion tx.Amount priority with
    | error e => simp [hs] at h
    | ok score =>
      simp only [hs, Except.ok.injEq] at h
      subst h
      refine ⟨?_, rfl, hs⟩
      unfold getPriorityForAlertType at hp
      split_ifs at hp <;> simp only [Except.ok.injEq] at hp <;> simp [← hp]

/-- C39: for every non-negative amount, the score of `CalculateRiskScore` lies in [40, 44]
for Medium, in [60, 64] for High and in [80, 84] for Critical, and it is the value computed
before the cap at 100, which does not change it.  Hence, for any two non-negative amounts,
the score for a higher priority is strictly higher than the score for a lower priority, and
of two alerts that `GenerateAlert` builds for transactions with non-negative amounts, the
one with the higher priority has the strictly higher score.  This holds however the build
evaluates the sum of the score. -/
theorem score_bands_by_priority (fusion : Fusion) (a : F64) (ha : F64.le (.fin 0) a = true) :
    (CalculateRiskScore fusion a Medium = .ok (uncappedScore fusion a Medium) ∧
      F64.le (F64.ofInt 40) (uncappedScore fusion a Medium) = true ∧
      F64.le (uncappedScore fusion a Medium) (F64.ofInt 44) = true) ∧
    (CalculateRiskScore fusion a High = .ok (uncappedScore fusion a High) ∧
      F64.le (F64.ofInt 60) (uncappedScore fusion a High) = true ∧
      F64.le (uncappedScore fusion a High) (F64.ofInt 64) = true) ∧
    (CalculateRiskScore fusion a Critical = .ok (uncappedScore fusion a Critical) ∧
      F64.le (F64.ofInt 80) (uncappedScore fusion a Critical) = true ∧
      F64.le (uncappedScore fusion a Critical) (F64.ofInt 84) = true) ∧
    (∀ (b : F64) (p q : PriorityLevel), F64.le (.fin 0) b = true →
      (p = Medium ∨ p = High ∨ p = Critical) → (q = Medium ∨ q = High ∨ q = Critical) →
      p < q →
      ∃ s t, CalculateRiskScore fusion a p = .ok s ∧ CalculateRiskScore fusion b q = .ok t ∧
        F64.lt s t = true) ∧
    (∀ (newID₁ newID₂ : String) (now₁ now₂ : Time) (tx₁ tx₂ : Transaction)
      (alertType₁ alertType₂ : String) (ruleDetails₁ ruleDetails₂ : JSONMap)
      (alert₁ alert₂ : Alert),
      tx₁.Amount = a → F64.le (.fin 0) tx₂.Amount = true →
      GenerateAlert fusion newID₁ now₁ tx₁ alertType₁ ruleDetails₁ = .ok alert₁ →
      GenerateAlert fusion newID₂ now₂ tx₂ alertType₂ ruleDetails₂ = .ok alert₂ →
      (alert₁.Priority < alert₂.Priority → F64.lt alert₁.Score alert₂.Score = true) ∧
      (alert₂.Priority < alert₁.Priority → F64.lt alert₂.Score alert₁.Score = true)) := by
  have hstrict : ∀ (x y : F64) (p q : PriorityLevel), F64.le (.fin 0) x = true →
      F64.le (.fin 0) y = true →
      (p = Medium ∨ p = High ∨ p = Critical) → (q = Medium ∨ q = High ∨ q = Critical) →
      p < q → F64.lt (uncappedScore fusion x p) (uncappedScore fusion y q) = true := by
    intro x y p q hx hy hp hq hpq
    obtain ⟨-, -, hup⟩ := CalculateRiskScore_band fusion x p hp hx
    obtain ⟨-, hlow, -⟩ := CalculateRiskScore_band fusion y q hq hy
    obtain ⟨u, hu⟩ := F64.exists_fin (F64.ofInt (scoreBand p).2) (by
      rcases hp with h | h | h <;> subst h <;> decide) (by
      rcases hp with h | h | h <;> subst h <;> decide) (by
      rcases hp with h | h | h <;> subst h <;> decide)
    obtain ⟨l, hl⟩ := F64.exists_fin (F64.ofInt (scoreBand q).1) (by
      rcases hq with h | h | h <;> subst h <;> decide) (by
      rcases hq with h | h | h <;> subst h <;> decide) (by
      rcases hq with h | h | h <;> subst h <;> decide)
    have hul : u < l := by
      have : F64.lt (F64.ofInt (scoreBand p).2) (F64.ofInt (scoreBand q).1) = true := by
        rcases hp with h | h | h <;> subst h <;> rcases hq with h | h | h <;> subst h <;>
          first
            | decide
            | exact absurd hpq (by decide)
      rw [hu, hl] at this
      simpa [F64.lt] using this
    rw [hu] at hup
    rw [hl] at hlow
    exact F64.lt_of_le_of_lt_of_le _ _ u l hul hup hlow
  refine ⟨CalculateRiskScore_band fusion a Medium (Or.inl rfl) ha,
    CalculateRiskScore_band fusion a High (Or.inr (Or.inl rfl)) ha,
    CalculateRiskScore_band fusion a Critical (Or.inr (Or.inr rfl)) ha, ?_, ?_⟩
  · intro b p q hb hp hq hpq
    exact ⟨_, _, (CalculateRiskScore_band fusion a p hp ha).1,
      (CalculateRiskScore_band fusion b q hq hb).1,
      hstrict a b p q ha hb hp hq hpq⟩
  · intro newID₁ newID₂ now₁ now₂ tx₁ tx₂ alertType₁ alertType₂ ruleDetails₁ ruleDetails₂
      alert₁ alert₂ ha₁ ha₂ h₁ h₂
    subst ha₁
    obtain ⟨hp₁, -, hs₁⟩ := GenerateAlert_score _ _ _ _ _ _ _ h₁
    obtain ⟨hp₂, -, hs₂⟩ := GenerateAlert_score _ _ _ _ _ _ _ h₂
    rw [(CalculateRiskScore_band fusion tx₁.Amount alert₁.Priority hp₁ ha).1,
      Except.ok.injEq] at hs₁
    rw [(CalculateRiskScore_band fusion tx₂.Amount alert₂.Priority hp₂ ha₂).1,
      Except.ok.injEq] at hs₂
    rw [← hs₁, ← hs₂]
    exact ⟨hstrict _ _ _ _ ha ha₂ hp₁ hp₂, hstrict _ _ _ _ ha₂ ha hp₂ hp₁⟩

/-- The amount 50000: the scores are 40.2, 60.2 and 80.2, inside the three bands, and the
alert of type STRUCTURING_PATTERN for the amount 0 scores higher than the alert of type
ANOMALY_DETECTED for the amount 2000000. -/
theorem score_bands_by_priority_witness :
    F64.le (.fin 0) (F64.ofInt 50000) = true ∧
    (CalculateRiskScore .separate (F64.ofInt 50000) Medium =
        .ok (uncappedScore .separate (F64.ofInt 50000) Medium) ∧
      F64.le (F64.ofInt 40) (uncappedScore .separate (F64.ofInt 50000) Medium) = true ∧
      F64.le (uncappedScore .separate (F64.ofInt 50000) Medium) (F64.ofInt 44) = true) ∧
    uncappedScore .separate (F64.ofInt 50000) Medium = F64.ofRat 201 5 ∧
    uncappedScore .separate (F64.ofInt 50000) High = F64.ofRat 301 5 ∧
    uncappedScore .separate (F64.ofInt 50000) Critical = F64.ofRat 401 5 ∧
    CalculateRiskScore .separate (F64.ofInt 0) Critical = .ok (F64.ofInt 80) ∧
    CalculateRiskScore .separate (F64.ofInt 2000000) High = .ok (F64.ofInt 64) :=
  ⟨by decide, (score_bands_by_priority .separate (F64.ofInt 50000) (by decide)).1, by decide,
    by decide,
    by decide, by decide, by decide⟩

/-- C31: for each of the four valid alert types and every positive transaction amount,
`GenerateAlert` builds an alert and its score lies in the closed interval [0, 100], however
the build evaluates the sum of the score. -/
theorem score_within_bounds (fusion : Fusion) (alertType : String)
    (hvalid : alertType ∈ validAlertTypes)
    (newID : String) (now : Time) (tx : Transaction) (ruleDetails : JSONMap)
    (hpos : F64.lt (.fin 0) tx.Amount = true) :
    ∃ alert, GenerateAlert fusion newID now tx alertType ruleDetails = .ok alert ∧
      F64.le (F64.ofInt 0) alert.Score = true ∧ F64.le alert.Score (F64.ofInt 100) = true := by
  obtain ⟨p, hprio, hp⟩ : ∃ p, getPriorityForAlertType alertType = .ok p ∧
      (p = Medium ∨ p = High ∨ p = Critical) := by
    simp only [validAlertTypes, List.mem_cons, List.mem_singleton, List.not_mem_nil,
      or_false] at hvalid
    rcases hvalid with h | h | h | h <;> subst h
    · exact ⟨Medium, rfl, Or.inl rfl⟩
    · exact ⟨High, rfl, Or.inr (Or.inl rfl)⟩
    · exact ⟨Critical, rfl, Or.inr (Or.inr rfl)⟩
    · exact ⟨Medium, rfl, Or.inl rfl⟩
  have hnonneg : F64.le (.fin 0) tx.Amount = true := by
    simp only [F64.le, hpos, Bool.true_or]
  obtain ⟨hs, hlow, hup⟩ := CalculateRiskScore_band fusion tx.Amount p hp hnonneg
  have h0 : F64.le (F64.ofInt 0) (F64.ofInt (scoreBand p).1) = true := by
    rcases hp with h | h | h <;> subst h <;> decide
  have h100 : F64.le (F64.ofInt (scoreBand p).2) (F64.ofInt 100) = true := by
    rcases hp with h | h | h <;> subst h <;> decide
  simp only [GenerateAlert, hprio, hs]
  exact ⟨_, rfl, F64.le_trans _ _ _ h0 hlow, F64.le_trans _ _ _ hup h100⟩

/-- The alert of type GEOGRAPHIC_RISK for the amount 50000 has the score 40.2, and the scores
of the smallest positive amount and of `+Inf` with the type STRUCTURING_PATTERN are 80 and
84. -/
theorem score_within_bounds_witness :
    (∃ alert, GenerateAlert .separate "id-1" testNow alertTestTx "GEOGRAPHIC_RISK" [] = .ok alert ∧
      F64.le (F64.ofInt 0) alert.Score = true ∧
      F64.le alert.Score (F64.ofInt 100) = true) ∧
    CalculateRiskScore .separate alertTestTx.Amount Medium = .ok (F64.ofRat 201 5) ∧
    CalculateRiskScore .separate (.fin 1) Critical = .ok (F64.ofInt 80) ∧
    CalculateRiskScore .separate .posInf Critical = .ok (F64.ofInt 84) :=
  ⟨score_within_bounds .separate "GEOGRAPHIC_RISK" (by decide) "id-1" testNow alertTestTx []
      (by decide),
    by decide, by decide, by decide⟩

/-! ## AlertGenerator: the score formula in the builds -/

/-- On the characters up to U+007F, the upper-case character is from `A` to `Z` exactly for
the letters. -/
theorem toUpper_isUpper_iff_isAlpha (c : Char) (hc : c.val ≤ 0x7f) :
    ('A' ≤ c.toUpper ∧ c.toUpper ≤ 'Z') ↔ c.isAlpha = true := by
  have key : ∀ n : Fin 128,
      decide ('A' ≤ (Char.ofNat n.val).toUpper ∧ (Char.ofNat n.val).toUpper ≤ 'Z') =
        (Char.ofNat n.val).isAlpha := by
    decide
  have hlt : c.toNat < 128 := by
    have : c.val.toNat ≤ 0x7f := hc
    show c.val.toNat < 128
    omega
  have h := key ⟨c.toNat, hlt⟩
  simp only [Char.ofNat_toNat] at h
  rw [← h, decide_eq_true_eq]

/-- A character takes at least one byte, and one byte exactly when it is up to U+007F. -/
theorem length_utf8EncodeChar_eq_one (c : Char) :
    1 ≤ (String.utf8EncodeChar c).length ∧
    ((String.utf8EncodeChar c).length = 1 ↔ c.val ≤ 0x7f) := by
  unfold String.utf8EncodeChar
  simp only
  split_ifs with h1 h2 h3 <;> simp [h1]

/-- A letter from `A` to `Z` or from `a` to `z` is up to U+007F. -/
theorem ascii_of_isAlpha (c : Char) (h : c.isAlpha = true) : c.val ≤ 0x7f := by
  simp only [Char.isAlpha, Char.isUpper, Char.isLower, Bool.or_eq_true, Bool.and_eq_true,
    decide_eq_true_eq] at h
  show c.val.toNat ≤ 0x7f
  rcases h with ⟨-, h⟩ | ⟨-, h⟩
  · have : c.val.toNat ≤ 90 := h
    omega
  · have : c.val.toNat ≤ 122 := h
    omega

/-- The currencies `isValidCurrency` accepts: three characters, each a letter from `A` to
`Z` or from `a` to `z`. -/
theorem isValidCurrency_iff (unicode : UnicodeUpper) (currency : String) :
    isValidCurrency unicode currency = true ↔
      currency.length = 3 ∧ ∀ c ∈ currency.data, c.isAlpha = true := by
  obtain ⟨l⟩ := currency
  simp only [isValidCurrency, matchThreeUpper, strings.ToUpper, goBytes_eq, String.length,
    List.length_map, List.all_map]
  constructor
  · intro h
    by_cases hb : (l.flatMap String.utf8EncodeChar).length ≠ 3
    · rw [if_pos hb] at h
      cases h
    · rw [if_neg hb] at h
      simp only [Bool.and_eq_true, decide_eq_true_eq, List.all_eq_true, Function.comp] at h
      obtain ⟨hlen, hall⟩ := h
      refine ⟨hlen, ?_⟩
      obtain ⟨a, b, c, rfl⟩ := List.length_eq_three.mp hlen
      have hbytes : (String.utf8EncodeChar a).length + (String.utf8EncodeChar b).length +
          (String.utf8EncodeChar c).length = 3 := by
        have := not_not.mp hb
        simpa [List.flatMap_cons, Nat.add_assoc] using this
      have ha := length_utf8EncodeChar_eq_one a
      have hb' := length_utf8EncodeChar_eq_one b
      have hc := length_utf8EncodeChar_eq_one c
      have ha1 : a.val ≤ 0x7f := ha.2.mp (by omega)
      have hb1 : b.val ≤ 0x7f := hb'.2.mp (by omega)
      have hc1 : c.val ≤ 0x7f := hc.2.mp (by omega)
      intro x hx
      simp only [List.mem_cons, List.mem_singleton, List.not_mem_nil, or_false] at hx
      have hx1 : x.val ≤ 0x7f := by
        rcases hx with rfl | rfl | rfl <;> assumption
      have hxm : x ∈ [a, b, c] := by
        simp only [List.mem_cons, List.mem_singleton, List.not_mem_nil, or_false]
        exact hx
      have hup := hall x hxm
      rw [unicode.ascii x hx1] at hup
      exact (toUpper_isUpper_iff_isAlpha x hx1).mp hup
  · rintro ⟨hlen, hall⟩
    have hascii : ∀ c ∈ l, c.val ≤ 0x7f := fun c hc => ascii_of_isAlpha c (hall c hc)
    have hb : (l.flatMap String.utf8EncodeChar).length = 3 := by
      rw [flatMap_utf8EncodeChar_ascii l hascii, List.length_map]
      exact hlen
    rw [if_neg (not_not.mpr hb)]
    simp only [Bool.and_eq_true, decide_eq_true_eq, List.all_eq_true, Function.comp]
    refine ⟨hlen, ?_⟩
    intro x hx
    rw [unicode.ascii x (hascii x hx)]
    exact (toUpper_isUpper_iff_isAlpha x (hascii x hx)).mpr (hall x hx)

/-- What `validateTransaction` accepts: the six required fields are non-empty, the amount is
not `<= 0`, and the currency is three letters from `A` to `Z` or `a` to `z`. -/
theorem validateTransaction_ok_iff (unicode : UnicodeUpper) (t : Transaction) :
    validateTransaction unicode t = .ok () ↔
      t.AccountID ≠ "" ∧ t.Currency ≠ "" ∧ t.SourceCountry ≠ "" ∧
      t.DestinationCountry ≠ "" ∧ t.TransactionType ≠ "" ∧ t.Status ≠ "" ∧
      F64.le t.Amount (.fin 0) = false ∧
      t.Currency.length = 3 ∧ ∀ c ∈ t.Currency.data, c.isAlpha = true := by
  unfold validateTransaction
  by_cases hreq : t.AccountID = "" ∨ t.Currency = "" ∨ t.SourceCountry = "" ∨
      t.DestinationCountry = "" ∨ t.TransactionType = "" ∨ t.Status = ""
  · rw [if_pos hreq]
    constructor
    · intro h
      cases h
    · rintro ⟨h1, h2, h3, h4, h5, h6, -⟩
      rcases hreq with h | h | h | h | h | h <;> contradiction
  · rw [if_neg hreq]
    simp only [not_or] at hreq
    obtain ⟨h1, h2, h3, h4, h5, h6⟩ := hreq
    by_cases hle : F64.le t.Amount (.fin 0) = true
    · rw [if_pos hle]
      constructor
      · intro h
        cases h
      · rintro ⟨-, -, -, -, -, -, hn, -⟩
        rw [hle] at hn
        cases hn
    · rw [if_neg hle]
      have hle' : F64.le t.Amount (.fin 0) = false := by
        simpa using hle
      by_cases hcur : isValidCurrency unicode t.Currency = true
      · simp only [hcur, Bool.not_true, Bool.false_eq_true, if_false, true_iff]
        exact ⟨h1, h2, h3, h4, h5, h6, hle', (isValidCurrency_iff unicode _).mp hcur⟩
      · have hcur' : isValidCurrency unicode t.Currency = false := by
          simpa using hcur
        simp only [hcur', Bool.not_false, if_true]
        constructor
        · intro h
          cases h
        · rintro ⟨-, -, -, -, -, -, -, hc⟩
          exact absurd ((isValidCurrency_iff unicode _).mpr hc) hcur

/-- For a number, not `<= 0` is `> 0`.  (For NaN both comparisons are false, so the test
`t.Amount <= 0` of `validateTransaction` would let a NaN amount pass.) -/
theorem F64.not_le_zero_iff_gt (x : F64) (hx : x ≠ .nan) :
    F64.le x (.fin 0) = false ↔ F64.gt x (.fin 0) = true := by
  cases x with
  | nan => exact absurd rfl hx
  | negInf => simp [F64.le, F64.gt, F64.lt, F64.eq]
  | posInf => simp [F64.le, F64.gt, F64.lt, F64.eq]
  | fin z =>
    simp only [F64.le, F64.gt, F64.lt, F64.eq, Bool.or_eq_false_iff, decide_eq_false_iff_not,
      decide_eq_true_eq, F64.fin.injEq]
    omega

/-- C35: for every transaction whose amount is a number (every amount decoded from the JSON
body of a request is one; NaN is not), `validateTransaction` accepts the transaction
exactly when its account ID, currency, source country, destination country, transaction
type and status are all non-empty, its amount is strictly positive, and its currency is
three letters from `A` to `Z` or `a` to `z`, in any mix of cases.  Every other such
transaction is rejected with an error, and so is every one whose currency is three bytes
long and holds a character that is not such a letter. -/
theorem validate_transaction_accepts_iff (unicode : UnicodeUpper) (t : Transaction)
    (hnumber : t.Amount ≠ .nan) :
    (validateTransaction unicode t = .ok () ↔
      t.AccountID ≠ "" ∧ t.Currency ≠ "" ∧ t.SourceCountry ≠ "" ∧
      t.DestinationCountry ≠ "" ∧ t.TransactionType ≠ "" ∧ t.Status ≠ "" ∧
      F64.gt t.Amount (.fin 0) = true ∧
      t.Currency.length = 3 ∧ ∀ c ∈ t.Currency.data, c.isAlpha = true) ∧
    (validateTransaction unicode t ≠ .ok () → ∃ e, validateTransaction unicode t = .error e) ∧
    ((goBytes t.Currency).length = 3 → (∃ c ∈ t.Currency.data, c.isAlpha = false) →
      ∃ e, validateTransaction unicode t = .error e) := by
  have hiff := validateTransaction_ok_iff unicode t
  have hreject : validateTransaction unicode t ≠ .ok () →
      ∃ e, validateTransaction unicode t = .error e := by
    intro h
    cases hv : validateTransaction unicode t with
    | error e => exact ⟨e, rfl⟩
    | ok u => exact absurd hv h
  refine ⟨?_, hreject, ?_⟩
  · rw [hiff, F64.not_le_zero_iff_gt t.Amount hnumber]
  · rintro - ⟨c, hc, hnot⟩
    apply hreject
    intro hok
    obtain ⟨-, -, -, -, -, -, -, -, hall⟩ := hiff.mp hok
    rw [hall c hc] at hnot
    cases hnot

/-- The currencies "usd" and "UsD" are accepted; "U5D", the two-letter "US", and the three
bytes of U+0131 followed by `A` (which `strings.ToUpper` turns into "IA") are rejected, as
are an amount of 0, a negative amount and an empty status. -/
theorem validate_transaction_accepts_iff_witness :
    validTx.Amount ≠ .nan ∧
    validateTransaction exampleUpper validTx = .ok () ∧
    validateTransaction exampleUpper { validTx with Currency := "UsD" } = .ok () ∧
    (∃ e, validateTransaction exampleUpper { validTx with Currency := "U5D" } = .error e) ∧
    validateTransaction exampleUpper { validTx with Currency := "US" } =
      .error "currency must be a 3-letter ISO code" ∧
    (goBytes "ıA").length = 3 ∧
    strings.ToUpper exampleUpper "ıA" = "IA" ∧
    validateTransaction exampleUpper { validTx with Currency := "ıA" } =
      .error "currency must be a 3-letter ISO code" ∧
    validateTransaction exampleUpper { validTx with Amount := .fin 0 } =
      .error "amount must be greater than 0" ∧
    validateTransaction exampleUpper { validTx with Amount := F64.ofInt (-5) } =
      .error "amount must be greater than 0" ∧
    validateTransaction exampleUpper { validTx with Status := "" } =
      .error "all required fields must be present" :=
  ⟨by decide,
    (validate_transaction_accepts_iff exampleUpper validTx (by decide)).1.mpr
      ⟨by decide, by decide, by decide, by decide, by decide, by decide, by decide, by decide,
        by decide⟩,
    by decide,
    (validate_transaction_accepts_iff exampleUpper { validTx with Currency := "U5D" }
      (by decide)).2.2 (by decide) ⟨'5', by decide, by decide⟩,
    by decide, by decide, by decide, by decide, by decide, by decide, by decide⟩

/-! ## SARExporter: the exported document -/

/-- In a map, an entry is read back under its key. -/
theorem mapLookup_of_mem {α : Type} (m : List (String × α)) (key : String) (value : α)
    (hm : (m.map fun e => e.1).Nodup) (h : (key, value) ∈ m) :
    mapLookup m key = some value := by
  induction m with
  | nil => simp at h
  | cons e m ih =>
    obtain ⟨k, v⟩ := e
    simp only [List.map_cons, List.nodup_cons] at hm
    rcases List.mem_cons.mp h with heq | hmem
    · simp only [Prod.mk.injEq] at heq
      simp [mapLookup, heq.1, heq.2]
    · have hk : k ≠ key := by
        rintro rfl
        exact hm.1 (List.mem_map.mpr ⟨(k, value), hmem, rfl⟩)
      simp only [mapLookup, hk, if_false]
      exact ih hm.2 hmem

/-- Two lists of the entries of one map give the same reads. -/
theorem mapLookup_perm {α : Type} (l m : List (String × α)) (hp : l.Perm m)
    (hm : (m.map fun e => e.1).Nodup) (key : String) :
    mapLookup l key = mapLookup m key := by
  have hl : (l.map fun e => e.1).Nodup := (hp.map _).nodup_iff.mpr hm
  cases h : mapLookup m key with
  | none =>
    rw [mapLookup_eq_none_iff] at h ⊢
    intro hmem
    exact h ((hp.map _).subset hmem)
  | some value =>
    exact mapLookup_of_mem l key value hl (hp.symm.subset (mem_of_mapLookup m key value h))

/-- The map built by writing, for each entry of a map in turn, the image of its value under
its key: a read gives the image of the value of the key, and what the map held before for
the other keys. -/
theorem mapLookup_foldl_mapSet {α β : Type} (g : α → β) (entries : List (String × α))
    (acc : List (String × β)) (hentries : (entries.map fun e => e.1).Nodup) (key : String) :
    mapLookup (entries.foldl (fun m e => mapSet m e.1 (g e.2)) acc) key =
      match mapLookup entries key with
      | some value => some (g value)
      | none => mapLookup acc key := by
  induction entries generalizing acc with
  | nil => rfl
  | cons e entries ih =>
    obtain ⟨k, v⟩ := e
    simp only [List.map_cons, List.nodup_cons] at hentries
    rw [List.foldl_cons, ih _ hentries.2]
    by_cases hk : k = key
    · subst hk
      have hnone : mapLookup entries k = none := (mapLookup_eq_none_iff entries k).mpr hentries.1
      simp only [hnone, mapLookup, if_true, mapLookup_mapSet_self]
    · simp only [mapLookup, hk, if_false]
      cases mapLookup entries key with
      | some value => rfl
      | none => exact mapLookup_mapSet_ne acc k key _ hk

/-- C34: in the document that `ExportSARToJSON` hands to `json.MarshalIndent`, for a report
whose map of patterns holds each key once, and whatever the order in which the patterns
are visited: the subject fields and the report-level totals are those of the report; the
document has a pattern under a key exactly when the report has one; and the pattern under
a key has the description, total amount and count of the report's pattern and as many
transactions, where the transaction at every position has `account_id` equal to
`MaskAccountNumber` of the `AccountID` of the report's transaction at that position and
every other field but the timestamp equal to that transaction's field (the timestamp is
its formatted timestamp). -/
theorem export_masks_account_ids (format : Time → String) (range : PatternRange)
    (report : SARReport) (hkeys : (report.Patterns.map fun e => e.1).Nodup) :
    (ExportSARToJSON.document format range report).SubjectName = report.SubjectName ∧
    (ExportSARToJSON.document format range report).SubjectAddress = report.SubjectAddress ∧
    (ExportSARToJSON.document format range report).SubjectDateOfBirth =
      report.SubjectDateOfBirth ∧
    (ExportSARToJSON.document format range report).TotalSuspiciousAmount =
      report.TotalSuspiciousAmount ∧
    (ExportSARToJSON.document format range report).TotalTransactionCount =
      report.TotalTransactionCount ∧
    (∀ key, mapLookup (ExportSARToJSON.document format range report).Patterns key = none ↔
      mapLookup report.Patterns key = none) ∧
    (∀ key pattern, mapLookup report.Patterns key = some pattern →
      ∃ exported : PatternJSON,
        mapLookup (ExportSARToJSON.document format range report).Patterns key =
          some exported ∧
        exported.PatternDescription = pattern.PatternDescription ∧
        exported.TotalAmount = pattern.TotalAmount ∧
        exported.TransactionCount = pattern.TransactionCount ∧
        exported.Transactions.length = pattern.Transactions.length ∧
        ∀ (i : Nat) (transaction : Transaction),
          pattern.Transactions[i]? = some transaction →
          ∃ item : TransactionJSON, exported.Transactions[i]? = some item ∧
            item.AccountID = MaskAccountNumber transaction.AccountID ∧
            item.TransactionID = transaction.TransactionID ∧
            item.Amount = transaction.Amount ∧
            item.Currency = transaction.Currency ∧
            item.Timestamp = format transaction.Timestamp ∧
            item.SourceCountry = transaction.SourceCountry ∧
            item.DestinationCountry = transaction.DestinationCountry ∧
            item.TransactionType = transaction.TransactionType ∧
            item.Status = transaction.Status) ∧
    ∀ (marshalIndent : SARReportJSON → Except Error (List UInt8))
      (writeFile : String → List UInt8 → Nat → Except Error Unit) (filepath : String)
      (jsonData : List UInt8),
      marshalIndent (ExportSARToJSON.document format range report) = .ok jsonData →
      writeFile filepath jsonData 0o600 = .ok () →
      ExportSARToJSON format range marshalIndent writeFile report filepath = .ok () := by
  have hlookup : ∀ key,
      mapLookup (ExportSARToJSON.document format range report).Patterns key =
        match mapLookup report.Patterns key with
        | some pattern => some (ExportSARToJSON.pattern format pattern)
        | none => none := by
    intro key
    have hperm := range.perm report.Patterns
    have hnodup : ((range.entries report.Patterns).map fun e => e.1).Nodup :=
      (hperm.map _).nodup_iff.mpr hkeys
    simp only [ExportSARToJSON.document]
    rw [mapLookup_foldl_mapSet (ExportSARToJSON.pattern format) _ [] hnodup key,
      mapLookup_perm _ _ hperm hkeys key]
    cases mapLookup report.Patterns key <;> rfl
  refine ⟨rfl, rfl, rfl, rfl, rfl, ?_, ?_, ?_⟩
  · intro key
    rw [hlookup key]
    cases mapLookup report.Patterns key <;> simp
  · intro key pattern hpattern
    refine ⟨ExportSARToJSON.pattern format pattern, ?_, rfl, rfl, rfl, ?_, ?_⟩
    · rw [hlookup key, hpattern]
    · simp only [ExportSARToJSON.pattern, List.length_map]
    · intro i transaction hi
      refine ⟨ExportSARToJSON.transaction format transaction, ?_, rfl, rfl, rfl, rfl, rfl,
        rfl, rfl, rfl, rfl⟩
      simp only [ExportSARToJSON.pattern, List.getElem?_map, hi, Option.map_some']
  · intro marshalIndent writeFile filepath jsonData hmarshal hwrite
    simp only [ExportSARToJSON, hmarshal, hwrite]

/-- In the document of the report of `TestExportSARToJSON`, the account "ACCT9876543210" is
exported as "XXXX-XXXX-XXXX-3210". -/
theorem export_masks_account_ids_witness :
    (mockSARReport.Patterns.map fun e => e.1).Nodup ∧
    MaskAccountNumber "ACCT9876543210" = goBytes "XXXX-XXXX-XXXX-3210" ∧
    ExportSARToJSON.document formatTestTime listOrder mockSARReport =
      { SubjectName := "John Doe", SubjectAddress := "123 Main St",
        SubjectDateOfBirth := "1980-05-20", StartDate := "2023-01-01T00:00:00Z",
        EndDate := "2023-01-31T23:59:59Z", TotalSuspiciousAmount := F64.ofRat 6003 4,
        TotalTransactionCount := 1,
        Patterns :=
          [("LargeTransaction",
            { PatternDescription := "Large single transaction",
              Transactions :=
                [{ TransactionID := "TXN123", AccountID := goBytes "XXXX-XXXX-XXXX-3210",
                   Amount := F64.ofRat 6003 4, Currency := "USD",
                   Timestamp := "2023-01-15T10:30:00Z", SourceCountry := "USA",
                   DestinationCountry := "CAN", TransactionType := "Wire Transfer",
                   Status := "Completed" }],
              TotalAmount := F64.ofRat 6003 4, TransactionCount := 1 })] } ∧
    ∃ exported : PatternJSON,
      mapLookup (ExportSARToJSON.document formatTestTime listOrder mockSARReport).Patterns
        "LargeTransaction" = some exported ∧
      exported.PatternDescription = mockPattern.PatternDescription ∧
      exported.TotalAmount = mockPattern.TotalAmount ∧
      exported.TransactionCount = mockPattern.TransactionCount ∧
      exported.Transactions.length = mockPattern.Transactions.length ∧
      ∀ (i : Nat) (transaction : Transaction),
        mockPattern.Transactions[i]? = some transaction →
        ∃ item : TransactionJSON, exported.Transactions[i]? = some item ∧
          item.AccountID = MaskAccountNumber transaction.AccountID ∧
          item.TransactionID = transaction.TransactionID ∧
          item.Amount = transaction.Amount ∧
          item.Currency = transaction.Currency ∧
          item.Timestamp = formatTestTime transaction.Timestamp ∧
          item.SourceCountry = transaction.SourceCountry ∧
          item.DestinationCountry = transaction.DestinationCountry ∧
          item.TransactionType = transaction.TransactionType ∧
          item.Status = transaction.Status :=
  ⟨by decide, by decide, by decide,
    (export_masks_account_ids formatTestTime listOrder mockSARReport (by decide)).2.2.2.2.2.2.1
      "LargeTransaction" mockPattern rfl⟩

end AML
